import Mathlib

/-! # Page cache of the document viewer (`libview/ev-page-cache.c`)

A shallow embedding of the page cache: the builder of the cumulative offset
tables (`build_height_to_page`), cache construction with the thumbnail
dimension pass (`ev_page_cache_new`), the current-page operations and the
geometry queries.

Conventions of the embedding.

* `gdouble` and `gfloat` values are exact rationals (`ℚ`); the conversion of a
  `double` to `gint` is truncation toward zero (`truncToInt`).
* Where the rounding of `double` arithmetic decides a result, namely in the
  comparison of the two branches of the table builder, the builder is embedded
  a second time as `build_height_to_page_fl fl`, the same statements with the
  result of every `double` multiplication and addition passed through `fl`.
  With `fl` the identity it is `build_height_to_page`
  (`build_height_to_page_fl_id`); with `fl` the rounding `round_binary64` (IEEE
  754 binary64, round to nearest, ties to even, no overflow to infinity) it is
  the builder on a machine that evaluates each `double` operation in binary64.
* `gint` values are mathematical integers (`Int`); a page count and the loop
  counters, which run upward from `0` or `1`, are natural numbers.
* A heap array is a `List`; a store outside the allocated length is a fault,
  rendered as `none` (`arrayWrite`), and so is a load outside it.
* A `for` loop is a recursive function carrying its counter and the variables
  it updates, with a fuel argument that bounds the number of iterations;
  running out of fuel is `none` as well.  The callers pass enough fuel and the
  theorems prove that the result is `some`.
* A signal emission (`g_signal_emit`) is recorded in the list of emitted
  signals that each operation returns next to the new cache state.
* The checks `g_return_if_fail (EV_IS_PAGE_CACHE (page_cache))` hold by typing
  and are left out; the out-pointers of the queries are taken to be non-`NULL`,
  so a query returns every value it would store.
* `gint` arithmetic wraps modulo `2^32` into `[-2^31, 2^31)`, as the
  two's complement machine code does: the one subtraction of the file,
  `page - page_cache->current_page`, and the `abs` applied to it go through
  `wrap_gint`.

The file has three parts: the embedding of the source, the closed forms of the
tables and of the thumbnail pass together with the example documents, and the
lemmas and claims.
-/

namespace Evince

/-! ## Data model -/

/-- Thumbnail size record `EvPageThumbsInfo`. -/
structure EvPageThumbsInfo where
  width : Int
  height : Int
  deriving DecidableEq, Repr

/-- The document capability consumed by the cache (`EvDocument`): the
functions the cache calls on it.  `thumbnails` is `none` when the document is
not an `EV_DOCUMENT_THUMBNAILS`; otherwise it is the dimension query, taking
the page and the scale of the render context. -/
structure EvDocument where
  n_pages : Nat
  is_page_size_uniform : Bool
  page_size : Int → ℚ × ℚ
  max_page_size : ℚ × ℚ
  find_page_by_label : String → Option Int
  thumbnails : Option (Int → ℚ → Int × Int)

/-- The two signals of the class, each carrying a page. -/
inductive Signal where
  | page_changed (page : Int)
  | history_changed (page : Int)
  deriving DecidableEq, Repr

/-- Cache object `struct _EvPageCache`.  The two offset tables are `[]` while
unallocated (`NULL`); `thumbs_size_cache` is `none` while unallocated. -/
structure EvPageCache where
  document : EvDocument
  current_page : Int
  dual_even_left : Bool
  height_to_page : List ℚ
  dual_height_to_page : List ℚ
  rotation : Int
  thumbs_uniform : Bool
  thumbs_uniform_width : Int
  thumbs_uniform_height : Int
  thumbs_max_width : Int
  thumbs_max_height : Int
  thumbs_size_cache : Option (List EvPageThumbsInfo)

/-- A 32-bit `gint` result: the integer reduced modulo `2^32` into
`[-2^31, 2^31)`. -/
def wrap_gint (x : Int) : Int := (x + 2147483648) % 4294967296 - 2147483648

/-- Subtraction of two `gint` values. -/
def gint_sub (a b : Int) : Int := wrap_gint (a - b)

/-- The C library `abs` on a `gint`; `abs (INT_MIN)` wraps to `INT_MIN`. -/
def gint_abs (a : Int) : Int := wrap_gint |a|

/-- Conversion of a `double` to `gint`: truncation toward zero. -/
def truncToInt (q : ℚ) : Int := Int.tdiv q.num (q.den : Int)

/-- Store `v` at index `i` of an array; a store outside the array is a fault. -/
def arrayWrite {α : Type} (tbl : List α) (i : Nat) (v : α) : Option (List α) :=
  if i < tbl.length then some (tbl.set i v) else none

/-- Load from index `i` (a `gint`) of an array; a load outside it is a fault. -/
def arrayRead {α : Type} (tbl : List α) (i : Int) : Option α :=
  if i < 0 then none else tbl[i.toNat]?

/-- Zero-initialised allocation `g_new0 (double, len)`. -/
def g_new0 (len : Nat) : List ℚ := List.replicate len 0

/-- A page's extent along the scroll axis as read in `build_height_to_page`:
`ev_document_get_page_size (document, i, &w, &h); swap ? w : h`. -/
def page_extent (doc : EvDocument) (swap : Bool) (i : Nat) : ℚ :=
  if swap then (doc.page_size (i : Int)).1 else (doc.page_size (i : Int)).2

/-! ## `build_height_to_page` -/

/-- First loop of `build_height_to_page`,
`for (i = 0; i <= n_pages; i++)`, filling `height_to_page`.  `u` holds
`(u_width, u_height)`. -/
def height_loop (doc : EvDocument) (swap uniform : Bool) (u : ℚ × ℚ) :
    Nat → Nat → ℚ → List ℚ → Option (List ℚ × ℚ)
  | 0, _, _, _ => none
  | fuel + 1, i, saved_height, tbl =>
    if i ≤ doc.n_pages then
      if uniform then
        let uniform_height := if swap then u.1 else u.2
        match arrayWrite tbl i ((i : ℚ) * uniform_height) with
        | none => none
        | some tbl1 => height_loop doc swap uniform u fuel (i + 1) saved_height tbl1
      else
        let page_height := if i < doc.n_pages then page_extent doc swap i else 0
        match arrayWrite tbl i saved_height with
        | none => none
        | some tbl1 =>
          height_loop doc swap uniform u fuel (i + 1) (saved_height + page_height) tbl1
    else some (tbl, saved_height)

/-- Second loop of `build_height_to_page`,
`for (i = dual_even_left; i < n_pages + 2; i += 2)`, filling
`dual_height_to_page`.  `del` is `dual_even_left` as an integer. -/
def dual_loop (doc : EvDocument) (swap uniform : Bool) (u : ℚ × ℚ) (del : Nat) :
    Nat → Nat → ℚ → List ℚ → Option (List ℚ × ℚ)
  | 0, _, _, _ => none
  | fuel + 1, i, saved_height, tbl =>
    if i < doc.n_pages + 2 then
      if uniform then
        let uniform_height := if swap then u.1 else u.2
        match arrayWrite tbl i ((((i + del) / 2 : Nat) : ℚ) * uniform_height) with
        | none => none
        | some tbl1 =>
          if i + 1 < doc.n_pages + 2 then
            match arrayWrite tbl1 (i + 1) ((((i + del) / 2 : Nat) : ℚ) * uniform_height) with
            | none => none
            | some tbl2 => dual_loop doc swap uniform u del fuel (i + 2) saved_height tbl2
          else dual_loop doc swap uniform u del fuel (i + 2) saved_height tbl1
      else
        let next_page_height := if i + 1 < doc.n_pages then page_extent doc swap (i + 1) else 0
        let page_height := if i < doc.n_pages then page_extent doc swap i else 0
        if i + 1 < doc.n_pages + 2 then
          match arrayWrite tbl i saved_height with
          | none => none
          | some tbl1 =>
            match arrayWrite tbl1 (i + 1) saved_height with
            | none => none
            | some tbl2 =>
              dual_loop doc swap uniform u del fuel (i + 2)
                (saved_height + max page_height next_page_height) tbl2
        else
          match arrayWrite tbl i saved_height with
          | none => none
          | some tbl1 => dual_loop doc swap uniform u del fuel (i + 2) saved_height tbl1
    else some (tbl, saved_height)

/-- The table builder `build_height_to_page`: both tables are freed,
reallocated zeroed with `n_pages + 1` and `n_pages + 2` entries, and
filled by the two loops. -/
def build_height_to_page (page_cache : EvPageCache) : Option EvPageCache :=
  let doc := page_cache.document
  let swap : Bool := page_cache.rotation == 90 || page_cache.rotation == 270
  let uniform := doc.is_page_size_uniform
  let n_pages := doc.n_pages
  let dual_even_left : Bool := decide (n_pages > 2)
  let del : Nat := if dual_even_left then 1 else 0
  let u : ℚ × ℚ := if uniform then doc.page_size 0 else (0, 0)
  match height_loop doc swap uniform u (n_pages + 2) 0 0 (g_new0 (n_pages + 1)) with
  | none => none
  | some (htp, _) =>
    let saved_height : ℚ := if dual_even_left && !uniform then page_extent doc swap 0 else 0
    match dual_loop doc swap uniform u del (n_pages + 3) del saved_height
        (g_new0 (n_pages + 2)) with
    | none => none
    | some (dhtp, _) =>
      some { page_cache with height_to_page := htp, dual_height_to_page := dhtp }


/-! ## Construction: `ev_page_cache_init`, `ev_page_cache_new` -/

/-- The zero-filled object `g_object_new` hands to the instance initialiser,
with the `document` field that `ev_page_cache_new` assigns right after. -/
def g_object_new (document : EvDocument) : EvPageCache :=
  { document := document, current_page := 0, dual_even_left := false,
    height_to_page := [], dual_height_to_page := [], rotation := 0,
    thumbs_uniform := false, thumbs_uniform_width := 0, thumbs_uniform_height := 0,
    thumbs_max_width := 0, thumbs_max_height := 0, thumbs_size_cache := none }

/-- Instance initialiser `ev_page_cache_init`. -/
def ev_page_cache_init (page_cache : EvPageCache) : EvPageCache :=
  { page_cache with current_page := -1 }

/-- Setter `ev_page_cache_set_current_page`. -/
def ev_page_cache_set_current_page (page_cache : EvPageCache) (page : Int) :
    EvPageCache × List Signal :=
  if page = page_cache.current_page then (page_cache, [])
  else ({ page_cache with current_page := page }, [Signal.page_changed page])

/-- Inner loop of the thumbnail pass, `for (j = 0; j < i; j++)`, storing the
uniform size in the entries below `i`. -/
def backfill_loop (width height : Int) (i : Nat) :
    Nat → Nat → List EvPageThumbsInfo → Option (List EvPageThumbsInfo)
  | 0, _, _ => none
  | fuel + 1, j, cache =>
    if j < i then
      match arrayWrite cache j { width := width, height := height } with
      | none => none
      | some cache1 => backfill_loop width height i fuel (j + 1) cache1
    else some cache

/-- First part of the body of the thumbnail pass: the two running maxima are
raised to the thumbnail size of the page. -/
def thumbs_update_max (page_cache : EvPageCache) (thumb_width thumb_height : Int) :
    EvPageCache :=
  let pc1 := if thumb_width > page_cache.thumbs_max_width
    then { page_cache with thumbs_max_width := thumb_width } else page_cache
  if thumb_height > pc1.thumbs_max_height
    then { pc1 with thumbs_max_height := thumb_height } else pc1

/-- Second part of the body of the thumbnail pass, for page `i`: the uniform
size is seeded at page 0, the table is allocated and backfilled at the first
page of a different size, and the page is recorded once the table exists. -/
def thumbs_record (document : EvDocument) (i : Nat) (thumb_width thumb_height : Int)
    (pc2 : EvPageCache) : Option EvPageCache :=
  let pc3 : Option EvPageCache :=
    if i = 0 then
      some { pc2 with thumbs_uniform_width := thumb_width,
                      thumbs_uniform_height := thumb_height }
    else if pc2.thumbs_uniform &&
        (pc2.thumbs_uniform_width != thumb_width ||
         pc2.thumbs_uniform_height != thumb_height) then
      match backfill_loop pc2.thumbs_uniform_width pc2.thumbs_uniform_height i (i + 1) 0
          (List.replicate document.n_pages { width := 0, height := 0 }) with
      | none => none
      | some cache => some { pc2 with thumbs_size_cache := some cache,
                                      thumbs_uniform := false }
    else some pc2
  match pc3 with
  | none => none
  | some pc3 =>
    if !pc3.thumbs_uniform then
      match pc3.thumbs_size_cache with
      | none => none
      | some cache =>
        match arrayWrite cache i { width := thumb_width, height := thumb_height } with
        | none => none
        | some cache1 => some { pc3 with thumbs_size_cache := some cache1 }
    else some pc3

/-- Body of the thumbnail pass of `ev_page_cache_new` for page `i`.  `dims`
is `ev_document_thumbnails_get_dimensions` on a render context holding the
page and the scale `THUMBNAIL_WIDTH / page_width`. -/
def thumbs_body (document : EvDocument) (dims : Int → ℚ → Int × Int) (i : Nat)
    (page_cache : EvPageCache) : Option EvPageCache :=
  let page_width := (document.page_size (i : Int)).1
  let thumb_width := (dims (i : Int) (100 / page_width)).1
  let thumb_height := (dims (i : Int) (100 / page_width)).2
  thumbs_record document i thumb_width thumb_height
    (thumbs_update_max page_cache thumb_width thumb_height)

/-- The thumbnail pass of `ev_page_cache_new`,
`for (i = 0; i < n_pages; i++)`. -/
def thumbs_loop (document : EvDocument) (dims : Int → ℚ → Int × Int) :
    Nat → Nat → EvPageCache → Option EvPageCache
  | 0, _, _ => none
  | fuel + 1, i, page_cache =>
    if i < document.n_pages then
      match thumbs_body document dims i page_cache with
      | none => none
      | some pc1 => thumbs_loop document dims fuel (i + 1) pc1
    else some page_cache

/-- Constructor `ev_page_cache_new`; the result carries the signals emitted
during construction. -/
def ev_page_cache_new (document : EvDocument) : Option (EvPageCache × List Signal) :=
  let page_cache := ev_page_cache_init (g_object_new document)
  let n_pages := document.n_pages
  match build_height_to_page page_cache with
  | none => none
  | some page_cache =>
    match document.thumbnails with
    | none =>
      if n_pages > 0 then some (ev_page_cache_set_current_page page_cache 0)
      else some (page_cache, [])
    | some dims =>
      match thumbs_loop document dims (n_pages + 1) 0
          { page_cache with thumbs_uniform := true } with
      | none => none
      | some page_cache =>
        if n_pages > 0 then some (ev_page_cache_set_current_page page_cache 0)
        else some (page_cache, [])

/-! ## Current page -/

/-- Setter `ev_page_cache_set_current_page_history`. -/
def ev_page_cache_set_current_page_history (page_cache : EvPageCache) (page : Int) :
    EvPageCache × List Signal :=
  let emitted : List Signal :=
    if gint_abs (gint_sub page page_cache.current_page) > 1
      then [Signal.history_changed page] else []
  let r := ev_page_cache_set_current_page page_cache page
  (r.1, emitted ++ r.2)

/-- Setter `ev_page_cache_set_page_label`: the returned `Bool` is the
`gboolean` result. -/
def ev_page_cache_set_page_label (page_cache : EvPageCache) (page_label : String) :
    Bool × EvPageCache × List Signal :=
  match page_cache.document.find_page_by_label page_label with
  | some page =>
    let r := ev_page_cache_set_current_page page_cache page
    (true, r.1, r.2)
  | none => (false, page_cache, [])

/-! ## Queries -/

/-- Query `ev_page_cache_get_size`, returning `(*width, *height)`. -/
def ev_page_cache_get_size (page_cache : EvPageCache) (page : Int) (rotation : Int)
    (scale : ℚ) : Int × Int :=
  let w := (page_cache.document.page_size page).1 * scale + 1 / 2
  let h := (page_cache.document.page_size page).2 * scale + 1 / 2
  if rotation = 0 ∨ rotation = 180 then (truncToInt w, truncToInt h)
  else (truncToInt h, truncToInt w)

/-- Query `ev_page_cache_get_max_width`, returning `*width`. -/
def ev_page_cache_get_max_width (page_cache : EvPageCache) (rotation : Int) (scale : ℚ) :
    Int :=
  let w := page_cache.document.max_page_size.1
  let h := page_cache.document.max_page_size.2
  truncToInt (if rotation = 0 ∨ rotation = 180 then w * scale else h * scale)

/-- Query `ev_page_cache_get_max_height`, returning `*height`. -/
def ev_page_cache_get_max_height (page_cache : EvPageCache) (rotation : Int) (scale : ℚ) :
    Int :=
  let w := page_cache.document.max_page_size.1
  let h := page_cache.document.max_page_size.2
  truncToInt (if rotation = 0 ∨ rotation = 180 then h * scale else w * scale)

/-- Query `ev_page_cache_get_height_to_page`.  The outer `none` is a fault;
the result `(cache, none)` is the early return of
`g_return_if_fail (page >= 0)`, which stores nothing; otherwise the pair is
`(*height, *dual_height)`. -/
def ev_page_cache_get_height_to_page (page_cache : EvPageCache) (page : Int)
    (rotation : Int) (scale : ℚ) : Option (EvPageCache × Option (Int × Int)) :=
  if page < 0 then some (page_cache, none)
  else
    let rebuilt : Option EvPageCache :=
      if page_cache.rotation ≠ rotation then
        build_height_to_page { page_cache with rotation := rotation }
      else some page_cache
    match rebuilt with
    | none => none
    | some pc1 =>
      match arrayRead pc1.height_to_page page, arrayRead pc1.dual_height_to_page page with
      | some a, some b => some (pc1, some (truncToInt (a * scale), truncToInt (b * scale)))
      | _, _ => none

/-- Query `ev_page_cache_get_thumbnail_size`, returning `(*width, *height)`;
`none` is a fault (a load through the unallocated table or outside it). -/
def ev_page_cache_get_thumbnail_size (page_cache : EvPageCache) (page : Int)
    (rotation : Int) : Option (Int × Int) :=
  let wh : Option (Int × Int) :=
    if page_cache.thumbs_uniform then
      some (page_cache.thumbs_uniform_width, page_cache.thumbs_uniform_height)
    else
      match page_cache.thumbs_size_cache with
      | none => none
      | some cache =>
        match arrayRead cache page with
        | none => none
        | some info => some (info.width, info.height)
  match wh with
  | none => none
  | some (w, h) =>
    if rotation = 0 ∨ rotation = 180 then some (w, h) else some (h, w)

/-- Query `ev_page_cache_get_dual_even_left`. -/
def ev_page_cache_get_dual_even_left (page_cache : EvPageCache) : Bool :=
  decide (page_cache.document.n_pages > 2)

/-! ## Specification-side functions for the offset tables -/

/-- Extent of page `j` with the fallback `0` for an index past the last page. -/
def extent_or_zero (doc : EvDocument) (swap : Bool) (j : Nat) : ℚ :=
  if j < doc.n_pages then page_extent doc swap j else 0

/-- Running total of the dual loop before its `k`-th iteration on a document
without the uniform flag: the seed, then one row maximum per pair. -/
def dual_row_offset (doc : EvDocument) (swap : Bool) (del : Nat) (seed : ℚ) : Nat → ℚ
  | 0 => seed
  | k + 1 => dual_row_offset doc swap del seed k +
      max (extent_or_zero doc swap (del + 2 * k)) (extent_or_zero doc swap (del + 2 * k + 1))

/-- Value the `k`-th iteration of the dual loop stores. -/
def dual_row_value (doc : EvDocument) (swap uniform : Bool) (u : ℚ × ℚ) (del : Nat)
    (seed : ℚ) (k : Nat) : ℚ :=
  if uniform then (((del + 2 * k + del) / 2 : Nat) : ℚ) * (if swap then u.1 else u.2)
  else dual_row_offset doc swap del seed k

/-- Entry `j` of the finished dual table: untouched zero before the first
pair, else the value of the pair that covers `j`. -/
def dual_entry (doc : EvDocument) (swap uniform : Bool) (u : ℚ × ℚ) (del : Nat)
    (seed : ℚ) (j : Nat) : ℚ :=
  if j < del then 0 else dual_row_value doc swap uniform u del seed ((j - del) / 2)

/-- Entry `i` of the finished single table. -/
def height_entry (doc : EvDocument) (swap uniform : Bool) (u : ℚ × ℚ) (i : Nat) : ℚ :=
  if uniform then (i : ℚ) * (if swap then u.1 else u.2)
  else ∑ j in Finset.range i, page_extent doc swap j

/-! ## Closed form of the builder -/

/-- The test `rotation == 90 || rotation == 270` of the builder. -/
def rotation_swap (rotation : Int) : Bool := rotation == 90 || rotation == 270

/-- The flag `dual_even_left = (n_pages > 2)` as the integer the loop starts at. -/
def dual_start (doc : EvDocument) : Nat := if decide (doc.n_pages > 2) then 1 else 0

/-- The pair `(u_width, u_height)` of the builder: page 0's size when the
document says its pages are uniform (not read otherwise). -/
def uniform_size (doc : EvDocument) : ℚ × ℚ :=
  if doc.is_page_size_uniform then doc.page_size 0 else (0, 0)

/-- The value of `saved_height` before the dual loop. -/
def dual_seed (doc : EvDocument) (swap : Bool) : ℚ :=
  if decide (doc.n_pages > 2) && !doc.is_page_size_uniform then page_extent doc swap 0 else 0

/-- The single-column table the builder produces, entry by entry. -/
def height_table (doc : EvDocument) (rotation : Int) : List ℚ :=
  (List.range (doc.n_pages + 1)).map
    (height_entry doc (rotation_swap rotation) doc.is_page_size_uniform (uniform_size doc))

/-- The dual-column table the builder produces, entry by entry. -/
def dual_table (doc : EvDocument) (rotation : Int) : List ℚ :=
  (List.range (doc.n_pages + 2)).map
    (dual_entry doc (rotation_swap rotation) doc.is_page_size_uniform (uniform_size doc)
      (dual_start doc) (dual_seed doc (rotation_swap rotation)))


/-- Page extent along the scroll axis as the specification words it: the
width of page `j` when the rotation is 90 or 270, its height otherwise. -/
def extent (doc : EvDocument) (rotation : Int) (j : Nat) : ℚ :=
  if rotation = 90 ∨ rotation = 270 then (doc.page_size (j : Int)).1
  else (doc.page_size (j : Int)).2

/-- Page extent with the value `0` for an index past the last page. -/
def extent_in_range (doc : EvDocument) (rotation : Int) (j : Nat) : ℚ :=
  if j < doc.n_pages then extent doc rotation j else 0

/-- A three-page document of uniform page size `(100, 200)`. -/
def uniform_doc3 : EvDocument :=
  { n_pages := 3, is_page_size_uniform := true, page_size := fun _ => (100, 200),
    max_page_size := (100, 200), find_page_by_label := fun _ => none, thumbnails := none }

/-- A four-page document with pages of sizes `(10, 20)`, `(30, 5)`, `(10, 20)`,
`(7, 9)`. -/
def mixed_doc4 : EvDocument :=
  { n_pages := 4, is_page_size_uniform := false,
    page_size := fun i =>
      if i = 0 then (10, 20) else if i = 1 then (30, 5) else if i = 2 then (10, 20) else (7, 9),
    max_page_size := (30, 20), find_page_by_label := fun _ => none, thumbnails := none }

/-- The cache of a document right after allocation and initialisation, with
the cached rotation set to `rotation`. -/
def fresh_cache (doc : EvDocument) (rotation : Int) : EvPageCache :=
  { ev_page_cache_init (g_object_new doc) with rotation := rotation }

/-- A ten-page document of uniform page size `(100, 200)` whose label lookup
knows the single label `"iv"`, for page 3. -/
def labelled_doc10 : EvDocument :=
  { n_pages := 10, is_page_size_uniform := true, page_size := fun _ => (100, 200),
    max_page_size := (100, 200),
    find_page_by_label := fun l => if l = "iv" then some 3 else none,
    thumbnails := none }

/-- The cache of `labelled_doc10` with the current page set to 2. -/
def cache_at_page2 : EvPageCache :=
  (ev_page_cache_set_current_page (fresh_cache labelled_doc10 0) 2).1

/-- The thumbnail size the document reports for page `i` during construction. -/
def reported_thumbnail (doc : EvDocument) (dims : Int → ℚ → Int × Int) (i : Nat) : Int × Int :=
  dims (i : Int) (100 / (doc.page_size (i : Int)).1)

/-- Whether the pages below `i` all report the thumbnail size of page 0. -/
def thumbs_all_equal (doc : EvDocument) (dims : Int → ℚ → Int × Int) (i : Nat) : Bool :=
  decide (∀ j, j < i → reported_thumbnail doc dims j = reported_thumbnail doc dims 0)

/-- Componentwise maximum of `0` and the thumbnail sizes of the pages below `i`. -/
def thumbs_running_max (doc : EvDocument) (dims : Int → ℚ → Int × Int) : Nat → Int × Int
  | 0 => (0, 0)
  | i + 1 =>
    (max (thumbs_running_max doc dims i).1 (reported_thumbnail doc dims i).1,
     max (thumbs_running_max doc dims i).2 (reported_thumbnail doc dims i).2)

/-- The per-page table once the pages below `i` are recorded: their reported
sizes, and the zero record of the allocation from `i` on. -/
def thumbs_table (doc : EvDocument) (dims : Int → ℚ → Int × Int) (i : Nat) :
    List EvPageThumbsInfo :=
  (List.range doc.n_pages).map (fun j =>
    if j < i then
      { width := (reported_thumbnail doc dims j).1, height := (reported_thumbnail doc dims j).2 }
    else { width := 0, height := 0 })

/-- The cache after `i` iterations of the thumbnail pass started on `base`
(whose thumbnail fields are zero and whose uniform flag has just been set). -/
def thumbs_after (doc : EvDocument) (dims : Int → ℚ → Int × Int) (base : EvPageCache)
    (i : Nat) : EvPageCache :=
  { base with
    thumbs_uniform := thumbs_all_equal doc dims i,
    thumbs_uniform_width := if i = 0 then 0 else (reported_thumbnail doc dims 0).1,
    thumbs_uniform_height := if i = 0 then 0 else (reported_thumbnail doc dims 0).2,
    thumbs_max_width := (thumbs_running_max doc dims i).1,
    thumbs_max_height := (thumbs_running_max doc dims i).2,
    thumbs_size_cache :=
      if thumbs_all_equal doc dims i then none else some (thumbs_table doc dims i) }

/-- The cache as `ev_page_cache_new` has it after its call of the builder:
initialised, with the two tables built for rotation 0. -/
def built_cache (doc : EvDocument) : EvPageCache :=
  { ev_page_cache_init (g_object_new doc) with
    height_to_page := height_table doc 0,
    dual_height_to_page := dual_table doc 0 }

/-- A five-page document with thumbnails: pages 0 to 2 report `(100, 141)`,
pages 3 and 4 report `(100, 77)`. -/
def thumb_doc5 : EvDocument :=
  { n_pages := 5, is_page_size_uniform := false,
    page_size := fun i => if i < 3 then (210, 297) else (297, 210),
    max_page_size := (297, 297), find_page_by_label := fun _ => none,
    thumbnails := some (fun i _ => if i < 3 then (100, 141) else (100, 77)) }

/-- A two-page document with pages of sizes `(1, 2)` and `(2, 1)`. -/
def crossed_doc2 : EvDocument :=
  { n_pages := 2, is_page_size_uniform := false,
    page_size := fun i => if i = 0 then (1, 2) else (2, 1),
    max_page_size := (2, 2), find_page_by_label := fun _ => none, thumbnails := none }

/-- A one-page document whose page has the size `(-1, -2)`. -/
def negative_doc1 : EvDocument :=
  { n_pages := 1, is_page_size_uniform := false, page_size := fun _ => (-1, -2),
    max_page_size := (-1, -2), find_page_by_label := fun _ => none, thumbnails := none }

/-- A document without pages. -/
def empty_doc : EvDocument :=
  { n_pages := 0, is_page_size_uniform := false, page_size := fun _ => (0, 0),
    max_page_size := (0, 0), find_page_by_label := fun _ => none, thumbnails := none }

/-- A call of one of the three setters of the current page. -/
inductive PageOp where
  | set_current_page (page : Int)
  | set_current_page_history (page : Int)
  | set_page_label (label : String)

/-- The cache after one setter call. -/
def apply_op (pc : EvPageCache) : PageOp → EvPageCache
  | PageOp.set_current_page p => (ev_page_cache_set_current_page pc p).1
  | PageOp.set_current_page_history p => (ev_page_cache_set_current_page_history pc p).1
  | PageOp.set_page_label l => (ev_page_cache_set_page_label pc l).2.1

/-- The cache after a sequence of setter calls. -/
def run_ops (pc : EvPageCache) (ops : List PageOp) : EvPageCache :=
  ops.foldl apply_op pc

/-- A setter call whose page argument, or the page its label resolves to, is a
page of the document. -/
def op_in_range (doc : EvDocument) : PageOp → Prop
  | PageOp.set_current_page p => 0 ≤ p ∧ p < (doc.n_pages : Int)
  | PageOp.set_current_page_history p => 0 ≤ p ∧ p < (doc.n_pages : Int)
  | PageOp.set_page_label l =>
    ∀ q, doc.find_page_by_label l = some q → 0 ≤ q ∧ q < (doc.n_pages : Int)

/-- The cache after a sequence of offset queries, each given as
`(page, rotation, scale)`; `none` when one of them faults. -/
def run_queries (pc : EvPageCache) : List (Int × Int × ℚ) → Option EvPageCache
  | [] => some pc
  | q :: rest =>
    match ev_page_cache_get_height_to_page pc q.1 q.2.1 q.2.2 with
    | none => none
    | some r => run_queries r.1 rest

/-- A one-page document whose page has the A4 size in points, `(595, 842)`,
which is also its maximum page size. -/
def a4_doc : EvDocument :=
  { n_pages := 1, is_page_size_uniform := true, page_size := fun _ => (595, 842),
    max_page_size := (595, 842), find_page_by_label := fun _ => none, thumbnails := none }

/-- The cache of `labelled_doc10` with the current page set to 0. -/
def cache_at_page0 : EvPageCache :=
  (ev_page_cache_set_current_page (fresh_cache labelled_doc10 0) 0).1

/-- A cache of the four-page document with cached rotation 90 whose tables
hold values the builder would not store: 7 in every entry of the single table,
9 in every entry of the dual table. -/
def stale_cache : EvPageCache :=
  { fresh_cache mixed_doc4 90 with
    height_to_page := [7, 7, 7, 7, 7],
    dual_height_to_page := [9, 9, 9, 9, 9, 9] }

/-- Rounding of a rational to the nearest integer, ties to the even one. -/
def round_half_even (q : ℚ) : Int :=
  if q - ⌊q⌋ < 1 / 2 then ⌊q⌋
  else if 1 / 2 < q - ⌊q⌋ then ⌊q⌋ + 1
  else if ⌊q⌋ % 2 = 0 then ⌊q⌋ else ⌊q⌋ + 1

/-- Exponent of the spacing of binary64 numbers at the magnitude of `x`: 52
below the binade of `x`, and not below `-1074` (the subnormal range). -/
def binary64_ulp_exponent (x : ℚ) : Int := max (Int.log 2 |x| - 52) (-1074)

/-- The IEEE 754 binary64 rounding of a real result, to nearest with ties to
even.  Results beyond the largest finite `double` are rounded with the same
rule (no infinity). -/
def round_binary64 (x : ℚ) : ℚ :=
  if x < 0 then
    -(((round_half_even (-x / 2 ^ binary64_ulp_exponent x) : Int) : ℚ) *
      2 ^ binary64_ulp_exponent x)
  else
    ((round_half_even (x / 2 ^ binary64_ulp_exponent x) : Int) : ℚ) *
      2 ^ binary64_ulp_exponent x

/-! ## The builder with rounded `double` operations -/

/-- First loop of `build_height_to_page` with the result of each `double`
operation rounded by `fl`: the product `i * uniform_height` and the sum
`saved_height += page_height`. -/
def height_loop_fl (fl : ℚ → ℚ) (doc : EvDocument) (swap uniform : Bool) (u : ℚ × ℚ) :
    Nat → Nat → ℚ → List ℚ → Option (List ℚ × ℚ)
  | 0, _, _, _ => none
  | fuel + 1, i, saved_height, tbl =>
    if i ≤ doc.n_pages then
      if uniform then
        let uniform_height := if swap then u.1 else u.2
        match arrayWrite tbl i (fl ((i : ℚ) * uniform_height)) with
        | none => none
        | some tbl1 => height_loop_fl fl doc swap uniform u fuel (i + 1) saved_height tbl1
      else
        let page_height := if i < doc.n_pages then page_extent doc swap i else 0
        match arrayWrite tbl i saved_height with
        | none => none
        | some tbl1 =>
          height_loop_fl fl doc swap uniform u fuel (i + 1) (fl (saved_height + page_height))
            tbl1
    else some (tbl, saved_height)

/-- Second loop of `build_height_to_page` with the result of each `double`
operation rounded by `fl`: the product
`((i + dual_even_left) / 2) * uniform_height` and the sum
`saved_height += MAX (page_height, next_page_height)`. -/
def dual_loop_fl (fl : ℚ → ℚ) (doc : EvDocument) (swap uniform : Bool) (u : ℚ × ℚ)
    (del : Nat) : Nat → Nat → ℚ → List ℚ → Option (List ℚ × ℚ)
  | 0, _, _, _ => none
  | fuel + 1, i, saved_height, tbl =>
    if i < doc.n_pages + 2 then
      if uniform then
        let uniform_height := if swap then u.1 else u.2
        match arrayWrite tbl i (fl ((((i + del) / 2 : Nat) : ℚ) * uniform_height)) with
        | none => none
        | some tbl1 =>
          if i + 1 < doc.n_pages + 2 then
            match arrayWrite tbl1 (i + 1)
                (fl ((((i + del) / 2 : Nat) : ℚ) * uniform_height)) with
            | none => none
            | some tbl2 => dual_loop_fl fl doc swap uniform u del fuel (i + 2) saved_height tbl2
          else dual_loop_fl fl doc swap uniform u del fuel (i + 2) saved_height tbl1
      else
        let next_page_height := if i + 1 < doc.n_pages then page_extent doc swap (i + 1) else 0
        let page_height := if i < doc.n_pages then page_extent doc swap i else 0
        if i + 1 < doc.n_pages + 2 then
          match arrayWrite tbl i saved_height with
          | none => none
          | some tbl1 =>
            match arrayWrite tbl1 (i + 1) saved_height with
            | none => none
            | some tbl2 =>
              dual_loop_fl fl doc swap uniform u del fuel (i + 2)
                (fl (saved_height + max page_height next_page_height)) tbl2
        else
          match arrayWrite tbl i saved_height with
          | none => none
          | some tbl1 => dual_loop_fl fl doc swap uniform u del fuel (i + 2) saved_height tbl1
    else some (tbl, saved_height)

/-- The table builder `build_height_to_page` with the result of each `double`
operation rounded by `fl`; with `fl` the identity it is
`build_height_to_page`. -/
def build_height_to_page_fl (fl : ℚ → ℚ) (page_cache : EvPageCache) : Option EvPageCache :=
  let doc := page_cache.document
  let swap : Bool := page_cache.rotation == 90 || page_cache.rotation == 270
  let uniform := doc.is_page_size_uniform
  let n_pages := doc.n_pages
  let dual_even_left : Bool := decide (n_pages > 2)
  let del : Nat := if dual_even_left then 1 else 0
  let u : ℚ × ℚ := if uniform then doc.page_size 0 else (0, 0)
  match height_loop_fl fl doc swap uniform u (n_pages + 2) 0 0 (g_new0 (n_pages + 1)) with
  | none => none
  | some (htp, _) =>
    let saved_height : ℚ := if dual_even_left && !uniform then page_extent doc swap 0 else 0
    match dual_loop_fl fl doc swap uniform u del (n_pages + 3) del saved_height
        (g_new0 (n_pages + 2)) with
    | none => none
    | some (dhtp, _) =>
      some { page_cache with height_to_page := htp, dual_height_to_page := dhtp }

/-- Running total of the rounded first loop before its `i`-th iteration on a
document without the uniform flag. -/
def running_sum_fl (fl : ℚ → ℚ) (doc : EvDocument) (swap : Bool) : Nat → ℚ
  | 0 => 0
  | i + 1 => fl (running_sum_fl fl doc swap i + page_extent doc swap i)

/-- Entry `i` of the single table of the rounded builder. -/
def height_entry_fl (fl : ℚ → ℚ) (doc : EvDocument) (swap uniform : Bool) (u : ℚ × ℚ)
    (i : Nat) : ℚ :=
  if uniform then fl ((i : ℚ) * (if swap then u.1 else u.2))
  else running_sum_fl fl doc swap i

/-- Running total of the rounded dual loop before its `k`-th iteration on a
document without the uniform flag. -/
def dual_row_offset_fl (fl : ℚ → ℚ) (doc : EvDocument) (swap : Bool) (del : Nat)
    (seed : ℚ) :
    Nat → ℚ
  | 0 => seed
  | k + 1 => fl (dual_row_offset_fl fl doc swap del seed k +
      max (extent_or_zero doc swap (del + 2 * k)) (extent_or_zero doc swap (del + 2 * k + 1)))

/-- Value the `k`-th iteration of the rounded dual loop stores. -/
def dual_row_value_fl (fl : ℚ → ℚ) (doc : EvDocument) (swap uniform : Bool) (u : ℚ × ℚ)
    (del : Nat) (seed : ℚ) (k : Nat) : ℚ :=
  if uniform then fl ((((del + 2 * k + del) / 2 : Nat) : ℚ) * (if swap then u.1 else u.2))
  else dual_row_offset_fl fl doc swap del seed k

/-- Entry `j` of the dual table of the rounded builder. -/
def dual_entry_fl (fl : ℚ → ℚ) (doc : EvDocument) (swap uniform : Bool) (u : ℚ × ℚ)
    (del : Nat) (seed : ℚ) (j : Nat) : ℚ :=
  if j < del then 0 else dual_row_value_fl fl doc swap uniform u del seed ((j - del) / 2)

/-- The single-column table the rounded builder produces. -/
def height_table_fl (fl : ℚ → ℚ) (doc : EvDocument) (rotation : Int) : List ℚ :=
  (List.range (doc.n_pages + 1)).map
    (height_entry_fl fl doc (rotation_swap rotation) doc.is_page_size_uniform
      (uniform_size doc))

/-- The dual-column table the rounded builder produces. -/
def dual_table_fl (fl : ℚ → ℚ) (doc : EvDocument) (rotation : Int) : List ℚ :=
  (List.range (doc.n_pages + 2)).map
    (dual_entry_fl fl doc (rotation_swap rotation) doc.is_page_size_uniform (uniform_size doc)
      (dual_start doc) (dual_seed doc (rotation_swap rotation)))


/-- A seven-page document whose pages all have the A4 size `(595.28, 841.89)`
in points, given as the two `double` values nearest to those decimals. -/
def a4_doc7 : EvDocument :=
  { n_pages := 7, is_page_size_uniform := true,
    page_size := fun _ => (2618069127129989 / 4398046511104, 7405342754466693 / 8796093022208),
    max_page_size := (2618069127129989 / 4398046511104, 7405342754466693 / 8796093022208),
    find_page_by_label := fun _ => none, thumbnails := none }

/-! ## Lemmas on array stores -/

theorem arrayWrite_of_lt {α : Type} (tbl : List α) (i : Nat) (v : α) (h : i < tbl.length) :
    arrayWrite tbl i v = some (tbl.set i v) := by
  simp [arrayWrite, h]

theorem getElem?_set_below {α : Type} (tbl : List α) (i j : Nat) (v : α) (h : j < i) :
    (tbl.set i v)[j]? = tbl[j]? := by
  rw [List.getElem?_set_ne (by omega)]

/-! ## The single-column loop -/

theorem height_loop_spec (doc : EvDocument) (swap uniform : Bool) (u : ℚ × ℚ) :
    ∀ (fuel i : Nat) (saved : ℚ) (tbl : List ℚ),
      1 ≤ fuel → doc.n_pages + 2 ≤ fuel + i →
      tbl.length = doc.n_pages + 1 →
      (uniform = false → i ≤ doc.n_pages →
        saved = ∑ j in Finset.range i, page_extent doc swap j) →
      (∀ j, j < i → tbl[j]? = some (height_entry doc swap uniform u j)) →
      ∃ tbl1 s1, height_loop doc swap uniform u fuel i saved tbl = some (tbl1, s1) ∧
        tbl1.length = doc.n_pages + 1 ∧
        ∀ j, j ≤ doc.n_pages → tbl1[j]? = some (height_entry doc swap uniform u j) := by
  intro fuel
  induction fuel with
  | zero => intro i saved tbl h; omega
  | succ fuel ih =>
    intro i saved tbl _ hfuel hlen hsaved hinv
    by_cases hi : i ≤ doc.n_pages
    · have hlt : i < tbl.length := by omega
      cases uniform with
      | true =>
        simp only [height_loop, hi, if_true, arrayWrite_of_lt _ _ _ hlt]
        apply ih
        · omega
        · omega
        · simp [hlen]
        · intro h; cases h
        · intro j hj
          by_cases hji : j = i
          · subst hji
            rw [List.getElem?_set_self hlt]
            simp [height_entry]
          · rw [getElem?_set_below _ _ _ _ (by omega)]
            exact hinv j (by omega)
      | false =>
        simp only [height_loop, hi, if_true, arrayWrite_of_lt _ _ _ hlt]
        apply ih
        · omega
        · omega
        · simp [hlen]
        · intro _ hi1
          have hlt1 : i < doc.n_pages := by omega
          rw [Finset.sum_range_succ, ← hsaved rfl hi]
          simp [hlt1]
        · intro j hj
          by_cases hji : j = i
          · subst hji
            rw [List.getElem?_set_self hlt]
            simp [height_entry, hsaved rfl hi]
          · rw [getElem?_set_below _ _ _ _ (by omega)]
            exact hinv j (by omega)
    · refine ⟨tbl, saved, ?_, hlen, ?_⟩
      · simp [height_loop, hi]
      · intro j hj
        exact hinv j (by omega)

/-! ## The dual-column loop -/

theorem dual_entry_pair_start (doc : EvDocument) (swap uniform : Bool) (u : ℚ × ℚ)
    (del : Nat) (seed : ℚ) (k : Nat) :
    dual_entry doc swap uniform u del seed (del + 2 * k) =
      dual_row_value doc swap uniform u del seed k := by
  have h : (del + 2 * k - del) / 2 = k := by omega
  simp [dual_entry, h]

theorem dual_entry_pair_second (doc : EvDocument) (swap uniform : Bool) (u : ℚ × ℚ)
    (del : Nat) (seed : ℚ) (k : Nat) :
    dual_entry doc swap uniform u del seed (del + 2 * k + 1) =
      dual_row_value doc swap uniform u del seed k := by
  have h : (del + 2 * k + 1 - del) / 2 = k := by omega
  have h2 : ¬ (del + 2 * k + 1 < del) := by omega
  simp [dual_entry, h, h2]

theorem dual_loop_spec (doc : EvDocument) (swap uniform : Bool) (u : ℚ × ℚ) (del : Nat)
    (seed : ℚ) :
    ∀ (fuel k i : Nat) (saved : ℚ) (tbl : List ℚ),
      i = del + 2 * k →
      1 ≤ fuel → doc.n_pages + 3 ≤ fuel + i →
      tbl.length = doc.n_pages + 2 →
      (uniform = false → i < doc.n_pages + 2 →
        saved = dual_row_offset doc swap del seed k) →
      (∀ j, j < i → j < doc.n_pages + 2 →
        tbl[j]? = some (dual_entry doc swap uniform u del seed j)) →
      ∃ tbl1 s1, dual_loop doc swap uniform u del fuel i saved tbl = some (tbl1, s1) ∧
        tbl1.length = doc.n_pages + 2 ∧
        ∀ j, j < doc.n_pages + 2 →
          tbl1[j]? = some (dual_entry doc swap uniform u del seed j) := by
  intro fuel
  induction fuel with
  | zero => intro k i saved tbl _ h; omega
  | succ fuel ih =>
    intro k i saved tbl hik _ hfuel hlen hsaved hinv
    by_cases hi : i < doc.n_pages + 2
    · have hlt : i < tbl.length := by omega
      have hnext : i + 2 = del + 2 * (k + 1) := by omega
      -- the entries below the new counter after storing at `i` (and `i + 1`)
      have hfill : ∀ (v : ℚ) (t : List ℚ), t.length = doc.n_pages + 2 →
          v = dual_row_value doc swap uniform u del seed k →
          t[i]? = some v → (i + 1 < doc.n_pages + 2 → t[i + 1]? = some v) →
          (∀ j, j < i → t[j]? = tbl[j]?) →
          ∀ j, j < i + 2 → j < doc.n_pages + 2 →
            t[j]? = some (dual_entry doc swap uniform u del seed j) := by
        intro v t _ hv h0 h1 hold j hj hjn
        by_cases hj0 : j < i
        · rw [hold j hj0]; exact hinv j hj0 hjn
        · by_cases hj1 : j = i
          · rw [hj1, h0, hv, hik, dual_entry_pair_start]
          · have hj2 : j = i + 1 := by omega
            rw [hj2, h1 (by omega), hv, hik, dual_entry_pair_second]
      by_cases hi1 : i + 1 < doc.n_pages + 2
      · have hlt1 : i + 1 < (tbl.set i saved).length := by simp; omega
        cases uniform with
        | true =>
          have hlt1u : ∀ v : ℚ, i + 1 < (tbl.set i v).length := by intro v; simp; omega
          simp only [dual_loop, hi, hi1, if_true, arrayWrite_of_lt _ _ _ hlt,
            arrayWrite_of_lt _ _ _ (hlt1u _)]
          apply ih (k + 1) (i + 2) _ _ hnext (by omega) (by omega) (by simp [hlen])
          · intro h; cases h
          · apply hfill ((((i + del) / 2 : Nat) : ℚ) * (if swap then u.1 else u.2)) _
              (by simp [hlen]) (by simp [dual_row_value, hik])
            · rw [List.getElem?_set_ne (by omega), List.getElem?_set_self hlt]
            · intro _; rw [List.getElem?_set_self (hlt1u _)]
            · intro j hj
              rw [List.getElem?_set_ne (by omega), List.getElem?_set_ne (by omega)]
        | false =>
          simp only [dual_loop, hi, hi1, if_true, arrayWrite_of_lt _ _ _ hlt,
            arrayWrite_of_lt _ _ _ hlt1]
          apply ih (k + 1) (i + 2) _ _ hnext (by omega) (by omega) (by simp [hlen])
          · intro _ _
            rw [hsaved rfl hi, hik]
            simp [dual_row_offset, extent_or_zero]
          · apply hfill saved _ (by simp [hlen]) (by simp [dual_row_value, hsaved rfl hi])
            · rw [List.getElem?_set_ne (by omega), List.getElem?_set_self hlt]
            · intro _; rw [List.getElem?_set_self hlt1]
            · intro j hj
              rw [List.getElem?_set_ne (by omega), List.getElem?_set_ne (by omega)]
      · cases uniform with
        | true =>
          simp only [dual_loop, hi, hi1, if_true, if_false, arrayWrite_of_lt _ _ _ hlt]
          apply ih (k + 1) (i + 2) _ _ hnext (by omega) (by omega) (by simp [hlen])
          · intro h; cases h
          · apply hfill ((((i + del) / 2 : Nat) : ℚ) * (if swap then u.1 else u.2)) _
              (by simp [hlen]) (by simp [dual_row_value, hik])
            · rw [List.getElem?_set_self hlt]
            · intro h; omega
            · intro j hj
              rw [List.getElem?_set_ne (by omega)]
        | false =>
          simp only [dual_loop, hi, hi1, if_true, if_false, arrayWrite_of_lt _ _ _ hlt]
          apply ih (k + 1) (i + 2) _ _ hnext (by omega) (by omega) (by simp [hlen])
          · intro _ h; omega
          · apply hfill saved _ (by simp [hlen]) (by simp [dual_row_value, hsaved rfl hi])
            · rw [List.getElem?_set_self hlt]
            · intro h; omega
            · intro j hj
              rw [List.getElem?_set_ne (by omega)]
    · refine ⟨tbl, saved, ?_, hlen, ?_⟩
      · simp [dual_loop, hi]
      · intro j hj
        exact hinv j (by omega) hj

theorem list_eq_map_range {α : Type} (l : List α) (m : Nat) (f : Nat → α)
    (hlen : l.length = m) (h : ∀ j, j < m → l[j]? = some (f j)) :
    l = (List.range m).map f := by
  apply List.ext_getElem?
  intro j
  by_cases hj : j < m
  · rw [h j hj]
    simp [hj]
  · have h1 : l.length ≤ j := by omega
    have h2 : ((List.range m).map f).length ≤ j := by simp; omega
    rw [List.getElem?_eq_none h1, List.getElem?_eq_none h2]

/-- The builder always returns, and its result is the cache with the two
tables replaced by `height_table` and `dual_table` for the cached rotation. -/
theorem build_height_to_page_eq (page_cache : EvPageCache) :
    build_height_to_page page_cache =
      some { page_cache with
        height_to_page := height_table page_cache.document page_cache.rotation,
        dual_height_to_page := dual_table page_cache.document page_cache.rotation } := by
  obtain ⟨htp, s1, h1, hlen1, hent1⟩ :=
    height_loop_spec page_cache.document (rotation_swap page_cache.rotation)
      page_cache.document.is_page_size_uniform (uniform_size page_cache.document)
      (page_cache.document.n_pages + 2) 0 0 (g_new0 (page_cache.document.n_pages + 1))
      (by omega) (by omega) (by simp [g_new0]) (by intro _ _; simp)
      (by intro j hj; omega)
  obtain ⟨dhtp, s2, h2, hlen2, hent2⟩ :=
    dual_loop_spec page_cache.document (rotation_swap page_cache.rotation)
      page_cache.document.is_page_size_uniform (uniform_size page_cache.document)
      (dual_start page_cache.document)
      (dual_seed page_cache.document (rotation_swap page_cache.rotation))
      (page_cache.document.n_pages + 3) 0 (dual_start page_cache.document)
      (dual_seed page_cache.document (rotation_swap page_cache.rotation))
      (g_new0 (page_cache.document.n_pages + 2))
      (by omega) (by omega) (by omega) (by simp [g_new0])
      (by intro _ _; simp [dual_row_offset])
      (by
        intro j hj hjn
        simp [g_new0, hjn, dual_entry, hj])
  have e1 : htp = height_table page_cache.document page_cache.rotation :=
    list_eq_map_range _ _ _ hlen1 (fun j hj => hent1 j (by omega))
  have e2 : dhtp = dual_table page_cache.document page_cache.rotation :=
    list_eq_map_range _ _ _ hlen2 hent2
  subst e1 e2
  unfold build_height_to_page
  simp only [rotation_swap, uniform_size, dual_start, dual_seed] at h1 h2
  simp only [h1, h2]


theorem page_extent_rotation_swap (doc : EvDocument) (rotation : Int) (j : Nat) :
    page_extent doc (rotation_swap rotation) j = extent doc rotation j := by
  simp [page_extent, rotation_swap, extent]

theorem extent_or_zero_rotation_swap (doc : EvDocument) (rotation : Int) (j : Nat) :
    extent_or_zero doc (rotation_swap rotation) j = extent_in_range doc rotation j := by
  simp [extent_or_zero, extent_in_range, page_extent_rotation_swap]

theorem height_table_getElem? (doc : EvDocument) (rotation : Int) (j : Nat)
    (hj : j ≤ doc.n_pages) :
    (height_table doc rotation)[j]? =
      some (height_entry doc (rotation_swap rotation) doc.is_page_size_uniform
        (uniform_size doc) j) := by
  have h : j < doc.n_pages + 1 := by omega
  simp [height_table, h]

theorem dual_table_getElem? (doc : EvDocument) (rotation : Int) (j : Nat)
    (hj : j < doc.n_pages + 2) :
    (dual_table doc rotation)[j]? =
      some (dual_entry doc (rotation_swap rotation) doc.is_page_size_uniform
        (uniform_size doc) (dual_start doc) (dual_seed doc (rotation_swap rotation)) j) := by
  simp [dual_table, hj]

theorem height_table_length (doc : EvDocument) (rotation : Int) :
    (height_table doc rotation).length = doc.n_pages + 1 := by
  simp [height_table]

theorem dual_table_length (doc : EvDocument) (rotation : Int) :
    (dual_table doc rotation).length = doc.n_pages + 2 := by
  simp [dual_table]

/-- On a document whose uniform flag is truthful, every page extent is the
extent of page 0. -/
theorem extent_eq_of_truthful (doc : EvDocument) (rotation : Int)
    (htruth : ∀ j : Nat, j < doc.n_pages → doc.page_size (j : Int) = doc.page_size 0)
    (j : Nat) (hj : j < doc.n_pages) : extent doc rotation j = extent doc rotation 0 := by
  have h := htruth j hj
  simp only [extent, h, Nat.cast_zero]

/-- Entry of the single table as a sum of page extents, on a document whose
uniform flag is truthful. -/
theorem height_entry_eq_sum (doc : EvDocument) (rotation : Int)
    (htruth : doc.is_page_size_uniform = true →
      ∀ j : Nat, j < doc.n_pages → doc.page_size (j : Int) = doc.page_size 0)
    (i : Nat) (hi : i ≤ doc.n_pages) :
    height_entry doc (rotation_swap rotation) doc.is_page_size_uniform (uniform_size doc) i =
      ∑ j in Finset.range i, extent doc rotation j := by
  cases hu : doc.is_page_size_uniform with
  | false =>
    simp only [height_entry, Bool.false_eq_true, if_false]
    exact Finset.sum_congr rfl (fun j _ => page_extent_rotation_swap doc rotation j)
  | true =>
    have hall : ∀ j ∈ Finset.range i, extent doc rotation j = extent doc rotation 0 := by
      intro j hj
      exact extent_eq_of_truthful doc rotation (htruth hu) j
        (by have := Finset.mem_range.mp hj; omega)
    rw [Finset.sum_congr rfl hall]
    simp [height_entry, uniform_size, hu, extent, rotation_swap]

/-! ## Claims on the single-column table -/

/-- C1: for every document (one whose uniform flag is set really having all
pages of the size of page 0) and every rotation, the builder returns and entry
`i` of `height_to_page`, for `0 ≤ i ≤ n_pages`, is the sum of the extents of
the pages below `i`; in particular entry `n_pages` is the sum of all page
extents. -/
theorem C1_height_to_page_is_prefix_sum (page_cache : EvPageCache)
    (htruth : page_cache.document.is_page_size_uniform = true →
      ∀ j : Nat, j < page_cache.document.n_pages →
        page_cache.document.page_size (j : Int) = page_cache.document.page_size 0) :
    ∃ pc1, build_height_to_page page_cache = some pc1 ∧
      (∀ i : Nat, i ≤ page_cache.document.n_pages →
        pc1.height_to_page[i]? =
          some (∑ j in Finset.range i, extent page_cache.document page_cache.rotation j)) ∧
      pc1.height_to_page[page_cache.document.n_pages]? =
        some (∑ j in Finset.range page_cache.document.n_pages,
          extent page_cache.document page_cache.rotation j) := by
  refine ⟨_, build_height_to_page_eq page_cache, ?_, ?_⟩
  · intro i hi
    show (height_table _ _)[i]? = _
    rw [height_table_getElem? _ _ _ hi, height_entry_eq_sum _ _ htruth i hi]
  · show (height_table _ _)[_]? = _
    rw [height_table_getElem? _ _ _ (le_refl _), height_entry_eq_sum _ _ htruth _ (le_refl _)]

/-- Witness of C1: the four-page document at rotation 90, whose widths are
10, 30, 10, 7, has the total 57 in entry 4 and 40 in entry 2. -/
theorem C1_height_to_page_is_prefix_sum_witness :
    ((fresh_cache mixed_doc4 90).document.is_page_size_uniform = true →
      ∀ j : Nat, j < (fresh_cache mixed_doc4 90).document.n_pages →
        (fresh_cache mixed_doc4 90).document.page_size (j : Int) =
          (fresh_cache mixed_doc4 90).document.page_size 0) ∧
    ∃ pc1, build_height_to_page (fresh_cache mixed_doc4 90) = some pc1 ∧
      pc1.height_to_page[2]? = some 40 ∧ pc1.height_to_page[4]? = some 57 := by
  have hyp : (fresh_cache mixed_doc4 90).document.is_page_size_uniform = true →
      ∀ j : Nat, j < (fresh_cache mixed_doc4 90).document.n_pages →
        (fresh_cache mixed_doc4 90).document.page_size (j : Int) =
          (fresh_cache mixed_doc4 90).document.page_size 0 := by
    intro h
    simp [fresh_cache, ev_page_cache_init, g_object_new, mixed_doc4] at h
  obtain ⟨pc1, h1, h2, h3⟩ := C1_height_to_page_is_prefix_sum (fresh_cache mixed_doc4 90) hyp
  refine ⟨hyp, pc1, h1, ?_, ?_⟩
  · rw [h2 2 (by simp [fresh_cache, ev_page_cache_init, g_object_new, mixed_doc4])]
    simp [Finset.sum_range_succ, extent, fresh_cache, ev_page_cache_init, g_object_new,
      mixed_doc4]
    norm_num
  · have h4 := h2 4 (by simp [fresh_cache, ev_page_cache_init, g_object_new, mixed_doc4])
    rw [h4]
    simp [Finset.sum_range_succ, extent, fresh_cache, ev_page_cache_init, g_object_new,
      mixed_doc4]
    norm_num

theorem extent_nonneg (doc : EvDocument) (rotation : Int) (j : Nat)
    (h : 0 ≤ (doc.page_size (j : Int)).1 ∧ 0 ≤ (doc.page_size (j : Int)).2) :
    0 ≤ extent doc rotation j := by
  unfold extent
  split
  · exact h.1
  · exact h.2

/-- Consecutive entries of the single table are ordered when page sizes are
non-negative. -/
theorem height_entry_mono (doc : EvDocument) (rotation : Int)
    (hnn : ∀ j : Nat, j < doc.n_pages →
      0 ≤ (doc.page_size (j : Int)).1 ∧ 0 ≤ (doc.page_size (j : Int)).2)
    (i : Nat) (hi : i < doc.n_pages) :
    height_entry doc (rotation_swap rotation) doc.is_page_size_uniform (uniform_size doc) i ≤
      height_entry doc (rotation_swap rotation) doc.is_page_size_uniform (uniform_size doc)
        (i + 1) := by
  cases hu : doc.is_page_size_uniform with
  | false =>
    simp only [height_entry, Bool.false_eq_true, if_false, Finset.sum_range_succ]
    have := extent_nonneg doc rotation i (hnn i hi)
    rw [page_extent_rotation_swap]
    linarith
  | true =>
    have h0 := extent_nonneg doc rotation 0 (hnn 0 (by omega))
    have he : (if rotation_swap rotation = true then (uniform_size doc).1
        else (uniform_size doc).2) = extent doc rotation 0 := by
      simp [uniform_size, hu, extent, rotation_swap]
    simp only [height_entry, if_true, he]
    push_cast
    nlinarith

/-- C2: for every document with non-negative page widths and heights and every
rotation, the builder returns, `height_to_page[0] = 0`, and
`height_to_page[i] ≤ height_to_page[i+1]` for every `i < n_pages`. -/
theorem C2_height_to_page_monotone (page_cache : EvPageCache)
    (hnn : ∀ j : Nat, j < page_cache.document.n_pages →
      0 ≤ (page_cache.document.page_size (j : Int)).1 ∧
      0 ≤ (page_cache.document.page_size (j : Int)).2) :
    ∃ pc1, build_height_to_page page_cache = some pc1 ∧
      pc1.height_to_page[0]? = some 0 ∧
      ∀ i : Nat, i < page_cache.document.n_pages →
        ∃ a b, pc1.height_to_page[i]? = some a ∧ pc1.height_to_page[i + 1]? = some b ∧
          a ≤ b := by
  refine ⟨_, build_height_to_page_eq page_cache, ?_, ?_⟩
  · show (height_table _ _)[0]? = _
    rw [height_table_getElem? _ _ _ (Nat.zero_le _)]
    simp [height_entry]
  · intro i hi
    refine ⟨_, _, height_table_getElem? _ _ i (by omega),
      height_table_getElem? _ _ (i + 1) (by omega), ?_⟩
    exact height_entry_mono _ _ hnn i hi

/-- Witness of C2: the four-page document at rotation 0 (heights 20, 5, 20, 9). -/
theorem C2_height_to_page_monotone_witness :
    (∀ j : Nat, j < (fresh_cache mixed_doc4 0).document.n_pages →
      0 ≤ ((fresh_cache mixed_doc4 0).document.page_size (j : Int)).1 ∧
      0 ≤ ((fresh_cache mixed_doc4 0).document.page_size (j : Int)).2) ∧
    ∃ pc1, build_height_to_page (fresh_cache mixed_doc4 0) = some pc1 ∧
      pc1.height_to_page[0]? = some 0 ∧
      ∀ i : Nat, i < (fresh_cache mixed_doc4 0).document.n_pages →
        ∃ a b, pc1.height_to_page[i]? = some a ∧ pc1.height_to_page[i + 1]? = some b ∧
          a ≤ b := by
  have hyp : ∀ j : Nat, j < (fresh_cache mixed_doc4 0).document.n_pages →
      0 ≤ ((fresh_cache mixed_doc4 0).document.page_size (j : Int)).1 ∧
      0 ≤ ((fresh_cache mixed_doc4 0).document.page_size (j : Int)).2 := by
    intro j _
    simp only [fresh_cache, ev_page_cache_init, g_object_new, mixed_doc4]
    split_ifs <;> norm_num
  exact ⟨hyp, C2_height_to_page_monotone (fresh_cache mixed_doc4 0) hyp⟩

theorem list_eq_of_getElem? {α : Type} (l1 l2 : List α) (hlen : l1.length = l2.length)
    (h : ∀ j, j < l2.length → l1[j]? = l2[j]?) : l1 = l2 := by
  apply List.ext_getElem?
  intro j
  by_cases hj : j < l2.length
  · exact h j hj
  · rw [List.getElem?_eq_none (by omega), List.getElem?_eq_none (by omega)]

/-- C3: for every document that reports uniform page size, with page 0 of size
`(w, h)`, the builder returns a single table of `n_pages + 1` entries with
`height_to_page[i] = i * h` at rotation 0 or 180 and `i * w` at rotation 90 or
270, for every `i ≤ n_pages`. -/
theorem C3_uniform_closed_form (page_cache : EvPageCache)
    (huni : page_cache.document.is_page_size_uniform = true) :
    ∃ pc1, build_height_to_page page_cache = some pc1 ∧
      pc1.height_to_page.length = page_cache.document.n_pages + 1 ∧
      ∀ i : Nat, i ≤ page_cache.document.n_pages →
        ((page_cache.rotation = 0 ∨ page_cache.rotation = 180) →
          pc1.height_to_page[i]? = some ((i : ℚ) * (page_cache.document.page_size 0).2)) ∧
        ((page_cache.rotation = 90 ∨ page_cache.rotation = 270) →
          pc1.height_to_page[i]? = some ((i : ℚ) * (page_cache.document.page_size 0).1)) := by
  refine ⟨_, build_height_to_page_eq page_cache, height_table_length _ _, ?_⟩
  intro i hi
  constructor
  · intro hr
    show (height_table _ _)[i]? = _
    rw [height_table_getElem? _ _ _ hi]
    have hs : rotation_swap page_cache.rotation = false := by
      rcases hr with h | h <;> simp [rotation_swap, h]
    simp [height_entry, huni, uniform_size, hs]
  · intro hr
    show (height_table _ _)[i]? = _
    rw [height_table_getElem? _ _ _ hi]
    have hs : rotation_swap page_cache.rotation = true := by
      rcases hr with h | h <;> simp [rotation_swap, h]
    simp [height_entry, huni, uniform_size, hs]

/-- Witness of C3: the three-page uniform document of page size `(100, 200)`
gives `[0, 200, 400, 600]` at rotation 0 and `[0, 100, 200, 300]` at
rotation 90. -/
theorem C3_uniform_closed_form_witness :
    (fresh_cache uniform_doc3 0).document.is_page_size_uniform = true ∧
    (fresh_cache uniform_doc3 90).document.is_page_size_uniform = true ∧
    (∃ pc1, build_height_to_page (fresh_cache uniform_doc3 0) = some pc1 ∧
      pc1.height_to_page = [0, 200, 400, 600]) ∧
    (∃ pc1, build_height_to_page (fresh_cache uniform_doc3 90) = some pc1 ∧
      pc1.height_to_page = [0, 100, 200, 300]) := by
  refine ⟨rfl, rfl, ?_, ?_⟩
  · obtain ⟨pc1, h1, hlen, h2⟩ := C3_uniform_closed_form (fresh_cache uniform_doc3 0) rfl
    refine ⟨pc1, h1, list_eq_of_getElem? _ _ hlen ?_⟩
    intro j hj
    have hj4 : j < 4 := hj
    have h3 := (h2 j (by show j ≤ 3; omega)).1 (Or.inl rfl)
    rw [h3]
    interval_cases j <;> simp [fresh_cache, ev_page_cache_init, g_object_new, uniform_doc3] <;>
      norm_num
  · obtain ⟨pc1, h1, hlen, h2⟩ := C3_uniform_closed_form (fresh_cache uniform_doc3 90) rfl
    refine ⟨pc1, h1, list_eq_of_getElem? _ _ hlen ?_⟩
    intro j hj
    have hj4 : j < 4 := hj
    have h3 := (h2 j (by show j ≤ 3; omega)).2 (Or.inl rfl)
    rw [h3]
    interval_cases j <;> simp [fresh_cache, ev_page_cache_init, g_object_new, uniform_doc3] <;>
      norm_num

/-! ## Claims on the dual-column table -/

theorem dual_start_cases (doc : EvDocument) :
    (dual_start doc = 0 ∧ ¬ doc.n_pages > 2) ∨ (dual_start doc = 1 ∧ doc.n_pages > 2) := by
  unfold dual_start
  by_cases h : doc.n_pages > 2
  · right; simp [h]
  · left; simp [h]

theorem uniform_height_eq_extent (doc : EvDocument) (rotation : Int)
    (hu : doc.is_page_size_uniform = true) :
    (if rotation_swap rotation = true then (uniform_size doc).1 else (uniform_size doc).2) =
      extent doc rotation 0 := by
  simp [uniform_size, hu, extent, rotation_swap]

/-- The value stored by the next iteration of the dual loop is the previous
one plus the row maximum. -/
theorem dual_row_value_succ (doc : EvDocument) (rotation : Int)
    (hnn : ∀ j : Nat, j < doc.n_pages →
      0 ≤ (doc.page_size (j : Int)).1 ∧ 0 ≤ (doc.page_size (j : Int)).2)
    (htruth : doc.is_page_size_uniform = true →
      ∀ j : Nat, j < doc.n_pages → doc.page_size (j : Int) = doc.page_size 0)
    (seed : ℚ) (k : Nat) (hk : dual_start doc + 2 * k < doc.n_pages) :
    dual_row_value doc (rotation_swap rotation) doc.is_page_size_uniform (uniform_size doc)
        (dual_start doc) seed (k + 1) =
      dual_row_value doc (rotation_swap rotation) doc.is_page_size_uniform (uniform_size doc)
        (dual_start doc) seed k +
      max (extent_in_range doc rotation (dual_start doc + 2 * k))
        (extent_in_range doc rotation (dual_start doc + 2 * k + 1)) := by
  cases hu : doc.is_page_size_uniform with
  | false =>
    simp only [dual_row_value, Bool.false_eq_true, if_false, dual_row_offset,
      extent_or_zero_rotation_swap]
  | true =>
    have h0 := extent_nonneg doc rotation 0 (hnn 0 (by omega))
    have e1 : extent_in_range doc rotation (dual_start doc + 2 * k) = extent doc rotation 0 := by
      simp only [extent_in_range, hk, if_true]
      exact extent_eq_of_truthful doc rotation (htruth hu) _ hk
    have hmax : max (extent_in_range doc rotation (dual_start doc + 2 * k))
        (extent_in_range doc rotation (dual_start doc + 2 * k + 1)) = extent doc rotation 0 := by
      rw [e1]
      by_cases h2 : dual_start doc + 2 * k + 1 < doc.n_pages
      · simp only [extent_in_range, h2, if_true]
        rw [extent_eq_of_truthful doc rotation (htruth hu) _ h2]
        exact max_self _
      · simp only [extent_in_range, h2, if_false]
        exact max_eq_left h0
    have hdiv : (dual_start doc + 2 * (k + 1) + dual_start doc) / 2 =
        (dual_start doc + 2 * k + dual_start doc) / 2 + 1 := by omega
    have hue := uniform_height_eq_extent doc rotation hu
    simp only [dual_row_value, if_true, hmax, hdiv, hue]
    push_cast
    ring

/-- C4: for every document with non-negative page sizes and a truthful uniform
flag, and every rotation, with `d = 1` if `n_pages > 2` and `d = 0` otherwise
and the extent of an index past the last page taken as `0`: the builder returns
and, for every index `i` congruent to `d` modulo 2 with `i + 1 ≤ n_pages + 1`,
the dual table has `dual[i] = dual[i+1]`, and `dual[i+2] = dual[i] +
max (extent i) (extent (i+1))` when `i + 2 ≤ n_pages + 1`; moreover
`dual[0] = 0` and, when `n_pages > 2`, `dual[1] = extent 0`. -/
theorem C4_dual_pairing_sum (page_cache : EvPageCache)
    (hnn : ∀ j : Nat, j < page_cache.document.n_pages →
      0 ≤ (page_cache.document.page_size (j : Int)).1 ∧
      0 ≤ (page_cache.document.page_size (j : Int)).2)
    (htruth : page_cache.document.is_page_size_uniform = true →
      ∀ j : Nat, j < page_cache.document.n_pages →
        page_cache.document.page_size (j : Int) = page_cache.document.page_size 0) :
    ∃ pc1, build_height_to_page page_cache = some pc1 ∧
      (∀ i : Nat, i % 2 = (if page_cache.document.n_pages > 2 then 1 else 0) % 2 →
        i + 1 ≤ page_cache.document.n_pages + 1 →
        ∃ a, pc1.dual_height_to_page[i]? = some a ∧
          pc1.dual_height_to_page[i + 1]? = some a ∧
          (i + 2 ≤ page_cache.document.n_pages + 1 →
            pc1.dual_height_to_page[i + 2]? =
              some (a + max (extent_in_range page_cache.document page_cache.rotation i)
                (extent_in_range page_cache.document page_cache.rotation (i + 1))))) ∧
      pc1.dual_height_to_page[0]? = some 0 ∧
      (page_cache.document.n_pages > 2 →
        pc1.dual_height_to_page[1]? =
          some (extent page_cache.document page_cache.rotation 0)) := by
  refine ⟨_, build_height_to_page_eq page_cache, ?_, ?_, ?_⟩
  · intro i hpar hi
    show ∃ a, (dual_table _ _)[i]? = some a ∧ (dual_table _ _)[i + 1]? = some a ∧
      (_ → (dual_table _ _)[i + 2]? = _)
    have hd : ∃ k, i = dual_start page_cache.document + 2 * k := by
      rcases dual_start_cases page_cache.document with ⟨h0, hn⟩ | ⟨h1, hn⟩
      · rw [if_neg hn] at hpar
        exact ⟨i / 2, by omega⟩
      · rw [if_pos hn] at hpar
        exact ⟨(i - 1) / 2, by omega⟩
    obtain ⟨k, hk⟩ := hd
    refine ⟨_, dual_table_getElem? _ _ i (by omega), ?_, ?_⟩
    · rw [dual_table_getElem? _ _ (i + 1) (by omega), hk, dual_entry_pair_start,
        dual_entry_pair_second]
    · intro hi2
      rw [dual_table_getElem? _ _ (i + 2) (by omega)]
      have hk2 : i + 2 = dual_start page_cache.document + 2 * (k + 1) := by omega
      rw [hk2, dual_entry_pair_start, hk, dual_entry_pair_start,
        dual_row_value_succ _ _ hnn htruth _ k (by omega)]
  · show (dual_table _ _)[0]? = _
    rw [dual_table_getElem? _ _ 0 (by omega)]
    rcases dual_start_cases page_cache.document with ⟨h0, hn⟩ | ⟨h1, hn⟩
    · have hb : decide (page_cache.document.n_pages > 2) = false := by simp [hn]
      cases hu : page_cache.document.is_page_size_uniform <;>
        simp [dual_entry, h0, dual_row_value, dual_row_offset, dual_seed, hb, hu]
    · simp [dual_entry, h1]
  · intro hn
    show (dual_table _ _)[1]? = _
    rw [dual_table_getElem? _ _ 1 (by omega)]
    have h1 : dual_start page_cache.document = 1 := by simp [dual_start, hn]
    cases hu : page_cache.document.is_page_size_uniform with
    | false =>
      simp [dual_entry, h1, dual_row_value, dual_row_offset, dual_seed, hn, hu,
        page_extent_rotation_swap]
    | true =>
      have hue := uniform_height_eq_extent page_cache.document page_cache.rotation hu
      simp only [dual_entry, h1, dual_row_value, if_true, lt_irrefl, if_false,
        Nat.sub_self, Nat.zero_div, Nat.mul_zero, Nat.add_zero]
      rw [hue]
      norm_num

/-- Witness of C4: the four-page document at rotation 0 (heights 20, 5, 20, 9)
has the dual table starting `0, 20, 20, 40`. -/
theorem C4_dual_pairing_sum_witness :
    (∀ j : Nat, j < (fresh_cache mixed_doc4 0).document.n_pages →
      0 ≤ ((fresh_cache mixed_doc4 0).document.page_size (j : Int)).1 ∧
      0 ≤ ((fresh_cache mixed_doc4 0).document.page_size (j : Int)).2) ∧
    ((fresh_cache mixed_doc4 0).document.is_page_size_uniform = true →
      ∀ j : Nat, j < (fresh_cache mixed_doc4 0).document.n_pages →
        (fresh_cache mixed_doc4 0).document.page_size (j : Int) =
          (fresh_cache mixed_doc4 0).document.page_size 0) ∧
    ∃ pc1, build_height_to_page (fresh_cache mixed_doc4 0) = some pc1 ∧
      pc1.dual_height_to_page[0]? = some 0 ∧ pc1.dual_height_to_page[1]? = some 20 ∧
      pc1.dual_height_to_page[2]? = some 20 ∧ pc1.dual_height_to_page[3]? = some 40 := by
  have hnn : ∀ j : Nat, j < (fresh_cache mixed_doc4 0).document.n_pages →
      0 ≤ ((fresh_cache mixed_doc4 0).document.page_size (j : Int)).1 ∧
      0 ≤ ((fresh_cache mixed_doc4 0).document.page_size (j : Int)).2 := by
    intro j _
    simp only [fresh_cache, ev_page_cache_init, g_object_new, mixed_doc4]
    split_ifs <;> norm_num
  have htruth : (fresh_cache mixed_doc4 0).document.is_page_size_uniform = true →
      ∀ j : Nat, j < (fresh_cache mixed_doc4 0).document.n_pages →
        (fresh_cache mixed_doc4 0).document.page_size (j : Int) =
          (fresh_cache mixed_doc4 0).document.page_size 0 := by
    intro h
    simp [fresh_cache, ev_page_cache_init, g_object_new, mixed_doc4] at h
  obtain ⟨pc1, hb, hpair, h0, h1⟩ :=
    C4_dual_pairing_sum (fresh_cache mixed_doc4 0) hnn htruth
  have hn : (fresh_cache mixed_doc4 0).document.n_pages = 4 := rfl
  have h1a := h1 (by rw [hn]; omega)
  have e0 : extent (fresh_cache mixed_doc4 0).document (fresh_cache mixed_doc4 0).rotation 0
      = 20 := by
    simp [extent, fresh_cache, ev_page_cache_init, g_object_new, mixed_doc4]
  obtain ⟨a, ha1, ha2, ha3⟩ := hpair 1 (by rw [hn]; simp) (by rw [hn]; omega)
  have ha3a := ha3 (by rw [hn]; omega)
  rw [e0] at h1a
  have ha : a = 20 := by
    rw [h1a] at ha1
    exact (Option.some.inj ha1).symm
  subst ha
  refine ⟨hnn, htruth, pc1, hb, h0, h1a, ha2, ?_⟩
  rw [ha3a]
  simp [extent_in_range, extent, fresh_cache, ev_page_cache_init, g_object_new, mixed_doc4]
  norm_num

/-! ## The thumbnail pass -/

theorem backfill_loop_spec (w h : Int) (i n : Nat) :
    ∀ (fuel j : Nat) (cache : List EvPageThumbsInfo),
      j ≤ i → i ≤ n → i + 1 ≤ fuel + j → cache.length = n →
      ∃ c1, backfill_loop w h i fuel j cache = some c1 ∧ c1.length = n ∧
        ∀ m, c1[m]? =
          if j ≤ m ∧ m < i then some { width := w, height := h } else cache[m]? := by
  intro fuel
  induction fuel with
  | zero => intro j cache h1 _ h2; omega
  | succ fuel ih =>
    intro j cache hji hin hfuel hlen
    by_cases hj : j < i
    · have hlt : j < cache.length := by omega
      simp only [backfill_loop, hj, if_true, arrayWrite_of_lt _ _ _ hlt]
      obtain ⟨c1, hc1, hl1, he1⟩ := ih (j + 1) (cache.set j { width := w, height := h })
        (by omega) hin (by omega) (by simp [hlen])
      refine ⟨c1, hc1, hl1, ?_⟩
      intro m
      rw [he1 m]
      by_cases hm : m = j
      · subst hm
        have h1 : ¬ (m + 1 ≤ m ∧ m < i) := by omega
        have h2 : m ≤ m ∧ m < i := by omega
        rw [if_neg h1, if_pos h2, List.getElem?_set_self hlt]
      · by_cases hm2 : j + 1 ≤ m ∧ m < i
        · have h2 : j ≤ m ∧ m < i := by omega
          rw [if_pos hm2, if_pos h2]
        · have h2 : ¬ (j ≤ m ∧ m < i) := by omega
          rw [if_neg hm2, if_neg h2, List.getElem?_set_ne (by omega)]
    · refine ⟨cache, by simp [backfill_loop, hj], hlen, ?_⟩
      intro m
      have h2 : ¬ (j ≤ m ∧ m < i) := by omega
      rw [if_neg h2]

theorem thumbs_all_equal_zero (doc : EvDocument) (dims : Int → ℚ → Int × Int) :
    thumbs_all_equal doc dims 0 = true := by
  simp [thumbs_all_equal]

theorem thumbs_all_equal_succ (doc : EvDocument) (dims : Int → ℚ → Int × Int) (i : Nat) :
    thumbs_all_equal doc dims (i + 1) =
      (thumbs_all_equal doc dims i &&
        decide (reported_thumbnail doc dims i = reported_thumbnail doc dims 0)) := by
  simp only [thumbs_all_equal, ← Bool.decide_and]
  congr 1
  apply propext
  constructor
  · intro h
    exact ⟨fun j hj => h j (by omega), h i (by omega)⟩
  · rintro ⟨h1, h2⟩ j hj
    by_cases hji : j = i
    · rw [hji]; exact h2
    · exact h1 j (by omega)

theorem thumbs_table_length (doc : EvDocument) (dims : Int → ℚ → Int × Int) (i : Nat) :
    (thumbs_table doc dims i).length = doc.n_pages := by
  simp [thumbs_table]

theorem thumbs_table_getElem? (doc : EvDocument) (dims : Int → ℚ → Int × Int) (i m : Nat) :
    (thumbs_table doc dims i)[m]? =
      if m < doc.n_pages then
        some (if m < i then
          { width := (reported_thumbnail doc dims m).1,
            height := (reported_thumbnail doc dims m).2 }
        else { width := 0, height := 0 })
      else none := by
  by_cases hm : m < doc.n_pages
  · simp [thumbs_table, hm]
  · simp [thumbs_table, hm]
    omega

theorem thumbs_table_set (doc : EvDocument) (dims : Int → ℚ → Int × Int) (i : Nat)
    (hi : i < doc.n_pages) :
    (thumbs_table doc dims i).set i
        { width := (reported_thumbnail doc dims i).1,
          height := (reported_thumbnail doc dims i).2 } =
      thumbs_table doc dims (i + 1) := by
  apply List.ext_getElem?
  intro m
  rw [List.getElem?_set, thumbs_table_getElem?, thumbs_table_getElem?]
  by_cases hm : i = m
  · subst hm
    simp [hi, thumbs_table_length]
  · by_cases hmn : m < doc.n_pages
    · by_cases hmi : m < i
      · have : m < i + 1 := by omega
        simp [hm, hmn, hmi, this]
      · have : ¬ m < i + 1 := by omega
        simp [hm, hmn, hmi, this]
    · simp [hm, hmn]


theorem thumbs_update_max_eq (pc : EvPageCache) (tw th : Int) :
    thumbs_update_max pc tw th =
      { pc with thumbs_max_width := max pc.thumbs_max_width tw,
                thumbs_max_height := max pc.thumbs_max_height th } := by
  unfold thumbs_update_max
  by_cases hw : tw > pc.thumbs_max_width
  · by_cases hh : th > pc.thumbs_max_height
    · simp only [hw, hh, if_true, max_eq_right (le_of_lt hw), max_eq_right (le_of_lt hh)]
    · simp only [hw, hh, if_true, if_false, max_eq_right (le_of_lt hw),
        max_eq_left (not_lt.mp hh)]
  · by_cases hh : th > pc.thumbs_max_height
    · simp only [hw, hh, if_true, if_false, max_eq_left (not_lt.mp hw),
        max_eq_right (le_of_lt hh)]
    · simp only [hw, hh, if_false, max_eq_left (not_lt.mp hw), max_eq_left (not_lt.mp hh)]


theorem thumbs_all_equal_spec (doc : EvDocument) (dims : Int → ℚ → Int × Int) (i : Nat) :
    thumbs_all_equal doc dims i = true ↔
      ∀ j, j < i → reported_thumbnail doc dims j = reported_thumbnail doc dims 0 := by
  simp [thumbs_all_equal]

/-- The backfill at the first page `i` of a different size produces the table
of the reported sizes of the pages below `i`. -/
theorem backfill_loop_eq (doc : EvDocument) (dims : Int → ℚ → Int × Int) (i : Nat)
    (hi : i < doc.n_pages) (hall : thumbs_all_equal doc dims i = true) :
    backfill_loop (reported_thumbnail doc dims 0).1 (reported_thumbnail doc dims 0).2 i
        (i + 1) 0 (List.replicate doc.n_pages { width := 0, height := 0 }) =
      some (thumbs_table doc dims i) := by
  obtain ⟨c1, hc1, hl1, he1⟩ :=
    backfill_loop_spec (reported_thumbnail doc dims 0).1 (reported_thumbnail doc dims 0).2
      i doc.n_pages (i + 1) 0 (List.replicate doc.n_pages { width := 0, height := 0 })
      (by omega) (by omega) (by omega) (by simp)
  rw [hc1]
  congr 1
  apply List.ext_getElem?
  intro m
  rw [he1 m, thumbs_table_getElem?]
  by_cases hm : m < i
  · have hmn : m < doc.n_pages := by omega
    have h1 : 0 ≤ m ∧ m < i := ⟨Nat.zero_le _, hm⟩
    rw [if_pos h1, if_pos hmn, if_pos hm, (thumbs_all_equal_spec doc dims i).mp hall m hm]
  · have h1 : ¬ (0 ≤ m ∧ m < i) := by omega
    rw [if_neg h1, if_neg hm, List.getElem?_replicate]

theorem thumbs_body_eq (doc : EvDocument) (dims : Int → ℚ → Int × Int) (base : EvPageCache)
    (i : Nat) (hi : i < doc.n_pages) :
    thumbs_body doc dims i (thumbs_after doc dims base i) =
      some (thumbs_after doc dims base (i + 1)) := by
  simp only [thumbs_body, thumbs_update_max_eq]
  have hrep : dims (i : Int) (100 / (doc.page_size (i : Int)).1) =
      reported_thumbnail doc dims i := rfl
  rw [hrep]
  have hlt : i < (thumbs_table doc dims i).length := by
    rw [thumbs_table_length]; exact hi
  by_cases hi0 : i = 0
  · subst hi0
    simp [thumbs_record, thumbs_after, thumbs_all_equal_zero, thumbs_all_equal_succ,
      thumbs_running_max]
  · cases hall : thumbs_all_equal doc dims i with
    | false =>
      simp [thumbs_record, thumbs_after, thumbs_all_equal_succ, thumbs_running_max, hi0, hall,
        arrayWrite_of_lt _ _ _ hlt, thumbs_table_set doc dims i hi]
    | true =>
      by_cases heq : reported_thumbnail doc dims i = reported_thumbnail doc dims 0
      · simp [thumbs_record, thumbs_after, thumbs_all_equal_succ, thumbs_running_max, hi0, hall,
          heq]
      · have hne : ¬ ((reported_thumbnail doc dims 0).1 = (reported_thumbnail doc dims i).1 ∧
            (reported_thumbnail doc dims 0).2 = (reported_thumbnail doc dims i).2) := by
          rintro ⟨h1, h2⟩
          exact heq (Prod.ext h1.symm h2.symm)
        have hcond : ((reported_thumbnail doc dims 0).1 != (reported_thumbnail doc dims i).1 ||
            (reported_thumbnail doc dims 0).2 != (reported_thumbnail doc dims i).2) = true := by
          by_cases h1 : (reported_thumbnail doc dims 0).1 = (reported_thumbnail doc dims i).1
          · by_cases h2 : (reported_thumbnail doc dims 0).2 = (reported_thumbnail doc dims i).2
            · exact absurd ⟨h1, h2⟩ hne
            · simp [h2]
          · simp [h1]
        simp only [thumbs_record, thumbs_after, hi0, if_false, hall, hcond, Bool.and_self,
          if_true, backfill_loop_eq doc dims i hi hall, Bool.not_false,
          arrayWrite_of_lt _ _ _ hlt, thumbs_table_set doc dims i hi]
        simp [thumbs_all_equal_succ, hall, heq, thumbs_running_max]

theorem thumbs_loop_eq (doc : EvDocument) (dims : Int → ℚ → Int × Int) (base : EvPageCache) :
    ∀ (fuel i : Nat), 1 ≤ fuel → doc.n_pages + 1 ≤ fuel + i → i ≤ doc.n_pages →
      thumbs_loop doc dims fuel i (thumbs_after doc dims base i) =
        some (thumbs_after doc dims base doc.n_pages) := by
  intro fuel
  induction fuel with
  | zero => intro i h; omega
  | succ fuel ih =>
    intro i _ hfuel hin
    by_cases hi : i < doc.n_pages
    · simp only [thumbs_loop, hi, if_true, thumbs_body_eq doc dims base i hi]
      exact ih (i + 1) (by omega) (by omega) (by omega)
    · have hi2 : i = doc.n_pages := by omega
      simp [thumbs_loop, hi2]

theorem thumbs_after_zero (doc : EvDocument) (dims : Int → ℚ → Int × Int) :
    { built_cache doc with thumbs_uniform := true } = thumbs_after doc dims (built_cache doc) 0 := by
  simp [thumbs_after, thumbs_all_equal_zero, thumbs_running_max, built_cache,
    ev_page_cache_init, g_object_new]

/-- Closed form of the constructor on a document with thumbnails. -/
theorem ev_page_cache_new_thumbs (doc : EvDocument) (dims : Int → ℚ → Int × Int)
    (hth : doc.thumbnails = some dims) :
    ev_page_cache_new doc =
      some (if doc.n_pages > 0 then
          ev_page_cache_set_current_page
            (thumbs_after doc dims (built_cache doc) doc.n_pages) 0
        else (thumbs_after doc dims (built_cache doc) doc.n_pages, [])) := by
  have hb : build_height_to_page (ev_page_cache_init (g_object_new doc)) =
      some (built_cache doc) := by
    rw [build_height_to_page_eq]
    rfl
  have hl := thumbs_loop_eq doc dims (built_cache doc) (doc.n_pages + 1) 0
    (by omega) (by omega) (by omega)
  rw [← thumbs_after_zero] at hl
  simp only [ev_page_cache_new, hb, hth, hl]
  split <;> rfl

/-- Closed form of the constructor on a document without thumbnails. -/
theorem ev_page_cache_new_plain (doc : EvDocument) (hth : doc.thumbnails = none) :
    ev_page_cache_new doc =
      some (if doc.n_pages > 0 then ev_page_cache_set_current_page (built_cache doc) 0
        else (built_cache doc, [])) := by
  have hb : build_height_to_page (ev_page_cache_init (g_object_new doc)) =
      some (built_cache doc) := by
    rw [build_height_to_page_eq]
    rfl
  simp only [ev_page_cache_new, hb, hth]
  split <;> rfl

theorem get_thumbnail_size_set_current_page (pc : EvPageCache) (q p rotation : Int) :
    ev_page_cache_get_thumbnail_size (ev_page_cache_set_current_page pc q).1 p rotation =
      ev_page_cache_get_thumbnail_size pc p rotation := by
  by_cases h : q = pc.current_page
  · simp [ev_page_cache_set_current_page, h]
  · simp [ev_page_cache_set_current_page, h, ev_page_cache_get_thumbnail_size]

/-- The pair `(w, h)` that `ev_page_cache_get_thumbnail_size` reads for page
`p` after the whole thumbnail pass is the reported size of `p`. -/
theorem get_thumbnail_size_after (doc : EvDocument) (dims : Int → ℚ → Int × Int)
    (base : EvPageCache) (p : Nat) (hp : p < doc.n_pages) (rotation : Int) :
    ev_page_cache_get_thumbnail_size (thumbs_after doc dims base doc.n_pages) (p : Int)
        rotation =
      if rotation = 0 ∨ rotation = 180 then some (reported_thumbnail doc dims p)
      else some ((reported_thumbnail doc dims p).2, (reported_thumbnail doc dims p).1) := by
  have hn0 : doc.n_pages ≠ 0 := by omega
  cases hall : thumbs_all_equal doc dims doc.n_pages with
  | true =>
    have hp0 := (thumbs_all_equal_spec doc dims doc.n_pages).mp hall p hp
    simp only [ev_page_cache_get_thumbnail_size, thumbs_after, hall, if_true, hn0, if_false,
      ← hp0]
  | false =>
    have hnn : ¬ ((p : Int) < 0) := by omega
    have hrd : arrayRead (thumbs_table doc dims doc.n_pages) (p : Int) =
        some { width := (reported_thumbnail doc dims p).1,
               height := (reported_thumbnail doc dims p).2 } := by
      simp [arrayRead, thumbs_table_getElem?, hp]
    simp only [ev_page_cache_get_thumbnail_size, thumbs_after, hall, Bool.false_eq_true,
      if_false, hrd]

/-! ## Claim on the thumbnail sizes -/

/-- C5: for every document with thumbnails, construction returns a cache for
which `ev_page_cache_get_thumbnail_size (p, rotation)`, for every page
`p < n_pages`, is the size the thumbnail-dimension query reported for page `p`
at rotation 0 or 180, and that pair swapped at rotation 90 or 270. -/
theorem C5_thumbnail_size_is_reported (doc : EvDocument) (dims : Int → ℚ → Int × Int)
    (hth : doc.thumbnails = some dims) :
    ∃ pc sigs, ev_page_cache_new doc = some (pc, sigs) ∧
      ∀ (p : Nat) (rotation : Int), p < doc.n_pages →
        ((rotation = 0 ∨ rotation = 180) →
          ev_page_cache_get_thumbnail_size pc (p : Int) rotation =
            some (reported_thumbnail doc dims p)) ∧
        ((rotation = 90 ∨ rotation = 270) →
          ev_page_cache_get_thumbnail_size pc (p : Int) rotation =
            some ((reported_thumbnail doc dims p).2, (reported_thumbnail doc dims p).1)) := by
  by_cases hn : doc.n_pages > 0
  · refine ⟨(ev_page_cache_set_current_page
        (thumbs_after doc dims (built_cache doc) doc.n_pages) 0).1,
      (ev_page_cache_set_current_page
        (thumbs_after doc dims (built_cache doc) doc.n_pages) 0).2, ?_, ?_⟩
    · rw [ev_page_cache_new_thumbs doc dims hth, if_pos hn]
    · intro p rotation hp
      rw [get_thumbnail_size_set_current_page, get_thumbnail_size_after doc dims _ p hp]
      constructor
      · intro hr
        rw [if_pos hr]
      · intro hr
        have hr2 : ¬ (rotation = 0 ∨ rotation = 180) := by omega
        rw [if_neg hr2]
  · refine ⟨thumbs_after doc dims (built_cache doc) doc.n_pages, [], ?_, ?_⟩
    · rw [ev_page_cache_new_thumbs doc dims hth, if_neg hn]
    · intro p rotation hp
      omega

/-- Witness of C5: on the five-page document whose pages 0 to 2 report
`(100, 141)` and pages 3 and 4 report `(100, 77)`, page 1 at rotation 0 has
thumbnail size `(100, 141)` and page 3 at rotation 90 has `(77, 100)`. -/
theorem C5_thumbnail_size_is_reported_witness :
    thumb_doc5.thumbnails = some (fun i _ => if i < 3 then (100, 141) else (100, 77)) ∧
    ∃ pc sigs, ev_page_cache_new thumb_doc5 = some (pc, sigs) ∧
      ev_page_cache_get_thumbnail_size pc 1 0 = some (100, 141) ∧
      ev_page_cache_get_thumbnail_size pc 3 90 = some (77, 100) := by
  obtain ⟨pc, sigs, hnew, hall⟩ := C5_thumbnail_size_is_reported thumb_doc5
    (fun i _ => if i < 3 then (100, 141) else (100, 77)) rfl
  refine ⟨rfl, pc, sigs, hnew, ?_, ?_⟩
  · have h := (hall 1 0 (by decide)).1 (Or.inl rfl)
    simpa [reported_thumbnail] using h
  · have h := (hall 3 90 (by decide)).2 (Or.inl rfl)
    simpa [reported_thumbnail] using h

/-! ## Claims on the current page -/

theorem wrap_gint_of_range (x : Int) (h1 : -2147483648 ≤ x) (h2 : x < 2147483648) :
    wrap_gint x = x := by
  unfold wrap_gint
  omega

/-- Without overflow the `gint` computation `abs (p - c)` is the absolute
value of the difference. -/
theorem gint_abs_sub_of_range (p c : Int) (h1 : -2147483648 < p - c)
    (h2 : p - c < 2147483648) : gint_abs (gint_sub p c) = |p - c| := by
  unfold gint_abs gint_sub
  rw [wrap_gint_of_range (p - c) (by omega) h2]
  apply wrap_gint_of_range
  · have := abs_nonneg (p - c)
    omega
  · rw [abs_lt]
    constructor <;> omega

/-- C6 (amended): for a current page `c` and a target page `p` whose difference
`p - c` lies strictly between `-2^31` and `2^31` (so the `gint` subtraction and
`abs` do not overflow; every `c`, `p` in `{-1} ∪ [0, n_pages - 1]` qualifies),
`ev_page_cache_set_current_page_history (p)` emits nothing when `p = c`, the
single signal `page-changed (p)` when `|p - c| = 1`, and `history-changed (p)`
followed by `page-changed (p)` when `|p - c| > 1`; in every case the current
page is `p` afterwards. -/
theorem C6_set_current_page_history_signals (page_cache : EvPageCache) (p : Int)
    (hlo : -2147483648 < p - page_cache.current_page)
    (hhi : p - page_cache.current_page < 2147483648) :
    (p = page_cache.current_page →
      (ev_page_cache_set_current_page_history page_cache p).2 = []) ∧
    (|p - page_cache.current_page| = 1 →
      (ev_page_cache_set_current_page_history page_cache p).2 = [Signal.page_changed p]) ∧
    (|p - page_cache.current_page| > 1 →
      (ev_page_cache_set_current_page_history page_cache p).2 =
        [Signal.history_changed p, Signal.page_changed p]) ∧
    (ev_page_cache_set_current_page_history page_cache p).1.current_page = p := by
  have habs := gint_abs_sub_of_range p page_cache.current_page hlo hhi
  refine ⟨?_, ?_, ?_, ?_⟩
  · intro h
    subst h
    simp [ev_page_cache_set_current_page_history, ev_page_cache_set_current_page, habs]
  · intro h
    have hne : p ≠ page_cache.current_page := by
      intro h2
      rw [h2] at h
      simp at h
    simp [ev_page_cache_set_current_page_history, ev_page_cache_set_current_page, habs, h, hne]
  · intro h
    have hne : p ≠ page_cache.current_page := by
      intro h2
      rw [h2] at h
      simp at h
    simp [ev_page_cache_set_current_page_history, ev_page_cache_set_current_page, habs, h, hne]
  · by_cases h : p = page_cache.current_page
    · simp [ev_page_cache_set_current_page_history, ev_page_cache_set_current_page, h]
    · simp [ev_page_cache_set_current_page_history, ev_page_cache_set_current_page, h]

/-- Witness of C6: from page 2, the calls with 2, 5 and 6 emit `[]`,
`[history-changed (5), page-changed (5)]` and `[page-changed (6)]`. -/
theorem C6_set_current_page_history_signals_witness :
    cache_at_page2.current_page = 2 ∧
    (ev_page_cache_set_current_page_history cache_at_page2 2).2 = [] ∧
    (ev_page_cache_set_current_page_history
      (ev_page_cache_set_current_page_history cache_at_page2 2).1 5).2 =
        [Signal.history_changed 5, Signal.page_changed 5] ∧
    (ev_page_cache_set_current_page_history
      (ev_page_cache_set_current_page_history
        (ev_page_cache_set_current_page_history cache_at_page2 2).1 5).1 6).2 =
        [Signal.page_changed 6] := by
  have c0 : cache_at_page2.current_page = 2 := by decide
  have c1 := (C6_set_current_page_history_signals cache_at_page2 2
    (by rw [c0]; decide) (by rw [c0]; decide)).2.2.2
  have c2 := (C6_set_current_page_history_signals
    (ev_page_cache_set_current_page_history cache_at_page2 2).1 5
    (by rw [c1]; decide) (by rw [c1]; decide)).2.2.2
  refine ⟨c0, ?_, ?_, ?_⟩
  · exact (C6_set_current_page_history_signals cache_at_page2 2
      (by rw [c0]; decide) (by rw [c0]; decide)).1 c0.symm
  · exact (C6_set_current_page_history_signals
      (ev_page_cache_set_current_page_history cache_at_page2 2).1 5
      (by rw [c1]; decide) (by rw [c1]; decide)).2.2.1
      (by rw [c1]; decide)
  · exact (C6_set_current_page_history_signals
      (ev_page_cache_set_current_page_history
        (ev_page_cache_set_current_page_history cache_at_page2 2).1 5).1 6
      (by rw [c2]; decide) (by rw [c2]; decide)).2.1
      (by rw [c2]; decide)

/-- Counterexample to C6 as stated: with current page 0 and target page
`INT_MIN = -2147483648` the distance `|p - c|` is `2^31 > 1`, but
`abs (page - current_page)` wraps to `INT_MIN`, which is not `> 1`, and the
call emits only `page-changed`, no `history-changed`. -/
theorem C6_counterexample :
    cache_at_page0.current_page = 0 ∧
    |(-2147483648 : Int) - cache_at_page0.current_page| > 1 ∧
    (ev_page_cache_set_current_page_history cache_at_page0 (-2147483648)).2 =
      [Signal.page_changed (-2147483648)] ∧
    (ev_page_cache_set_current_page_history cache_at_page0 (-2147483648)).2 ≠
      [Signal.history_changed (-2147483648), Signal.page_changed (-2147483648)] := by
  refine ⟨by decide, by decide, by decide, by decide⟩

/-- C7: `ev_page_cache_set_current_page (p)` leaves the whole cache unchanged
and emits nothing when `p` is the current page; otherwise the current page
becomes `p`, exactly the signal `page-changed (p)` is emitted, and every other
field of the cache is unchanged.  A second identical call emits nothing. -/
theorem C7_set_current_page_frame (page_cache : EvPageCache) (p : Int) :
    (p = page_cache.current_page →
      ev_page_cache_set_current_page page_cache p = (page_cache, [])) ∧
    (p ≠ page_cache.current_page →
      (ev_page_cache_set_current_page page_cache p).2 = [Signal.page_changed p] ∧
      (ev_page_cache_set_current_page page_cache p).1.current_page = p ∧
      (ev_page_cache_set_current_page page_cache p).1.document = page_cache.document ∧
      (ev_page_cache_set_current_page page_cache p).1.rotation = page_cache.rotation ∧
      (ev_page_cache_set_current_page page_cache p).1.dual_even_left =
        page_cache.dual_even_left ∧
      (ev_page_cache_set_current_page page_cache p).1.height_to_page =
        page_cache.height_to_page ∧
      (ev_page_cache_set_current_page page_cache p).1.dual_height_to_page =
        page_cache.dual_height_to_page ∧
      (ev_page_cache_set_current_page page_cache p).1.thumbs_uniform =
        page_cache.thumbs_uniform ∧
      (ev_page_cache_set_current_page page_cache p).1.thumbs_uniform_width =
        page_cache.thumbs_uniform_width ∧
      (ev_page_cache_set_current_page page_cache p).1.thumbs_uniform_height =
        page_cache.thumbs_uniform_height ∧
      (ev_page_cache_set_current_page page_cache p).1.thumbs_max_width =
        page_cache.thumbs_max_width ∧
      (ev_page_cache_set_current_page page_cache p).1.thumbs_max_height =
        page_cache.thumbs_max_height ∧
      (ev_page_cache_set_current_page page_cache p).1.thumbs_size_cache =
        page_cache.thumbs_size_cache) ∧
    (ev_page_cache_set_current_page (ev_page_cache_set_current_page page_cache p).1 p).2
      = [] := by
  refine ⟨?_, ?_, ?_⟩
  · intro h
    simp [ev_page_cache_set_current_page, h]
  · intro h
    simp [ev_page_cache_set_current_page, h]
  · by_cases h : p = page_cache.current_page
    · simp [ev_page_cache_set_current_page, h]
    · simp [ev_page_cache_set_current_page, h]

/-- Witness of C7: on the cache at page 2, setting page 2 changes nothing and
setting page 7 emits `page-changed (7)` once, a repeated call nothing. -/
theorem C7_set_current_page_frame_witness :
    ev_page_cache_set_current_page cache_at_page2 2 = (cache_at_page2, []) ∧
    (ev_page_cache_set_current_page cache_at_page2 7).2 = [Signal.page_changed 7] ∧
    (ev_page_cache_set_current_page (ev_page_cache_set_current_page cache_at_page2 7).1 7).2
      = [] :=
  ⟨(C7_set_current_page_frame cache_at_page2 2).1 (by decide),
   ((C7_set_current_page_frame cache_at_page2 7).2.1 (by decide)).1,
   (C7_set_current_page_frame cache_at_page2 7).2.2⟩

/-- C8: `ev_page_cache_set_page_label (label)` returns `TRUE` with exactly the
state and signals of `ev_page_cache_set_current_page (q)` when the document
resolves the label to page `q`; when the lookup fails it returns `FALSE`, the
cache is unchanged and nothing is emitted. -/
theorem C8_set_page_label (page_cache : EvPageCache) (label : String) :
    (∀ q : Int, page_cache.document.find_page_by_label label = some q →
      ev_page_cache_set_page_label page_cache label =
        (true, (ev_page_cache_set_current_page page_cache q).1,
          (ev_page_cache_set_current_page page_cache q).2)) ∧
    (page_cache.document.find_page_by_label label = none →
      ev_page_cache_set_page_label page_cache label = (false, page_cache, [])) := by
  constructor
  · intro q hq
    simp [ev_page_cache_set_page_label, hq]
  · intro h
    simp [ev_page_cache_set_page_label, h]

/-- Witness of C8: on the cache at page 2 the label `"iv"` resolves to page 3,
and the label `"x"` does not resolve. -/
theorem C8_set_page_label_witness :
    ev_page_cache_set_page_label cache_at_page2 "iv" =
      (true, (ev_page_cache_set_current_page cache_at_page2 3).1, [Signal.page_changed 3]) ∧
    ev_page_cache_set_page_label cache_at_page2 "x" = (false, cache_at_page2, []) := by
  constructor
  · have h := (C8_set_page_label cache_at_page2 "iv").1 3 (by decide)
    rw [h]
    rfl
  · exact (C8_set_page_label cache_at_page2 "x").2 (by decide)

/-! ## Claims on the geometry queries -/

/-- Truncation toward zero is the floor on a non-negative rational. -/
theorem truncToInt_of_nonneg (q : ℚ) (hq : 0 ≤ q) : truncToInt q = ⌊q⌋ := by
  unfold truncToInt
  rw [Rat.floor_def, Int.tdiv_eq_ediv (Rat.num_nonneg.mpr hq) (Int.natCast_nonneg _)]

/-- C9: for a page of natural size `(w, h)` with `w, h ≥ 0` and a scale `≥ 0`,
`ev_page_cache_get_size` returns `(⌊w * scale + 1/2⌋, ⌊h * scale + 1/2⌋)` at
rotation 0 or 180, and at rotation 90 or 270 the rotation-0 width and height
swapped. -/
theorem C9_get_size_rounds_and_swaps (page_cache : EvPageCache) (page rotation : Int)
    (scale : ℚ)
    (hw : 0 ≤ (page_cache.document.page_size page).1)
    (hh : 0 ≤ (page_cache.document.page_size page).2)
    (hs : 0 ≤ scale) :
    ((rotation = 0 ∨ rotation = 180) →
      ev_page_cache_get_size page_cache page rotation scale =
        (⌊(page_cache.document.page_size page).1 * scale + 1 / 2⌋,
         ⌊(page_cache.document.page_size page).2 * scale + 1 / 2⌋)) ∧
    ((rotation = 90 ∨ rotation = 270) →
      ev_page_cache_get_size page_cache page rotation scale =
        ((ev_page_cache_get_size page_cache page 0 scale).2,
         (ev_page_cache_get_size page_cache page 0 scale).1)) := by
  have h1 : 0 ≤ (page_cache.document.page_size page).1 * scale + 1 / 2 := by positivity
  have h2 : 0 ≤ (page_cache.document.page_size page).2 * scale + 1 / 2 := by positivity
  constructor
  · intro hr
    simp only [ev_page_cache_get_size, hr, if_true, truncToInt_of_nonneg _ h1,
      truncToInt_of_nonneg _ h2]
  · intro hr
    have hr2 : ¬ (rotation = 0 ∨ rotation = 180) := by omega
    simp [ev_page_cache_get_size, hr2]

/-- Witness of C9: page 3 of the four-page document, of size `(7, 9)`, at scale
`3/2` has size `(11, 14)` at rotation 0 and `(14, 11)` at rotation 90. -/
theorem C9_get_size_rounds_and_swaps_witness :
    0 ≤ ((fresh_cache mixed_doc4 0).document.page_size 3).1 ∧
    0 ≤ ((fresh_cache mixed_doc4 0).document.page_size 3).2 ∧
    (0 : ℚ) ≤ 3 / 2 ∧
    ev_page_cache_get_size (fresh_cache mixed_doc4 0) 3 0 (3 / 2) = (11, 14) ∧
    ev_page_cache_get_size (fresh_cache mixed_doc4 0) 3 90 (3 / 2) = (14, 11) := by
  have hw : 0 ≤ ((fresh_cache mixed_doc4 0).document.page_size 3).1 := by
    simp [fresh_cache, ev_page_cache_init, g_object_new, mixed_doc4]
  have hh : 0 ≤ ((fresh_cache mixed_doc4 0).document.page_size 3).2 := by
    simp [fresh_cache, ev_page_cache_init, g_object_new, mixed_doc4]
  have hs : (0 : ℚ) ≤ 3 / 2 := by norm_num
  have e0 : ev_page_cache_get_size (fresh_cache mixed_doc4 0) 3 0 (3 / 2) = (11, 14) := by
    rw [(C9_get_size_rounds_and_swaps (fresh_cache mixed_doc4 0) 3 0 (3 / 2) hw hh hs).1
      (Or.inl rfl)]
    have f1 : ⌊((fresh_cache mixed_doc4 0).document.page_size 3).1 * (3 / 2) + 1 / 2⌋ = 11 := by
      rw [Int.floor_eq_iff]
      simp [fresh_cache, ev_page_cache_init, g_object_new, mixed_doc4]
      norm_num
    have f2 : ⌊((fresh_cache mixed_doc4 0).document.page_size 3).2 * (3 / 2) + 1 / 2⌋ = 14 := by
      rw [Int.floor_eq_iff]
      simp [fresh_cache, ev_page_cache_init, g_object_new, mixed_doc4]
      norm_num
    rw [f1, f2]
  refine ⟨hw, hh, hs, e0, ?_⟩
  rw [(C9_get_size_rounds_and_swaps (fresh_cache mixed_doc4 0) 3 90 (3 / 2) hw hh hs).2
    (Or.inl rfl), e0]

theorem arrayRead_of_le {α : Type} (tbl : List α) (p : Int) (m : Nat)
    (hp0 : 0 ≤ p) (hpm : p < (m : Int)) (hlen : tbl.length = m) :
    ∃ a, arrayRead tbl p = some a := by
  have h : p.toNat < tbl.length := by omega
  refine ⟨tbl[p.toNat], ?_⟩
  have hn : ¬ p < 0 := by omega
  simp [arrayRead, hn, List.getElem?_eq_getElem h]

/-- C10: two calls of `ev_page_cache_get_height_to_page` in succession with the
same rotation, for a page `p` with `0 ≤ p ≤ n_pages`: whenever the first call
returns, the cached rotation is then the requested one (so the guard of the
rebuild is false in the second call), and the second call returns the same
cache state and the same `height` and `dual_height`.  The first call does
return both values when it rebuilds, or when the tables of the cache have
`n_pages + 1` and `n_pages + 2` entries.  A call whose rotation is the cached
one performs no rebuild: it returns the cache exactly as it was, whatever its
tables hold, and its values are read from those stored tables. -/
theorem C10_get_height_to_page_idempotent (page_cache : EvPageCache) (p rotation : Int)
    (scale : ℚ) (hp0 : 0 ≤ p) (hpn : p ≤ (page_cache.document.n_pages : Int)) :
    (∀ s1 out, ev_page_cache_get_height_to_page page_cache p rotation scale = some (s1, out) →
      s1.rotation = rotation ∧
      ev_page_cache_get_height_to_page s1 p rotation scale = some (s1, out)) ∧
    ((page_cache.rotation ≠ rotation ∨
        (page_cache.height_to_page.length = page_cache.document.n_pages + 1 ∧
         page_cache.dual_height_to_page.length = page_cache.document.n_pages + 2)) →
      ∃ s1 h dh, ev_page_cache_get_height_to_page page_cache p rotation scale =
        some (s1, some (h, dh))) ∧
    (page_cache.rotation = rotation →
      ∀ s out, ev_page_cache_get_height_to_page page_cache p rotation scale = some (s, out) →
        s = page_cache ∧
        ∃ a b, arrayRead page_cache.height_to_page p = some a ∧
          arrayRead page_cache.dual_height_to_page p = some b ∧
          out = some (truncToInt (a * scale), truncToInt (b * scale))) := by
  have hn : ¬ p < 0 := by omega
  refine ⟨?_, ?_, ?_⟩
  · intro s1 out h
    by_cases hr : page_cache.rotation = rotation
    · simp only [ev_page_cache_get_height_to_page, hn, if_false, hr, ne_eq, not_true_eq_false]
        at h
      cases ha : arrayRead page_cache.height_to_page p with
      | none => simp [ha] at h
      | some a =>
        cases hb : arrayRead page_cache.dual_height_to_page p with
        | none => simp [ha, hb] at h
        | some b =>
          simp only [ha, hb, Option.some.injEq, Prod.mk.injEq] at h
          obtain ⟨h1, h2⟩ := h
          subst h1
          refine ⟨hr, ?_⟩
          simp only [ev_page_cache_get_height_to_page, hn, if_false, hr, ne_eq,
            not_true_eq_false, ha, hb, h2]
    · simp only [ev_page_cache_get_height_to_page, hn, if_false, hr, ne_eq, not_false_eq_true,
        if_true, build_height_to_page_eq] at h
      cases ha : arrayRead (height_table page_cache.document rotation) p with
      | none => simp [ha] at h
      | some a =>
        cases hb : arrayRead (dual_table page_cache.document rotation) p with
        | none => simp [ha, hb] at h
        | some b =>
          simp only [ha, hb, Option.some.injEq, Prod.mk.injEq] at h
          obtain ⟨h1, h2⟩ := h
          subst h1
          refine ⟨rfl, ?_⟩
          simp only [ev_page_cache_get_height_to_page, hn, if_false, ne_eq,
            not_true_eq_false, ha, hb, h2]
  · intro hwf
    by_cases hr : page_cache.rotation = rotation
    · rcases hwf with h | ⟨hl1, hl2⟩
      · exact absurd hr h
      · obtain ⟨a, ha⟩ := arrayRead_of_le page_cache.height_to_page p
          (page_cache.document.n_pages + 1) hp0 (by push_cast; omega) hl1
        obtain ⟨b, hb⟩ := arrayRead_of_le page_cache.dual_height_to_page p
          (page_cache.document.n_pages + 2) hp0 (by push_cast; omega) hl2
        exact ⟨page_cache, truncToInt (a * scale), truncToInt (b * scale), by
          simp only [ev_page_cache_get_height_to_page, hn, if_false, hr, ne_eq,
            not_true_eq_false, ha, hb]⟩
    · obtain ⟨a, ha⟩ := arrayRead_of_le (height_table page_cache.document rotation) p
        (page_cache.document.n_pages + 1) hp0 (by push_cast; omega) (height_table_length _ _)
      obtain ⟨b, hb⟩ := arrayRead_of_le (dual_table page_cache.document rotation) p
        (page_cache.document.n_pages + 2) hp0 (by push_cast; omega) (dual_table_length _ _)
      exact ⟨{ page_cache with
          rotation := rotation,
          height_to_page := height_table page_cache.document rotation,
          dual_height_to_page := dual_table page_cache.document rotation },
        truncToInt (a * scale), truncToInt (b * scale), by
        simp only [ev_page_cache_get_height_to_page, hn, if_false, hr, ne_eq,
          not_false_eq_true, if_true, build_height_to_page_eq, ha, hb]⟩
  · intro hr s out h
    simp only [ev_page_cache_get_height_to_page, hn, if_false, hr, ne_eq, not_true_eq_false]
      at h
    cases ha : arrayRead page_cache.height_to_page p with
    | none => simp [ha] at h
    | some a =>
      cases hb : arrayRead page_cache.dual_height_to_page p with
      | none => simp [ha, hb] at h
      | some b =>
        simp only [ha, hb, Option.some.injEq, Prod.mk.injEq] at h
        exact ⟨h.1.symm, a, b, rfl, rfl, h.2.symm⟩

/-- Witness of C10: on the four-page document with cached rotation 0, the
query for page 2 at rotation 90 and scale `3/2` rebuilds and returns
`(60, 15)`; the same query again returns the same state and values.  On a cache
with cached rotation 90 whose tables hold the stale values 7 and 9, the query
at rotation 90 returns that cache untouched and the stale values `(7, 9)`. -/
theorem C10_get_height_to_page_idempotent_witness :
    (0 : Int) ≤ 2 ∧ (2 : Int) ≤ ((fresh_cache mixed_doc4 0).document.n_pages : Int) ∧
    (∃ s1, ev_page_cache_get_height_to_page (fresh_cache mixed_doc4 0) 2 90 (3 / 2) =
        some (s1, some (60, 15)) ∧
      s1.rotation = 90 ∧
      ev_page_cache_get_height_to_page s1 2 90 (3 / 2) = some (s1, some (60, 15))) ∧
    stale_cache.rotation = 90 ∧
    ev_page_cache_get_height_to_page stale_cache 2 90 1 = some (stale_cache, some (7, 9)) := by
  have h0 : (0 : Int) ≤ 2 := by decide
  have hn : (2 : Int) ≤ ((fresh_cache mixed_doc4 0).document.n_pages : Int) := by decide
  obtain ⟨s1, h, dh, hfirst⟩ :=
    (C10_get_height_to_page_idempotent (fresh_cache mixed_doc4 0) 2 90 (3 / 2) h0 hn).2.1
      (Or.inl (by decide))
  have hv : (ev_page_cache_get_height_to_page (fresh_cache mixed_doc4 0) 2 90 (3 / 2)).map
      (fun r => r.2) = some (some (60, 15)) := by
    have hne : ¬ ((2 : Int) < 0) := by decide
    have hrot : (fresh_cache mixed_doc4 0).rotation ≠ 90 := by decide
    simp only [ev_page_cache_get_height_to_page, hne, if_false, hrot, ne_eq, not_false_eq_true,
      if_true, build_height_to_page_eq]
    simp [arrayRead, height_table, dual_table, height_entry, dual_entry, dual_row_value,
      dual_row_offset, extent_or_zero, page_extent, rotation_swap, dual_start, dual_seed,
      uniform_size, Finset.sum_range_succ, fresh_cache, ev_page_cache_init, g_object_new,
      mixed_doc4, truncToInt]
    norm_num
  rw [hfirst] at hv
  simp only [Option.map_some', Option.some.injEq, Prod.mk.injEq] at hv
  obtain ⟨hh, hd⟩ := hv
  subst hh hd
  obtain ⟨hrot, hsecond⟩ :=
    (C10_get_height_to_page_idempotent (fresh_cache mixed_doc4 0) 2 90 (3 / 2) h0 hn).1 _ _ hfirst
  have hst := C10_get_height_to_page_idempotent stale_cache 2 90 1 (by decide) (by decide)
  obtain ⟨s2, h2, dh2, hstale⟩ := hst.2.1 (Or.inr ⟨rfl, rfl⟩)
  obtain ⟨hs2, a, b, ha, hb, hout⟩ := hst.2.2 rfl _ _ hstale
  have ea : a = 7 := by
    have h7 : arrayRead stale_cache.height_to_page 2 = some 7 := by
      simp [arrayRead, stale_cache]
    rw [h7] at ha
    exact (Option.some.inj ha).symm
  have eb : b = 9 := by
    have h9 : arrayRead stale_cache.dual_height_to_page 2 = some 9 := by
      simp [arrayRead, stale_cache]
    rw [h9] at hb
    exact (Option.some.inj hb).symm
  have t7 : truncToInt ((7 : ℚ) * 1) = 7 := by
    rw [truncToInt_of_nonneg _ (by norm_num), Int.floor_eq_iff]
    norm_num
  have t9 : truncToInt ((9 : ℚ) * 1) = 9 := by
    rw [truncToInt_of_nonneg _ (by norm_num), Int.floor_eq_iff]
    norm_num
  refine ⟨h0, hn, ⟨s1, hfirst, hrot, hsecond⟩, rfl, ?_⟩
  rw [hstale, hs2, hout, ea, eb, t7, t9]

/-! ## Claim on the rotation change -/

/-- The tables depend on the rotation only through the swap test. -/
theorem height_table_congr (doc : EvDocument) (r1 r2 : Int)
    (h : rotation_swap r1 = rotation_swap r2) : height_table doc r1 = height_table doc r2 := by
  simp only [height_table, h]

theorem dual_table_congr (doc : EvDocument) (r1 r2 : Int)
    (h : rotation_swap r1 = rotation_swap r2) : dual_table doc r1 = dual_table doc r2 := by
  simp only [dual_table, h]

theorem rotation_swap_iff (r : Int) : rotation_swap r = true ↔ (r = 90 ∨ r = 270) := by
  simp [rotation_swap]

/-- Entry 1 of the single table is the extent of page 0. -/
theorem height_entry_one (doc : EvDocument) (rotation : Int) :
    height_entry doc (rotation_swap rotation) doc.is_page_size_uniform (uniform_size doc) 1 =
      extent doc rotation 0 := by
  cases hu : doc.is_page_size_uniform with
  | false => simp [height_entry, page_extent_rotation_swap]
  | true =>
    have hue := uniform_height_eq_extent doc rotation hu
    simp only [height_entry, if_true, hue]
    norm_num

/-- The first row offset of the dual table, at index `2 - d`, is the extent
of page 0, except on a two-page document without the uniform flag. -/
theorem dual_entry_first_row (doc : EvDocument) (rotation : Int) (hn : 1 ≤ doc.n_pages)
    (hnn : 0 ≤ (doc.page_size 0).1 ∧ 0 ≤ (doc.page_size 0).2)
    (hcase : doc.n_pages ≠ 2 ∨ doc.is_page_size_uniform = true) :
    dual_entry doc (rotation_swap rotation) doc.is_page_size_uniform (uniform_size doc)
        (dual_start doc) (dual_seed doc (rotation_swap rotation)) (2 - dual_start doc) =
      extent doc rotation 0 := by
  have h0 : 0 ≤ extent doc rotation 0 := extent_nonneg doc rotation 0 (by simpa using hnn)
  rcases dual_start_cases doc with ⟨hd, hle⟩ | ⟨hd, hgt⟩
  · cases hu : doc.is_page_size_uniform with
    | true =>
      have hue := uniform_height_eq_extent doc rotation hu
      simp only [dual_entry, hd, dual_row_value, if_true, hue]
      norm_num
    | false =>
      have hn1 : doc.n_pages = 1 := by
        rcases hcase with h | h
        · omega
        · rw [hu] at h; cases h
      have hb : decide (doc.n_pages > 2) = false := by simp [hn1]
      simp [dual_entry, hd, dual_row_value, dual_row_offset, dual_seed, hb, extent_or_zero,
        hn1, page_extent_rotation_swap, h0]
  · cases hu : doc.is_page_size_uniform with
    | true =>
      have hue := uniform_height_eq_extent doc rotation hu
      simp only [dual_entry, hd, dual_row_value, if_true, hue]
      norm_num
    | false =>
      have hb : decide (doc.n_pages > 2) = true := by simp [hgt]
      simp [dual_entry, hd, dual_row_value, dual_row_offset, dual_seed, hb, hu,
        page_extent_rotation_swap]

theorem extent_ne_of_swap (doc : EvDocument) (r1 r2 : Int)
    (hsq : (doc.page_size 0).1 ≠ (doc.page_size 0).2)
    (hswap : (r1 = 90 ∨ r1 = 270) ↔ ¬ (r2 = 90 ∨ r2 = 270)) :
    extent doc r2 0 ≠ extent doc r1 0 := by
  unfold extent
  by_cases h1 : r1 = 90 ∨ r1 = 270
  · have h2 : ¬ (r2 = 90 ∨ r2 = 270) := hswap.mp h1
    rw [if_pos h1, if_neg h2]
    exact fun h => hsq h.symm
  · have h2 : r2 = 90 ∨ r2 = 270 := by
      by_contra h
      exact h1 (hswap.mpr h)
    rw [if_neg h1, if_pos h2]
    exact hsq

theorem ne_of_getElem?_ne {α : Type} (l1 l2 : List α) (i : Nat) (a b : α)
    (h1 : l1[i]? = some a) (h2 : l2[i]? = some b) (hab : a ≠ b) : l1 ≠ l2 := by
  intro h
  rw [h, h2] at h1
  exact hab (Option.some.inj h1).symm

/-- The query on a cache whose rotation differs from the requested one, for a
page in range: it returns with the tables rebuilt for the new rotation. -/
theorem get_height_to_page_rebuild (pc : EvPageCache) (p rotation : Int) (scale : ℚ)
    (hr : pc.rotation ≠ rotation) (hp0 : 0 ≤ p) (hpn : p ≤ (pc.document.n_pages : Int)) :
    ∃ a b, arrayRead (height_table pc.document rotation) p = some a ∧
      arrayRead (dual_table pc.document rotation) p = some b ∧
      ev_page_cache_get_height_to_page pc p rotation scale =
        some ({ pc with rotation := rotation,
                        height_to_page := height_table pc.document rotation,
                        dual_height_to_page := dual_table pc.document rotation },
          some (truncToInt (a * scale), truncToInt (b * scale))) := by
  have hn : ¬ p < 0 := by omega
  obtain ⟨a, ha⟩ := arrayRead_of_le (height_table pc.document rotation) p
    (pc.document.n_pages + 1) hp0 (by push_cast; omega) (height_table_length _ _)
  obtain ⟨b, hb⟩ := arrayRead_of_le (dual_table pc.document rotation) p
    (pc.document.n_pages + 2) hp0 (by push_cast; omega) (dual_table_length _ _)
  refine ⟨a, b, ha, hb, ?_⟩
  simp only [ev_page_cache_get_height_to_page, hn, if_false, hr, ne_eq,
    not_false_eq_true, if_true, build_height_to_page_eq, ha, hb]

/-- The query on a cache whose rotation is the requested one and whose tables
have the allocated lengths: it returns the cache unchanged. -/
theorem get_height_to_page_cached (pc : EvPageCache) (p : Int) (scale : ℚ)
    (hl1 : pc.height_to_page.length = pc.document.n_pages + 1)
    (hl2 : pc.dual_height_to_page.length = pc.document.n_pages + 2)
    (hp0 : 0 ≤ p) (hpn : p ≤ (pc.document.n_pages : Int)) :
    ∃ a b, arrayRead pc.height_to_page p = some a ∧
      arrayRead pc.dual_height_to_page p = some b ∧
      ev_page_cache_get_height_to_page pc p pc.rotation scale =
        some (pc, some (truncToInt (a * scale), truncToInt (b * scale))) := by
  have hn : ¬ p < 0 := by omega
  obtain ⟨a, ha⟩ := arrayRead_of_le pc.height_to_page p
    (pc.document.n_pages + 1) hp0 (by push_cast; omega) hl1
  obtain ⟨b, hb⟩ := arrayRead_of_le pc.dual_height_to_page p
    (pc.document.n_pages + 2) hp0 (by push_cast; omega) hl2
  refine ⟨a, b, ha, hb, ?_⟩
  simp only [ev_page_cache_get_height_to_page, hn, if_false, ne_eq, not_true_eq_false, ha, hb]

/-- The cache a returning call of the builder yields. -/
theorem build_height_to_page_some (pc0 pc : EvPageCache)
    (h : build_height_to_page pc0 = some pc) :
    pc = { pc0 with height_to_page := height_table pc0.document pc0.rotation,
                    dual_height_to_page := dual_table pc0.document pc0.rotation } := by
  rw [build_height_to_page_eq] at h
  exact (Option.some.inj h).symm

/-- C11 (amended): on a cache whose tables were built for its rotation `r`, for
a document with at least one page, all pages non-square, a query for a page
`0 ≤ p ≤ n_pages` with a rotation `r'` different from `r` returns, and: when
exactly one of `r`, `r'` is 90 or 270, `height_to_page` differs from its
previous contents, and so does `dual_height_to_page` provided the page sizes
are non-negative and the document has the uniform flag or a page count other
than 2; when `r` and `r'` are both, or both not, 90 or 270, both tables keep
their contents. -/
theorem C11_rotation_change_tables (page_cache0 page_cache : EvPageCache)
    (p rotation : Int) (scale : ℚ)
    (hbuilt : build_height_to_page page_cache0 = some page_cache)
    (hn : 1 ≤ page_cache.document.n_pages)
    (hsq : ∀ j : Nat, j < page_cache.document.n_pages →
      (page_cache.document.page_size (j : Int)).1 ≠ (page_cache.document.page_size (j : Int)).2)
    (hne : page_cache.rotation ≠ rotation)
    (hp0 : 0 ≤ p) (hpn : p ≤ (page_cache.document.n_pages : Int)) :
    ∃ pc1 out, ev_page_cache_get_height_to_page page_cache p rotation scale = some (pc1, out) ∧
      (((page_cache.rotation = 90 ∨ page_cache.rotation = 270) ↔
          ¬ (rotation = 90 ∨ rotation = 270)) →
        pc1.height_to_page ≠ page_cache.height_to_page ∧
        ((∀ j : Nat, j < page_cache.document.n_pages →
            0 ≤ (page_cache.document.page_size (j : Int)).1 ∧
            0 ≤ (page_cache.document.page_size (j : Int)).2) →
          (page_cache.document.n_pages ≠ 2 ∨
            page_cache.document.is_page_size_uniform = true) →
          pc1.dual_height_to_page ≠ page_cache.dual_height_to_page)) ∧
      (((page_cache.rotation = 90 ∨ page_cache.rotation = 270) ↔
          (rotation = 90 ∨ rotation = 270)) →
        pc1.height_to_page = page_cache.height_to_page ∧
        pc1.dual_height_to_page = page_cache.dual_height_to_page) := by
  have hpc := build_height_to_page_some _ _ hbuilt
  subst hpc
  have hn1 : 1 ≤ page_cache0.document.n_pages := hn
  obtain ⟨a, b, _, _, hget⟩ := get_height_to_page_rebuild _ p rotation scale hne hp0 hpn
  refine ⟨_, _, hget, ?_, ?_⟩
  · intro hswap
    have hsq0 := hsq 0 hn1
    have hext := extent_ne_of_swap page_cache0.document page_cache0.rotation rotation
      (by simpa using hsq0) hswap
    constructor
    · show height_table page_cache0.document rotation ≠
        height_table page_cache0.document page_cache0.rotation
      apply ne_of_getElem?_ne _ _ 1 _ _
        (height_table_getElem? _ _ 1 hn) (height_table_getElem? _ _ 1 hn)
      rw [height_entry_one, height_entry_one]
      exact hext
    · intro hnn hcase
      show dual_table page_cache0.document rotation ≠
        dual_table page_cache0.document page_cache0.rotation
      have hidx : 2 - dual_start page_cache0.document < page_cache0.document.n_pages + 2 := by
        omega
      have hnn0 := hnn 0 hn1
      apply ne_of_getElem?_ne _ _ (2 - dual_start page_cache0.document) _ _
        (dual_table_getElem? _ _ _ hidx) (dual_table_getElem? _ _ _ hidx)
      rw [dual_entry_first_row _ _ hn (by simpa using hnn0) hcase,
        dual_entry_first_row _ _ hn (by simpa using hnn0) hcase]
      exact hext
  · intro hsame
    have hsw : rotation_swap rotation = rotation_swap page_cache0.rotation := by
      have h1 := rotation_swap_iff rotation
      have h2 := rotation_swap_iff page_cache0.rotation
      cases hA : rotation_swap rotation <;> cases hB : rotation_swap page_cache0.rotation <;>
        simp_all
    exact ⟨height_table_congr _ _ _ hsw, dual_table_congr _ _ _ hsw⟩

/-- Witness of C11: the four-page document, tables built for rotation 0, queried
for page 1 at rotation 90: both tables change. -/
theorem C11_rotation_change_tables_witness :
    ∃ pc, build_height_to_page (fresh_cache mixed_doc4 0) = some pc ∧
      1 ≤ pc.document.n_pages ∧
      (∀ j : Nat, j < pc.document.n_pages →
        (pc.document.page_size (j : Int)).1 ≠ (pc.document.page_size (j : Int)).2) ∧
      pc.rotation ≠ 90 ∧
      ∃ pc1 out, ev_page_cache_get_height_to_page pc 1 90 1 = some (pc1, out) ∧
        pc1.height_to_page ≠ pc.height_to_page ∧
        pc1.dual_height_to_page ≠ pc.dual_height_to_page := by
  have hb := build_height_to_page_eq (fresh_cache mixed_doc4 0)
  refine ⟨_, hb, by decide, ?_, by decide, ?_⟩
  · intro j _
    show (mixed_doc4.page_size (j : Int)).1 ≠ (mixed_doc4.page_size (j : Int)).2
    simp only [mixed_doc4]
    split_ifs <;> norm_num
  · have hsq : ∀ j : Nat, j < mixed_doc4.n_pages →
        (mixed_doc4.page_size (j : Int)).1 ≠ (mixed_doc4.page_size (j : Int)).2 := by
      intro j _
      simp only [mixed_doc4]
      split_ifs <;> norm_num
    have hnn : ∀ j : Nat, j < mixed_doc4.n_pages →
        0 ≤ (mixed_doc4.page_size (j : Int)).1 ∧ 0 ≤ (mixed_doc4.page_size (j : Int)).2 := by
      intro j _
      simp only [mixed_doc4]
      split_ifs <;> norm_num
    obtain ⟨pc1, out, hget, hdiff, _⟩ :=
      C11_rotation_change_tables (fresh_cache mixed_doc4 0) _ 1 90 1 hb (by decide) hsq
        (by decide) (by decide) (by decide)
    have h2 := hdiff (by decide)
    exact ⟨pc1, out, hget, h2.1, h2.2 hnn (Or.inl (by decide))⟩

/-- Counterexample to C11 as stated.  On the four-page document (all pages
non-square) with tables built for rotation 0, the query at rotation 180 leaves
both tables as they were; on the two-page document with pages `(1, 2)` and
`(2, 1)`, the query at rotation 90 leaves the dual table as it was; and so does
the query at rotation 90 on the one-page document of size `(-1, -2)`. -/
theorem C11_counterexample :
    (∃ pc, build_height_to_page (fresh_cache mixed_doc4 0) = some pc ∧
      1 ≤ pc.document.n_pages ∧
      (∀ j : Nat, j < pc.document.n_pages →
        (pc.document.page_size (j : Int)).1 ≠ (pc.document.page_size (j : Int)).2) ∧
      pc.rotation ≠ 180 ∧
      ∃ pc1 out, ev_page_cache_get_height_to_page pc 1 180 1 = some (pc1, out) ∧
        pc1.height_to_page = pc.height_to_page ∧
        pc1.dual_height_to_page = pc.dual_height_to_page) ∧
    (∃ pc, build_height_to_page (fresh_cache crossed_doc2 0) = some pc ∧
      1 ≤ pc.document.n_pages ∧
      (∀ j : Nat, j < pc.document.n_pages →
        (pc.document.page_size (j : Int)).1 ≠ (pc.document.page_size (j : Int)).2) ∧
      pc.rotation ≠ 90 ∧
      ∃ pc1 out, ev_page_cache_get_height_to_page pc 1 90 1 = some (pc1, out) ∧
        pc1.dual_height_to_page = pc.dual_height_to_page) ∧
    (∃ pc, build_height_to_page (fresh_cache negative_doc1 0) = some pc ∧
      1 ≤ pc.document.n_pages ∧
      (∀ j : Nat, j < pc.document.n_pages →
        (pc.document.page_size (j : Int)).1 ≠ (pc.document.page_size (j : Int)).2) ∧
      pc.rotation ≠ 90 ∧
      ∃ pc1 out, ev_page_cache_get_height_to_page pc 1 90 1 = some (pc1, out) ∧
        pc1.dual_height_to_page = pc.dual_height_to_page) := by
  refine ⟨?_, ?_, ?_⟩
  · refine ⟨_, build_height_to_page_eq (fresh_cache mixed_doc4 0), by decide, ?_, by decide, ?_⟩
    · intro j _
      show (mixed_doc4.page_size (j : Int)).1 ≠ (mixed_doc4.page_size (j : Int)).2
      simp only [mixed_doc4]
      split_ifs <;> norm_num
    · obtain ⟨a, b, _, _, hget⟩ := get_height_to_page_rebuild
        { fresh_cache mixed_doc4 0 with
          height_to_page := height_table mixed_doc4 0,
          dual_height_to_page := dual_table mixed_doc4 0 } 1 180 1
        (by decide) (by decide) (by decide)
      exact ⟨_, _, hget, height_table_congr _ _ _ (by decide),
        dual_table_congr _ _ _ (by decide)⟩
  · refine ⟨_, build_height_to_page_eq (fresh_cache crossed_doc2 0), by decide, ?_,
      by decide, ?_⟩
    · intro j _
      show (crossed_doc2.page_size (j : Int)).1 ≠ (crossed_doc2.page_size (j : Int)).2
      simp only [crossed_doc2]
      split_ifs <;> norm_num
    · obtain ⟨a, b, _, _, hget⟩ := get_height_to_page_rebuild
        { fresh_cache crossed_doc2 0 with
          height_to_page := height_table crossed_doc2 0,
          dual_height_to_page := dual_table crossed_doc2 0 } 1 90 1
        (by decide) (by decide) (by decide)
      refine ⟨_, _, hget, ?_⟩
      show dual_table crossed_doc2 90 = dual_table crossed_doc2 0
      simp [dual_table, dual_entry, dual_row_value, dual_row_offset, dual_start, dual_seed,
        extent_or_zero, page_extent, rotation_swap, crossed_doc2, List.range_succ]
  · refine ⟨_, build_height_to_page_eq (fresh_cache negative_doc1 0), by decide, ?_,
      by decide, ?_⟩
    · intro j _
      show (negative_doc1.page_size (j : Int)).1 ≠ (negative_doc1.page_size (j : Int)).2
      simp only [negative_doc1]
      norm_num
    · obtain ⟨a, b, _, _, hget⟩ := get_height_to_page_rebuild
        { fresh_cache negative_doc1 0 with
          height_to_page := height_table negative_doc1 0,
          dual_height_to_page := dual_table negative_doc1 0 } 1 90 1
        (by decide) (by decide) (by decide)
      refine ⟨_, _, hget, ?_⟩
      show dual_table negative_doc1 90 = dual_table negative_doc1 0
      simp [dual_table, dual_entry, dual_row_value, dual_row_offset, dual_start, dual_seed,
        extent_or_zero, page_extent, rotation_swap, negative_doc1, List.range_succ]

/-! ## Claims on the thumbnail pass -/

theorem set_current_page_fst (pc : EvPageCache) (q : Int) :
    (ev_page_cache_set_current_page pc q).1 = { pc with current_page := q } := by
  by_cases h : q = pc.current_page
  · simp [ev_page_cache_set_current_page, h]
  · simp [ev_page_cache_set_current_page, h]

/-- The cache the constructor returns on a document with thumbnails. -/
theorem ev_page_cache_new_thumbs_state (doc : EvDocument) (dims : Int → ℚ → Int × Int)
    (hth : doc.thumbnails = some dims) :
    ∃ sigs, ev_page_cache_new doc =
      some ({ thumbs_after doc dims (built_cache doc) doc.n_pages with
              current_page := if doc.n_pages > 0 then 0 else -1 }, sigs) := by
  rw [ev_page_cache_new_thumbs doc dims hth]
  by_cases hn : doc.n_pages > 0
  · refine ⟨(ev_page_cache_set_current_page
      (thumbs_after doc dims (built_cache doc) doc.n_pages) 0).2, ?_⟩
    rw [if_pos hn, if_pos hn, ← set_current_page_fst]
  · refine ⟨[], ?_⟩
    rw [if_neg hn, if_neg hn]
    rfl

theorem thumbs_table_full (doc : EvDocument) (dims : Int → ℚ → Int × Int) :
    thumbs_table doc dims doc.n_pages =
      (List.range doc.n_pages).map (fun j =>
        ({ width := (reported_thumbnail doc dims j).1,
           height := (reported_thumbnail doc dims j).2 } : EvPageThumbsInfo)) := by
  unfold thumbs_table
  apply List.map_congr_left
  intro j hj
  have : j < doc.n_pages := List.mem_range.mp hj
  simp [this]

/-- The body of the pass never sets the uniform flag. -/
theorem thumbs_body_keeps_false (doc : EvDocument) (dims : Int → ℚ → Int × Int) (i : Nat)
    (pc_a pc_b : EvPageCache) (hbody : thumbs_body doc dims i pc_a = some pc_b)
    (hfalse : pc_a.thumbs_uniform = false) : pc_b.thumbs_uniform = false := by
  simp only [thumbs_body, thumbs_update_max_eq, thumbs_record, hfalse, Bool.false_and,
    Bool.false_eq_true, if_false] at hbody
  by_cases hi0 : i = 0
  · simp only [hi0, if_true, hfalse, Bool.not_false] at hbody
    cases hc : pc_a.thumbs_size_cache with
    | none => simp [hc] at hbody
    | some cache =>
      simp only [hc] at hbody
      split at hbody
      · cases hbody
      · rw [← Option.some.inj hbody]
  · simp only [hi0, if_false, hfalse, Bool.not_false, if_true] at hbody
    cases hc : pc_a.thumbs_size_cache with
    | none => simp [hc] at hbody
    | some cache =>
      simp only [hc] at hbody
      split at hbody
      · cases hbody
      · rw [← Option.some.inj hbody]

/-- C12: for every document with thumbnails and at least one page, construction
returns a cache whose `thumbs_uniform` is true exactly when every page reports
the thumbnail size of page 0; when it is true the per-page table is
unallocated and the uniform size is page 0's, and when it is false the table
holds every page's reported size.  The body of the pass never turns a false
flag into a true one. -/
theorem C12_thumbs_uniform_detection (doc : EvDocument) (dims : Int → ℚ → Int × Int)
    (hth : doc.thumbnails = some dims) (hn : 1 ≤ doc.n_pages) :
    (∃ pc sigs, ev_page_cache_new doc = some (pc, sigs) ∧
      (pc.thumbs_uniform = true ↔
        ∀ j : Nat, j < doc.n_pages →
          reported_thumbnail doc dims j = reported_thumbnail doc dims 0) ∧
      (pc.thumbs_uniform = true →
        pc.thumbs_size_cache = none ∧
        (pc.thumbs_uniform_width, pc.thumbs_uniform_height) = reported_thumbnail doc dims 0) ∧
      (pc.thumbs_uniform = false →
        pc.thumbs_size_cache = some ((List.range doc.n_pages).map (fun j =>
          ({ width := (reported_thumbnail doc dims j).1,
             height := (reported_thumbnail doc dims j).2 } : EvPageThumbsInfo))))) ∧
    (∀ (i : Nat) (pc_a pc_b : EvPageCache), thumbs_body doc dims i pc_a = some pc_b →
      pc_a.thumbs_uniform = false → pc_b.thumbs_uniform = false) := by
  obtain ⟨sigs, hnew⟩ := ev_page_cache_new_thumbs_state doc dims hth
  have hn0 : doc.n_pages ≠ 0 := by omega
  refine ⟨⟨_, sigs, hnew, ?_, ?_, ?_⟩, thumbs_body_keeps_false doc dims⟩
  · exact thumbs_all_equal_spec doc dims doc.n_pages
  · intro hu
    have hu1 : thumbs_all_equal doc dims doc.n_pages = true := hu
    simp [thumbs_after, hu1, hn0]
  · intro hu
    have hu1 : thumbs_all_equal doc dims doc.n_pages = false := hu
    simp [thumbs_after, hu1, thumbs_table_full]

/-- Witness of C12: the five-page document whose pages report the sizes
`A, A, A, B, B` with `A = (100, 141)` and `B = (100, 77)` ends with
`thumbs_uniform = false` and the table `[A, A, A, B, B]`. -/
theorem C12_thumbs_uniform_detection_witness :
    thumb_doc5.thumbnails = some (fun i _ => if i < 3 then (100, 141) else (100, 77)) ∧
    1 ≤ thumb_doc5.n_pages ∧
    ∃ pc sigs, ev_page_cache_new thumb_doc5 = some (pc, sigs) ∧
      pc.thumbs_uniform = false ∧
      pc.thumbs_size_cache = some
        [{ width := 100, height := 141 }, { width := 100, height := 141 },
         { width := 100, height := 141 }, { width := 100, height := 77 },
         { width := 100, height := 77 }] := by
  obtain ⟨⟨pc, sigs, hnew, hiff, _, htable⟩, _⟩ := C12_thumbs_uniform_detection thumb_doc5
    (fun i _ => if i < 3 then (100, 141) else (100, 77)) rfl (by decide)
  have hu : pc.thumbs_uniform = false := by
    cases h : pc.thumbs_uniform with
    | false => rfl
    | true =>
      have h3 := hiff.mp h 3 (by decide)
      simp [reported_thumbnail] at h3
  refine ⟨rfl, by decide, pc, sigs, hnew, hu, ?_⟩
  rw [htable hu]
  simp [reported_thumbnail, thumb_doc5, List.range_succ]

theorem thumbs_running_max_ge (doc : EvDocument) (dims : Int → ℚ → Int × Int) :
    ∀ (i p : Nat), p < i →
      (reported_thumbnail doc dims p).1 ≤ (thumbs_running_max doc dims i).1 ∧
      (reported_thumbnail doc dims p).2 ≤ (thumbs_running_max doc dims i).2 := by
  intro i
  induction i with
  | zero => intro p hp; omega
  | succ i ih =>
    intro p hp
    simp only [thumbs_running_max]
    by_cases hpi : p = i
    · subst hpi
      exact ⟨le_max_right _ _, le_max_right _ _⟩
    · have h := ih p (by omega)
      exact ⟨le_trans h.1 (le_max_left _ _), le_trans h.2 (le_max_left _ _)⟩

theorem thumbs_running_max_attained (doc : EvDocument) (dims : Int → ℚ → Int × Int)
    (hnn : ∀ j : Nat, j < doc.n_pages →
      0 ≤ (reported_thumbnail doc dims j).1 ∧ 0 ≤ (reported_thumbnail doc dims j).2) :
    ∀ (i : Nat), 0 < i → i ≤ doc.n_pages →
      (∃ p, p < i ∧ (reported_thumbnail doc dims p).1 = (thumbs_running_max doc dims i).1) ∧
      (∃ p, p < i ∧ (reported_thumbnail doc dims p).2 = (thumbs_running_max doc dims i).2) := by
  intro i
  induction i with
  | zero => intro h; omega
  | succ i ih =>
    intro _ hin
    simp only [thumbs_running_max]
    by_cases hi0 : i = 0
    · subst hi0
      have h0 := hnn 0 (by omega)
      simp only [thumbs_running_max]
      exact ⟨⟨0, by omega, (max_eq_right h0.1).symm⟩, ⟨0, by omega, (max_eq_right h0.2).symm⟩⟩
    · obtain ⟨⟨p1, hp1, e1⟩, ⟨p2, hp2, e2⟩⟩ := ih (by omega) (by omega)
      constructor
      · rcases le_total (thumbs_running_max doc dims i).1 (reported_thumbnail doc dims i).1
          with h | h
        · exact ⟨i, by omega, (max_eq_right h).symm⟩
        · exact ⟨p1, by omega, by rw [max_eq_left h, e1]⟩
      · rcases le_total (thumbs_running_max doc dims i).2 (reported_thumbnail doc dims i).2
          with h | h
        · exact ⟨i, by omega, (max_eq_right h).symm⟩
        · exact ⟨p2, by omega, by rw [max_eq_left h, e2]⟩

/-- C13: for every document with thumbnails of non-negative dimensions,
construction returns a cache whose `thumbs_max_width` and `thumbs_max_height`
are the maxima over all pages of the reported width and of the reported
height (an upper bound of every page that some page attains; `0` without
pages); hence the thumbnail size stored for every page is componentwise at
most `(thumbs_max_width, thumbs_max_height)`. -/
theorem C13_thumbs_max_is_maximum (doc : EvDocument) (dims : Int → ℚ → Int × Int)
    (hth : doc.thumbnails = some dims)
    (hnn : ∀ j : Nat, j < doc.n_pages →
      0 ≤ (reported_thumbnail doc dims j).1 ∧ 0 ≤ (reported_thumbnail doc dims j).2) :
    ∃ pc sigs, ev_page_cache_new doc = some (pc, sigs) ∧
      (∀ p : Nat, p < doc.n_pages →
        (reported_thumbnail doc dims p).1 ≤ pc.thumbs_max_width ∧
        (reported_thumbnail doc dims p).2 ≤ pc.thumbs_max_height) ∧
      (0 < doc.n_pages →
        (∃ p : Nat, p < doc.n_pages ∧ (reported_thumbnail doc dims p).1 = pc.thumbs_max_width) ∧
        (∃ p : Nat, p < doc.n_pages ∧
          (reported_thumbnail doc dims p).2 = pc.thumbs_max_height)) ∧
      (doc.n_pages = 0 → pc.thumbs_max_width = 0 ∧ pc.thumbs_max_height = 0) ∧
      (∀ p : Nat, p < doc.n_pages →
        ∃ w h, ev_page_cache_get_thumbnail_size pc (p : Int) 0 = some (w, h) ∧
          w ≤ pc.thumbs_max_width ∧ h ≤ pc.thumbs_max_height) := by
  obtain ⟨sigs, hnew⟩ := ev_page_cache_new_thumbs_state doc dims hth
  refine ⟨_, sigs, hnew, ?_, ?_, ?_, ?_⟩
  · intro p hp
    exact thumbs_running_max_ge doc dims doc.n_pages p hp
  · intro hn
    exact thumbs_running_max_attained doc dims hnn doc.n_pages hn (le_refl _)
  · intro hn
    show (thumbs_running_max doc dims doc.n_pages).1 = 0 ∧
      (thumbs_running_max doc dims doc.n_pages).2 = 0
    rw [hn]
    exact ⟨rfl, rfl⟩
  · intro p hp
    refine ⟨(reported_thumbnail doc dims p).1, (reported_thumbnail doc dims p).2, ?_,
      (thumbs_running_max_ge doc dims doc.n_pages p hp).1,
      (thumbs_running_max_ge doc dims doc.n_pages p hp).2⟩
    have h := get_thumbnail_size_after doc dims (built_cache doc) p hp 0
    rw [if_pos (Or.inl rfl)] at h
    rw [← h]
    rfl

/-- Witness of C13: on the five-page document with thumbnail sizes
`(100, 141)` and `(100, 77)` the maxima are `100` and `141`. -/
theorem C13_thumbs_max_is_maximum_witness :
    thumb_doc5.thumbnails = some (fun i _ => if i < 3 then (100, 141) else (100, 77)) ∧
    (∀ j : Nat, j < thumb_doc5.n_pages →
      0 ≤ (reported_thumbnail thumb_doc5
        (fun i _ => if i < 3 then (100, 141) else (100, 77)) j).1 ∧
      0 ≤ (reported_thumbnail thumb_doc5
        (fun i _ => if i < 3 then (100, 141) else (100, 77)) j).2) ∧
    ∃ pc sigs, ev_page_cache_new thumb_doc5 = some (pc, sigs) ∧
      pc.thumbs_max_width = 100 ∧ pc.thumbs_max_height = 141 := by
  have hnn : ∀ j : Nat, j < thumb_doc5.n_pages →
      0 ≤ (reported_thumbnail thumb_doc5
        (fun i _ => if i < 3 then (100, 141) else (100, 77)) j).1 ∧
      0 ≤ (reported_thumbnail thumb_doc5
        (fun i _ => if i < 3 then (100, 141) else (100, 77)) j).2 := by
    intro j _
    simp only [reported_thumbnail]
    split_ifs <;> decide
  obtain ⟨pc, sigs, hnew, hub, hatt, _, _⟩ := C13_thumbs_max_is_maximum thumb_doc5
    (fun i _ => if i < 3 then (100, 141) else (100, 77)) rfl hnn
  obtain ⟨⟨p1, hp1, e1⟩, ⟨p2, hp2, e2⟩⟩ := hatt (by decide)
  have hb0 := hub 0 (by decide)
  refine ⟨rfl, hnn, pc, sigs, hnew, ?_, ?_⟩
  · rw [← e1]
    simp only [reported_thumbnail]
    split_ifs <;> rfl
  · apply le_antisymm
    · rw [← e2]
      simp only [reported_thumbnail]
      split_ifs <;> decide
    · simpa [reported_thumbnail] using hb0.2

/-! ## Further claims on the builder -/

/-- Entry `k` of the dual table of a document with the uniform flag. -/
theorem dual_entry_uniform (doc : EvDocument) (rotation : Int)
    (hu : doc.is_page_size_uniform = true) (k : Nat) :
    dual_entry doc (rotation_swap rotation) doc.is_page_size_uniform (uniform_size doc)
        (dual_start doc) (dual_seed doc (rotation_swap rotation)) k =
      (((k + dual_start doc) / 2 : Nat) : ℚ) * extent doc rotation 0 := by
  have hue := uniform_height_eq_extent doc rotation hu
  rcases dual_start_cases doc with ⟨hd, _⟩ | ⟨hd, _⟩
  · have h1 : (0 + 2 * ((k - 0) / 2) + 0) / 2 = (k + 0) / 2 := by omega
    simp only [dual_entry, hd, Nat.not_lt_zero, if_false, dual_row_value, hu, if_true, hue, h1]
  · by_cases hk : k < 1
    · have hk0 : k = 0 := by omega
      subst hk0
      simp [dual_entry, hd]
    · have h1 : (1 + 2 * ((k - 1) / 2) + 1) / 2 = (k + 1) / 2 := by omega
      simp only [dual_entry, hd, hk, if_false, dual_row_value, hu, if_true, hue, h1]

/-- C14: for every document that reports uniform page size, with page extent
`e` (page 0's width at rotation 90 or 270, else its height) and `d = 1` if
`n_pages > 2`, else `d = 0`: the builder returns and every index `k` of
`[0, n_pages + 1]` of the dual table holds `((k + d) / 2) * e`; in particular a
pair start `i` congruent to `d` modulo 2 and its second slot `i + 1` hold
`((i + d) / 2) * e`. -/
theorem C14_uniform_dual_closed_form (page_cache : EvPageCache)
    (huni : page_cache.document.is_page_size_uniform = true) :
    ∃ pc1, build_height_to_page page_cache = some pc1 ∧
      (∀ k : Nat, k ≤ page_cache.document.n_pages + 1 →
        pc1.dual_height_to_page[k]? =
          some ((((k + (if page_cache.document.n_pages > 2 then 1 else 0)) / 2 : Nat) : ℚ) *
            extent page_cache.document page_cache.rotation 0)) ∧
      (∀ i : Nat, i % 2 = (if page_cache.document.n_pages > 2 then 1 else 0) % 2 →
        i ≤ page_cache.document.n_pages + 1 →
        pc1.dual_height_to_page[i]? =
          some ((((i + (if page_cache.document.n_pages > 2 then 1 else 0)) / 2 : Nat) : ℚ) *
            extent page_cache.document page_cache.rotation 0) ∧
        (i + 1 ≤ page_cache.document.n_pages + 1 →
          pc1.dual_height_to_page[i + 1]? =
            some ((((i + (if page_cache.document.n_pages > 2 then 1 else 0)) / 2 : Nat) : ℚ) *
              extent page_cache.document page_cache.rotation 0))) := by
  have hds : dual_start page_cache.document =
      (if page_cache.document.n_pages > 2 then 1 else 0) := by
    unfold dual_start
    by_cases h : page_cache.document.n_pages > 2 <;> simp [h]
  have hall : ∀ k : Nat, k ≤ page_cache.document.n_pages + 1 →
      (dual_table page_cache.document page_cache.rotation)[k]? =
        some ((((k + (if page_cache.document.n_pages > 2 then 1 else 0)) / 2 : Nat) : ℚ) *
          extent page_cache.document page_cache.rotation 0) := by
    intro k hk
    rw [dual_table_getElem? _ _ k (by omega), dual_entry_uniform _ _ huni, hds]
  refine ⟨_, build_height_to_page_eq page_cache, hall, ?_⟩
  intro i hpar hi
  refine ⟨hall i hi, ?_⟩
  intro hi1
  have h := hall (i + 1) hi1
  have hdiv : (i + 1 + (if page_cache.document.n_pages > 2 then 1 else 0)) / 2 =
      (i + (if page_cache.document.n_pages > 2 then 1 else 0)) / 2 := by
    by_cases hn : page_cache.document.n_pages > 2
    · simp only [hn, if_true] at hpar ⊢
      omega
    · simp only [hn, if_false] at hpar ⊢
      omega
  rw [hdiv] at h
  exact h

/-- Witness of C14: the three-page uniform document of page size `(100, 200)`
at rotation 0 has the dual table `[0, 200, 200, 400, 400]`. -/
theorem C14_uniform_dual_closed_form_witness :
    (fresh_cache uniform_doc3 0).document.is_page_size_uniform = true ∧
    ∃ pc1, build_height_to_page (fresh_cache uniform_doc3 0) = some pc1 ∧
      pc1.dual_height_to_page[0]? = some 0 ∧ pc1.dual_height_to_page[1]? = some 200 ∧
      pc1.dual_height_to_page[2]? = some 200 ∧ pc1.dual_height_to_page[3]? = some 400 ∧
      pc1.dual_height_to_page[4]? = some 400 := by
  obtain ⟨pc1, hb, hall, _⟩ := C14_uniform_dual_closed_form (fresh_cache uniform_doc3 0) rfl
  have e0 : extent (fresh_cache uniform_doc3 0).document (fresh_cache uniform_doc3 0).rotation 0
      = 200 := by
    simp [extent, fresh_cache, ev_page_cache_init, g_object_new, uniform_doc3]
  have hn : (fresh_cache uniform_doc3 0).document.n_pages = 3 := rfl
  refine ⟨rfl, pc1, hb, ?_, ?_, ?_, ?_, ?_⟩
  · rw [hall 0 (by omega), e0, hn]; norm_num
  · rw [hall 1 (by omega), e0, hn]; norm_num
  · rw [hall 2 (by omega), e0, hn]; norm_num
  · rw [hall 3 (by omega), e0, hn]; norm_num
  · rw [hall 4 (by omega), e0, hn]; norm_num

/-- C15: `ev_page_cache_get_dual_even_left` is true exactly when
`n_pages > 2`, whatever the uniform flag, and the builder's result is the one
whose dual table the dual loop produces when started at that flag (as the
integer 0 or 1) with the running total seeded from that flag. -/
theorem C15_dual_even_left (page_cache : EvPageCache) :
    (ev_page_cache_get_dual_even_left page_cache = true ↔
      page_cache.document.n_pages > 2) ∧
    ∃ htp s1 dhtp s2,
      height_loop page_cache.document (rotation_swap page_cache.rotation)
        page_cache.document.is_page_size_uniform (uniform_size page_cache.document)
        (page_cache.document.n_pages + 2) 0 0 (g_new0 (page_cache.document.n_pages + 1)) =
          some (htp, s1) ∧
      dual_loop page_cache.document (rotation_swap page_cache.rotation)
        page_cache.document.is_page_size_uniform (uniform_size page_cache.document)
        (if ev_page_cache_get_dual_even_left page_cache then 1 else 0)
        (page_cache.document.n_pages + 3)
        (if ev_page_cache_get_dual_even_left page_cache then 1 else 0)
        (if ev_page_cache_get_dual_even_left page_cache &&
            !page_cache.document.is_page_size_uniform
          then page_extent page_cache.document (rotation_swap page_cache.rotation) 0 else 0)
        (g_new0 (page_cache.document.n_pages + 2)) = some (dhtp, s2) ∧
      build_height_to_page page_cache =
        some { page_cache with height_to_page := htp, dual_height_to_page := dhtp } := by
  constructor
  · simp [ev_page_cache_get_dual_even_left]
  · obtain ⟨htp, s1, h1, _, _⟩ :=
      height_loop_spec page_cache.document (rotation_swap page_cache.rotation)
        page_cache.document.is_page_size_uniform (uniform_size page_cache.document)
        (page_cache.document.n_pages + 2) 0 0 (g_new0 (page_cache.document.n_pages + 1))
        (by omega) (by omega) (by simp [g_new0]) (by intro _ _; simp)
        (by intro j hj; omega)
    obtain ⟨dhtp, s2, h2, _, _⟩ :=
      dual_loop_spec page_cache.document (rotation_swap page_cache.rotation)
        page_cache.document.is_page_size_uniform (uniform_size page_cache.document)
        (dual_start page_cache.document)
        (dual_seed page_cache.document (rotation_swap page_cache.rotation))
        (page_cache.document.n_pages + 3) 0 (dual_start page_cache.document)
        (dual_seed page_cache.document (rotation_swap page_cache.rotation))
        (g_new0 (page_cache.document.n_pages + 2))
        (by omega) (by omega) (by omega) (by simp [g_new0])
        (by intro _ _; simp [dual_row_offset])
        (by
          intro j hj hjn
          simp [g_new0, hjn, dual_entry, hj])
    refine ⟨htp, s1, dhtp, s2, h1, h2, ?_⟩
    unfold build_height_to_page
    simp only [rotation_swap, uniform_size, dual_start, dual_seed] at h1 h2
    simp only [h1, h2]

/-- Witness of C15: the flag is true on the four-page document and false on
the two-page document. -/
theorem C15_dual_even_left_witness :
    ev_page_cache_get_dual_even_left (fresh_cache mixed_doc4 0) = true ∧
    ev_page_cache_get_dual_even_left (fresh_cache crossed_doc2 0) = false := by
  constructor
  · exact (C15_dual_even_left (fresh_cache mixed_doc4 0)).1.mpr (by decide)
  · cases h : ev_page_cache_get_dual_even_left (fresh_cache crossed_doc2 0) with
    | false => rfl
    | true =>
      have h2 := (C15_dual_even_left (fresh_cache crossed_doc2 0)).1.mp h
      exact absurd h2 (by decide)

/-- C16: for every document and rotation the builder returns (no store falls
outside the allocations) with a single table of `n_pages + 1` entries and a
dual table of `n_pages + 2` entries, and on the resulting cache every query
`ev_page_cache_get_height_to_page` for a page `0 ≤ p ≤ n_pages` returns both
values (no load falls outside the tables), whatever rotation it asks for. -/
theorem C16_tables_in_bounds (page_cache : EvPageCache) :
    ∃ pc1, build_height_to_page page_cache = some pc1 ∧
      pc1.height_to_page.length = page_cache.document.n_pages + 1 ∧
      pc1.dual_height_to_page.length = page_cache.document.n_pages + 2 ∧
      ∀ (p rotation : Int) (scale : ℚ), 0 ≤ p → p ≤ (page_cache.document.n_pages : Int) →
        ∃ pc2 h dh, ev_page_cache_get_height_to_page pc1 p rotation scale =
          some (pc2, some (h, dh)) := by
  refine ⟨_, build_height_to_page_eq page_cache, height_table_length _ _,
    dual_table_length _ _, ?_⟩
  intro p rotation scale hp0 hpn
  by_cases hr : page_cache.rotation = rotation
  · subst hr
    obtain ⟨a, b, _, _, hget⟩ := get_height_to_page_cached
      { page_cache with
        height_to_page := height_table page_cache.document page_cache.rotation,
        dual_height_to_page := dual_table page_cache.document page_cache.rotation } p scale
      (height_table_length _ _) (dual_table_length _ _) hp0 hpn
    exact ⟨_, _, _, hget⟩
  · obtain ⟨a, b, _, _, hget⟩ := get_height_to_page_rebuild
      { page_cache with
        height_to_page := height_table page_cache.document page_cache.rotation,
        dual_height_to_page := dual_table page_cache.document page_cache.rotation }
      p rotation scale hr hp0 hpn
    exact ⟨_, _, _, hget⟩

/-- Witness of C16: the four-page document has tables of 5 and 6 entries, and
the query for its last index 4 returns at rotation 0 and at rotation 90. -/
theorem C16_tables_in_bounds_witness :
    ∃ pc1, build_height_to_page (fresh_cache mixed_doc4 0) = some pc1 ∧
      pc1.height_to_page.length = 5 ∧ pc1.dual_height_to_page.length = 6 ∧
      (∃ pc2 h dh, ev_page_cache_get_height_to_page pc1 4 0 1 = some (pc2, some (h, dh))) ∧
      (∃ pc2 h dh, ev_page_cache_get_height_to_page pc1 4 90 1 = some (pc2, some (h, dh))) := by
  obtain ⟨pc1, hb, hl1, hl2, hq⟩ := C16_tables_in_bounds (fresh_cache mixed_doc4 0)
  exact ⟨pc1, hb, hl1, hl2, hq 4 0 1 (by decide) (by decide), hq 4 90 1 (by decide) (by decide)⟩

/-- C18 (amended): for a document without pages and every rotation the builder
returns the single table `[0]` and the dual table `[0, 0]`: one entry in the
single table, two in the dual table, all of them 0. -/
theorem C18_empty_document_tables (page_cache : EvPageCache)
    (hn : page_cache.document.n_pages = 0) :
    ∃ pc1, build_height_to_page page_cache = some pc1 ∧
      pc1.height_to_page = [0] ∧ pc1.dual_height_to_page = [0, 0] := by
  refine ⟨_, build_height_to_page_eq page_cache, ?_, ?_⟩
  · show height_table _ _ = [0]
    cases hu : page_cache.document.is_page_size_uniform <;>
      simp [height_table, hn, height_entry, hu, List.range_succ]
  · show dual_table _ _ = [0, 0]
    cases hu : page_cache.document.is_page_size_uniform <;>
      simp [dual_table, hn, dual_entry, dual_start, dual_row_value, dual_row_offset,
        dual_seed, hu, List.range_succ]

/-- Witness of C18: the document without pages at rotation 90. -/
theorem C18_empty_document_tables_witness :
    (fresh_cache empty_doc 90).document.n_pages = 0 ∧
    ∃ pc1, build_height_to_page (fresh_cache empty_doc 90) = some pc1 ∧
      pc1.height_to_page = [0] ∧ pc1.dual_height_to_page = [0, 0] :=
  ⟨rfl, C18_empty_document_tables (fresh_cache empty_doc 90) rfl⟩

/-- Counterexample to C18 as stated: on the document without pages the dual
table the builder returns has two entries, not one. -/
theorem C18_counterexample :
    (fresh_cache empty_doc 0).document.n_pages = 0 ∧
    ∃ pc1, build_height_to_page (fresh_cache empty_doc 0) = some pc1 ∧
      pc1.dual_height_to_page.length = 2 ∧ pc1.dual_height_to_page.length ≠ 1 := by
  refine ⟨rfl, _, build_height_to_page_eq (fresh_cache empty_doc 0), ?_, ?_⟩
  · exact dual_table_length _ _
  · show (dual_table _ _).length ≠ 1
    rw [dual_table_length]
    decide

/-! ## Claims on reachable states -/

theorem new_state_aux (doc : EvDocument) (x : EvPageCache)
    (hd : x.document = doc) (hr : x.rotation = 0) (hc : x.current_page = -1)
    (hh : x.height_to_page = height_table doc 0)
    (hdl : x.dual_height_to_page = dual_table doc 0) :
    ∃ pc sigs,
      (if doc.n_pages > 0 then ev_page_cache_set_current_page x 0 else (x, [])) = (pc, sigs) ∧
      pc.document = doc ∧ pc.rotation = 0 ∧
      pc.current_page = (if doc.n_pages > 0 then 0 else -1) ∧
      pc.height_to_page = height_table doc 0 ∧
      pc.dual_height_to_page = dual_table doc 0 ∧
      sigs = (if doc.n_pages > 0 then [Signal.page_changed 0] else []) := by
  by_cases hn : doc.n_pages > 0
  · refine ⟨(ev_page_cache_set_current_page x 0).1, (ev_page_cache_set_current_page x 0).2,
      by rw [if_pos hn], ?_, ?_, ?_, ?_, ?_, ?_⟩
    · rw [set_current_page_fst]; exact hd
    · rw [set_current_page_fst]; exact hr
    · rw [set_current_page_fst, if_pos hn]
    · rw [set_current_page_fst]; exact hh
    · rw [set_current_page_fst]; exact hdl
    · rw [if_pos hn]
      simp [ev_page_cache_set_current_page, hc]
  · refine ⟨x, [], by rw [if_neg hn], hd, hr, ?_, hh, hdl, ?_⟩
    · rw [if_neg hn]; exact hc
    · rw [if_neg hn]

/-- The cache and the signals the constructor returns. -/
theorem ev_page_cache_new_state (doc : EvDocument) :
    ∃ pc sigs, ev_page_cache_new doc = some (pc, sigs) ∧
      pc.document = doc ∧ pc.rotation = 0 ∧
      pc.current_page = (if doc.n_pages > 0 then 0 else -1) ∧
      pc.height_to_page = height_table doc 0 ∧
      pc.dual_height_to_page = dual_table doc 0 ∧
      sigs = (if doc.n_pages > 0 then [Signal.page_changed 0] else []) := by
  cases hth : doc.thumbnails with
  | none =>
    obtain ⟨pc, sigs, h, rest⟩ := new_state_aux doc (built_cache doc) rfl rfl rfl rfl rfl
    exact ⟨pc, sigs, by rw [ev_page_cache_new_plain doc hth, h], rest⟩
  | some dims =>
    obtain ⟨pc, sigs, h, rest⟩ := new_state_aux doc
      (thumbs_after doc dims (built_cache doc) doc.n_pages) rfl rfl rfl rfl rfl
    exact ⟨pc, sigs, by rw [ev_page_cache_new_thumbs doc dims hth, h], rest⟩

theorem apply_op_document (pc : EvPageCache) (op : PageOp) :
    (apply_op pc op).document = pc.document := by
  cases op with
  | set_current_page p => simp [apply_op, set_current_page_fst]
  | set_current_page_history p =>
    simp [apply_op, ev_page_cache_set_current_page_history, set_current_page_fst]
  | set_page_label l =>
    cases h : pc.document.find_page_by_label l <;>
      simp [apply_op, ev_page_cache_set_page_label, h, set_current_page_fst]

theorem apply_op_current_page (pc : EvPageCache) (op : PageOp)
    (hop : op_in_range pc.document op)
    (hcur : pc.current_page = -1 ∨
      (0 ≤ pc.current_page ∧ pc.current_page ≤ (pc.document.n_pages : Int) - 1)) :
    (apply_op pc op).current_page = -1 ∨
      (0 ≤ (apply_op pc op).current_page ∧
        (apply_op pc op).current_page ≤ (pc.document.n_pages : Int) - 1) := by
  cases op with
  | set_current_page p =>
    have h : 0 ≤ p ∧ p < (pc.document.n_pages : Int) := hop
    simp only [apply_op, set_current_page_fst]
    right
    omega
  | set_current_page_history p =>
    have h : 0 ≤ p ∧ p < (pc.document.n_pages : Int) := hop
    simp only [apply_op, ev_page_cache_set_current_page_history, set_current_page_fst]
    right
    omega
  | set_page_label l =>
    have h : ∀ q, pc.document.find_page_by_label l = some q →
        0 ≤ q ∧ q < (pc.document.n_pages : Int) := hop
    cases hl : pc.document.find_page_by_label l with
    | none =>
      simp only [apply_op, ev_page_cache_set_page_label, hl]
      exact hcur
    | some q =>
      have hq := h q hl
      simp only [apply_op, ev_page_cache_set_page_label, hl, set_current_page_fst]
      right
      omega

theorem run_ops_current_page (doc : EvDocument) (ops : List PageOp) :
    ∀ pc : EvPageCache, pc.document = doc →
      (∀ op, op ∈ ops → op_in_range doc op) →
      (pc.current_page = -1 ∨
        (0 ≤ pc.current_page ∧ pc.current_page ≤ (doc.n_pages : Int) - 1)) →
      (run_ops pc ops).current_page = -1 ∨
        (0 ≤ (run_ops pc ops).current_page ∧
          (run_ops pc ops).current_page ≤ (doc.n_pages : Int) - 1) := by
  induction ops with
  | nil => intro pc _ _ h; exact h
  | cons op rest ih =>
    intro pc hdoc hops hcur
    show (run_ops (apply_op pc op) rest).current_page = -1 ∨ _
    apply ih (apply_op pc op)
    · rw [apply_op_document, hdoc]
    · intro o ho
      exact hops o (List.mem_cons_of_mem _ ho)
    · have h := apply_op_current_page pc op
        (by rw [hdoc]; exact hops op (List.mem_cons_self _ _)) (by rw [hdoc]; exact hcur)
      rw [hdoc] at h
      exact h

/-- C17 (amended): construction returns, and in every cache state reached from
it by a sequence of `ev_page_cache_set_current_page`,
`ev_page_cache_set_current_page_history` and `ev_page_cache_set_page_label`
calls whose page arguments lie in `[0, n_pages - 1]` and whose labels resolve,
if at all, to pages in that range, `current_page` is `-1` or lies in
`[0, n_pages - 1]`. -/
theorem C17_current_page_in_range (doc : EvDocument) :
    ∃ pc0 sigs, ev_page_cache_new doc = some (pc0, sigs) ∧
      ∀ ops : List PageOp, (∀ op, op ∈ ops → op_in_range doc op) →
        (run_ops pc0 ops).current_page = -1 ∨
          (0 ≤ (run_ops pc0 ops).current_page ∧
            (run_ops pc0 ops).current_page ≤ (doc.n_pages : Int) - 1) := by
  obtain ⟨pc0, sigs, hnew, hdoc, _, hcur, _, _, _⟩ := ev_page_cache_new_state doc
  refine ⟨pc0, sigs, hnew, ?_⟩
  intro ops hops
  apply run_ops_current_page doc ops pc0 hdoc hops
  rw [hcur]
  by_cases hn : doc.n_pages > 0
  · right
    rw [if_pos hn]
    omega
  · left
    rw [if_neg hn]

/-- Witness of C17: on the ten-page document the calls
`set_current_page (4)`, `set_current_page_history (9)`, `set_page_label ("iv")`
end on page 3. -/
theorem C17_current_page_in_range_witness :
    (∀ op, op ∈ [PageOp.set_current_page 4, PageOp.set_current_page_history 9,
        PageOp.set_page_label "iv"] → op_in_range labelled_doc10 op) ∧
    ∃ pc0 sigs, ev_page_cache_new labelled_doc10 = some (pc0, sigs) ∧
      ((run_ops pc0 [PageOp.set_current_page 4, PageOp.set_current_page_history 9,
          PageOp.set_page_label "iv"]).current_page = -1 ∨
        (0 ≤ (run_ops pc0 [PageOp.set_current_page 4, PageOp.set_current_page_history 9,
          PageOp.set_page_label "iv"]).current_page ∧
         (run_ops pc0 [PageOp.set_current_page 4, PageOp.set_current_page_history 9,
          PageOp.set_page_label "iv"]).current_page ≤ (labelled_doc10.n_pages : Int) - 1)) := by
  have hops : ∀ op, op ∈ [PageOp.set_current_page 4, PageOp.set_current_page_history 9,
      PageOp.set_page_label "iv"] → op_in_range labelled_doc10 op := by
    intro op hop
    simp only [List.mem_cons, List.mem_singleton, List.not_mem_nil, or_false] at hop
    rcases hop with h | h | h
    · subst h; exact ⟨by decide, by decide⟩
    · subst h; exact ⟨by decide, by decide⟩
    · subst h
      intro q hq
      have hq3 : q = 3 := by
        simp [labelled_doc10] at hq
        exact hq.symm
      subst hq3
      exact ⟨by decide, by decide⟩
  obtain ⟨pc0, sigs, hnew, hall⟩ := C17_current_page_in_range labelled_doc10
  exact ⟨hops, pc0, sigs, hnew, hall _ hops⟩

/-- Counterexample to C17 as stated: on the ten-page document, the call
`ev_page_cache_set_current_page (10)` after construction leaves
`current_page = 10`, which is neither `-1` nor in `[0, 9]`. -/
theorem C17_counterexample :
    ∃ pc0 sigs, ev_page_cache_new labelled_doc10 = some (pc0, sigs) ∧
      (run_ops pc0 [PageOp.set_current_page 10]).current_page = 10 ∧
      ¬ ((run_ops pc0 [PageOp.set_current_page 10]).current_page = -1 ∨
        (0 ≤ (run_ops pc0 [PageOp.set_current_page 10]).current_page ∧
          (run_ops pc0 [PageOp.set_current_page 10]).current_page ≤
            (labelled_doc10.n_pages : Int) - 1)) := by
  obtain ⟨pc0, sigs, hnew, _⟩ := ev_page_cache_new_state labelled_doc10
  have h10 : (run_ops pc0 [PageOp.set_current_page 10]).current_page = 10 := by
    show (ev_page_cache_set_current_page pc0 10).1.current_page = 10
    rw [set_current_page_fst]
  refine ⟨pc0, sigs, hnew, h10, ?_⟩
  rw [h10]
  decide

/-- Coherence of the tables with the cached rotation is kept by a returning
offset query. -/
theorem get_height_to_page_coherent (doc : EvDocument) (pc pc1 : EvPageCache)
    (out : Option (Int × Int)) (p r : Int) (s : ℚ)
    (hget : ev_page_cache_get_height_to_page pc p r s = some (pc1, out))
    (hd : pc.document = doc)
    (hh : pc.height_to_page = height_table doc pc.rotation)
    (hdl : pc.dual_height_to_page = dual_table doc pc.rotation) :
    pc1.document = doc ∧ pc1.height_to_page = height_table doc pc1.rotation ∧
      pc1.dual_height_to_page = dual_table doc pc1.rotation := by
  by_cases hp : p < 0
  · simp only [ev_page_cache_get_height_to_page, hp, if_true, Option.some.injEq,
      Prod.mk.injEq] at hget
    rw [← hget.1]
    exact ⟨hd, hh, hdl⟩
  · by_cases hr : pc.rotation = r
    · simp only [ev_page_cache_get_height_to_page, hp, if_false, hr, ne_eq,
        not_true_eq_false] at hget
      split at hget
      · simp only [Option.some.injEq, Prod.mk.injEq] at hget
        rw [← hget.1]
        exact ⟨hd, hh, hdl⟩
      · cases hget
    · simp only [ev_page_cache_get_height_to_page, hp, if_false, hr, ne_eq,
        not_false_eq_true, if_true, build_height_to_page_eq] at hget
      split at hget
      · simp only [Option.some.injEq, Prod.mk.injEq] at hget
        rw [← hget.1]
        exact ⟨hd, by rw [← hd], by rw [← hd]⟩
      · cases hget

theorem run_queries_coherent (doc : EvDocument) (qs : List (Int × Int × ℚ)) :
    ∀ pc pc1 : EvPageCache, run_queries pc qs = some pc1 →
      pc.document = doc →
      pc.height_to_page = height_table doc pc.rotation →
      pc.dual_height_to_page = dual_table doc pc.rotation →
      pc1.document = doc ∧ pc1.height_to_page = height_table doc pc1.rotation ∧
        pc1.dual_height_to_page = dual_table doc pc1.rotation := by
  induction qs with
  | nil =>
    intro pc pc1 h hd hh hdl
    simp only [run_queries, Option.some.injEq] at h
    rw [← h]
    exact ⟨hd, hh, hdl⟩
  | cons q rest ih =>
    intro pc pc1 h hd hh hdl
    simp only [run_queries] at h
    cases hq : ev_page_cache_get_height_to_page pc q.1 q.2.1 q.2.2 with
    | none => simp [hq] at h
    | some res =>
      simp only [hq] at h
      obtain ⟨h1, h2, h3⟩ := get_height_to_page_coherent doc pc res.1 res.2 q.1 q.2.1 q.2.2
        hq hd hh hdl
      exact ih res.1 pc1 h h1 h2 h3

/-- The query on a coherent cache returns the truncated scaled entries of the
tables of the requested rotation. -/
theorem get_height_to_page_value (doc : EvDocument) (pc : EvPageCache) (p r : Int) (s : ℚ)
    (hd : pc.document = doc)
    (hh : pc.height_to_page = height_table doc pc.rotation)
    (hdl : pc.dual_height_to_page = dual_table doc pc.rotation)
    (hp0 : 0 ≤ p) (hpn : p ≤ (doc.n_pages : Int)) :
    ∃ pc1 a b, arrayRead (height_table doc r) p = some a ∧
      arrayRead (dual_table doc r) p = some b ∧
      ev_page_cache_get_height_to_page pc p r s =
        some (pc1, some (truncToInt (a * s), truncToInt (b * s))) := by
  subst hd
  by_cases hr : pc.rotation = r
  · subst hr
    obtain ⟨a, b, ha, hb, hget⟩ := get_height_to_page_cached pc p s
      (by rw [hh, height_table_length]) (by rw [hdl, dual_table_length]) hp0 hpn
    rw [hh] at ha
    rw [hdl] at hb
    exact ⟨_, a, b, ha, hb, hget⟩
  · obtain ⟨a, b, ha, hb, hget⟩ := get_height_to_page_rebuild pc p r s hr hp0 hpn
    exact ⟨_, a, b, ha, hb, hget⟩

/-- C19: construction returns a cache with cached rotation 0, and in every
state reached from it by a sequence of returning
`ev_page_cache_get_height_to_page` calls with arbitrary pages, rotations and
scales, the stored tables are those the builder computes from scratch for the
cached rotation; on such a state a call with rotation `r`, page
`0 ≤ p ≤ n_pages` and scale `s` returns `trunc (T_r[p] * s)` and
`trunc (D_r[p] * s)` for the tables `T_r`, `D_r` built from scratch for `r`. -/
theorem C19_cache_coherence (doc : EvDocument) :
    ∃ pc0 sigs, ev_page_cache_new doc = some (pc0, sigs) ∧ pc0.rotation = 0 ∧
      ∀ (qs : List (Int × Int × ℚ)) (pc : EvPageCache), run_queries pc0 qs = some pc →
        (∃ fresh, build_height_to_page (fresh_cache doc pc.rotation) = some fresh ∧
          pc.height_to_page = fresh.height_to_page ∧
          pc.dual_height_to_page = fresh.dual_height_to_page) ∧
        (∀ (p r : Int) (s : ℚ), 0 ≤ p → p ≤ (doc.n_pages : Int) →
          ∃ fresh a b pc1, build_height_to_page (fresh_cache doc r) = some fresh ∧
            arrayRead fresh.height_to_page p = some a ∧
            arrayRead fresh.dual_height_to_page p = some b ∧
            ev_page_cache_get_height_to_page pc p r s =
              some (pc1, some (truncToInt (a * s), truncToInt (b * s)))) := by
  obtain ⟨pc0, sigs, hnew, hdoc, hrot, _, hh, hdl, _⟩ := ev_page_cache_new_state doc
  refine ⟨pc0, sigs, hnew, hrot, ?_⟩
  intro qs pc hrun
  obtain ⟨h1, h2, h3⟩ := run_queries_coherent doc qs pc0 pc hrun hdoc
    (by rw [hh, hrot]) (by rw [hdl, hrot])
  constructor
  · exact ⟨_, build_height_to_page_eq (fresh_cache doc pc.rotation), h2, h3⟩
  · intro p r s hp0 hpn
    obtain ⟨pc1, a, b, ha, hb, hget⟩ := get_height_to_page_value doc pc p r s h1 h2 h3 hp0 hpn
    exact ⟨_, a, b, pc1, build_height_to_page_eq (fresh_cache doc r), ha, hb, hget⟩

/-- Witness of C19: on the four-page document, after the queries
`(1, 90, 1)`, `(0, 180, 2)`, `(4, 90, 1)`, the query for page 2 at rotation 0
and scale `3/2` returns `(37, 30)`, the truncations of `25 * 3/2` and
`20 * 3/2`. -/
theorem C19_cache_coherence_witness :
    ∃ pc0 sigs, ev_page_cache_new mixed_doc4 = some (pc0, sigs) ∧
      ∃ pc, run_queries pc0 [(1, 90, 1), (0, 180, 2), (4, 90, 1)] = some pc ∧
        ∃ pc1, ev_page_cache_get_height_to_page pc 2 0 (3 / 2) = some (pc1, some (37, 30)) := by
  obtain ⟨pc0, sigs, hnew, hrot, hall⟩ := C19_cache_coherence mixed_doc4
  obtain ⟨_, _, _, s1, _, _, _, hq1⟩ := (hall [] pc0 rfl).2 1 90 1 (by decide) (by decide)
  have hr1 : run_queries pc0 [(1, 90, 1)] = some s1 := by
    simp only [run_queries, hq1]
  obtain ⟨_, _, _, s2, _, _, _, hq2⟩ := (hall _ s1 hr1).2 0 180 2 (by decide) (by decide)
  have hr2 : run_queries pc0 [(1, 90, 1), (0, 180, 2)] = some s2 := by
    simp only [run_queries, hq1, hq2]
  obtain ⟨_, _, _, s3, _, _, _, hq3⟩ := (hall _ s2 hr2).2 4 90 1 (by decide) (by decide)
  have hr3 : run_queries pc0 [(1, 90, 1), (0, 180, 2), (4, 90, 1)] = some s3 := by
    simp only [run_queries, hq1, hq2, hq3]
  obtain ⟨fresh, a, b, pc1, hb, ha, hbb, hget⟩ :=
    (hall _ s3 hr3).2 2 0 (3 / 2) (by decide) (by decide)
  rw [build_height_to_page_eq] at hb
  have hf := (Option.some.inj hb).symm
  subst hf
  have ea : a = 25 := by
    have h : arrayRead (height_table mixed_doc4 0) 2 = some 25 := by
      simp [arrayRead, height_table, height_entry, page_extent, rotation_swap,
        Finset.sum_range_succ, mixed_doc4]
      norm_num
    have h2 : arrayRead (height_table mixed_doc4 0) 2 = some a := ha
    rw [h] at h2
    exact (Option.some.inj h2).symm
  have eb : b = 20 := by
    have h : arrayRead (dual_table mixed_doc4 0) 2 = some 20 := by
      simp [arrayRead, dual_table, dual_entry, dual_row_value, dual_row_offset, dual_start,
        dual_seed, page_extent, rotation_swap, mixed_doc4]
    have h2 : arrayRead (dual_table mixed_doc4 0) 2 = some b := hbb
    rw [h] at h2
    exact (Option.some.inj h2).symm
  subst ea eb
  refine ⟨pc0, sigs, hnew, s3, hr3, pc1, ?_⟩
  rw [hget]
  have t1 : truncToInt ((25 : ℚ) * (3 / 2)) = 37 := by
    have e : (25 : ℚ) * (3 / 2) = 75 / 2 := by norm_num
    rw [e, truncToInt_of_nonneg _ (by norm_num), Int.floor_eq_iff]
    norm_num
  have t2 : truncToInt ((20 : ℚ) * (3 / 2)) = 30 := by
    have e : (20 : ℚ) * (3 / 2) = 30 := by norm_num
    rw [e, truncToInt_of_nonneg _ (by norm_num), Int.floor_eq_iff]
    norm_num
  rw [t1, t2]

/-! ## Claim on construction -/

/-- C21: for every document, with thumbnails or without, construction returns
a cache whose current page is 0 when `n_pages > 0`, having emitted exactly the
signal `page-changed (0)`, and whose current page is `-1` when `n_pages = 0`,
having emitted nothing. -/
theorem C21_construction_current_page (doc : EvDocument) :
    ∃ pc sigs, ev_page_cache_new doc = some (pc, sigs) ∧
      (doc.n_pages > 0 → pc.current_page = 0 ∧ sigs = [Signal.page_changed 0]) ∧
      (doc.n_pages = 0 → pc.current_page = -1 ∧ sigs = []) := by
  obtain ⟨pc, sigs, hnew, _, _, hcur, _, _, hsig⟩ := ev_page_cache_new_state doc
  refine ⟨pc, sigs, hnew, ?_, ?_⟩
  · intro hn
    rw [hcur, hsig, if_pos hn, if_pos hn]
    exact ⟨rfl, rfl⟩
  · intro hn
    have h0 : ¬ doc.n_pages > 0 := by omega
    rw [hcur, hsig, if_neg h0, if_neg h0]
    exact ⟨rfl, rfl⟩

/-- Witness of C21: the five-page document with thumbnails and the ten-page
document without start on page 0 with the one signal `page-changed (0)`; the
document without pages starts on `-1` with no signal. -/
theorem C21_construction_current_page_witness :
    (∃ pc sigs, ev_page_cache_new thumb_doc5 = some (pc, sigs) ∧
      pc.current_page = 0 ∧ sigs = [Signal.page_changed 0]) ∧
    (∃ pc sigs, ev_page_cache_new labelled_doc10 = some (pc, sigs) ∧
      pc.current_page = 0 ∧ sigs = [Signal.page_changed 0]) ∧
    (∃ pc sigs, ev_page_cache_new empty_doc = some (pc, sigs) ∧
      pc.current_page = -1 ∧ sigs = []) := by
  refine ⟨?_, ?_, ?_⟩
  · obtain ⟨pc, sigs, hnew, h1, _⟩ := C21_construction_current_page thumb_doc5
    exact ⟨pc, sigs, hnew, h1 (by decide)⟩
  · obtain ⟨pc, sigs, hnew, h1, _⟩ := C21_construction_current_page labelled_doc10
    exact ⟨pc, sigs, hnew, h1 (by decide)⟩
  · obtain ⟨pc, sigs, hnew, _, h2⟩ := C21_construction_current_page empty_doc
    exact ⟨pc, sigs, hnew, h2 rfl⟩

/-! ## Claim on the page size against the maximum size -/

/-- The width and height `ev_page_cache_get_size` returns exceed the values of
`ev_page_cache_get_max_width` and `ev_page_cache_get_max_height` by at most 1,
when the page is no larger than the maximum page size and the scale is
non-negative. -/
theorem get_size_le_max_add_one (page_cache : EvPageCache) (page rotation : Int) (scale : ℚ)
    (hw0 : 0 ≤ (page_cache.document.page_size page).1)
    (hh0 : 0 ≤ (page_cache.document.page_size page).2)
    (hw : (page_cache.document.page_size page).1 ≤ page_cache.document.max_page_size.1)
    (hh : (page_cache.document.page_size page).2 ≤ page_cache.document.max_page_size.2)
    (hs : 0 ≤ scale) :
    (ev_page_cache_get_size page_cache page rotation scale).1 ≤
        ev_page_cache_get_max_width page_cache rotation scale + 1 ∧
    (ev_page_cache_get_size page_cache page rotation scale).2 ≤
        ev_page_cache_get_max_height page_cache rotation scale + 1 := by
  have key : ∀ a b : ℚ, 0 ≤ a → a ≤ b → truncToInt (a * scale + 1 / 2) ≤
      truncToInt (b * scale) + 1 := by
    intro a b ha hab
    have hb : 0 ≤ b := le_trans ha hab
    rw [truncToInt_of_nonneg _ (by positivity), truncToInt_of_nonneg _ (by positivity)]
    have h1 : a * scale + 1 / 2 ≤ b * scale + 1 := by nlinarith
    calc ⌊a * scale + 1 / 2⌋ ≤ ⌊b * scale + 1⌋ := Int.floor_le_floor h1
      _ = ⌊b * scale⌋ + 1 := Int.floor_add_one _
  by_cases h0 : rotation = 0 ∨ rotation = 180
  · simp only [ev_page_cache_get_size, ev_page_cache_get_max_width,
      ev_page_cache_get_max_height, h0, if_true]
    exact ⟨key _ _ hw0 hw, key _ _ hh0 hh⟩
  · simp only [ev_page_cache_get_size, ev_page_cache_get_max_width,
      ev_page_cache_get_max_height, h0, if_false]
    exact ⟨key _ _ hh0 hh, key _ _ hw0 hw⟩

/-- C22, the code at the failing input: on the one-page A4 document, whose
maximum page size is the size of its page, at rotation 0 and scale `3/2`,
`ev_page_cache_get_size` returns the width 893 while
`ev_page_cache_get_max_width` returns 892. -/
theorem C22_max_width_below_page_width :
    (a4_doc.page_size 0 = a4_doc.max_page_size) ∧ (0 : ℚ) ≤ 3 / 2 ∧
    ev_page_cache_get_size (fresh_cache a4_doc 0) 0 0 (3 / 2) = (893, 1263) ∧
    ev_page_cache_get_max_width (fresh_cache a4_doc 0) 0 (3 / 2) = 892 ∧
    ev_page_cache_get_max_height (fresh_cache a4_doc 0) 0 (3 / 2) = 1263 ∧
    ¬ ((ev_page_cache_get_size (fresh_cache a4_doc 0) 0 0 (3 / 2)).1 ≤
      ev_page_cache_get_max_width (fresh_cache a4_doc 0) 0 (3 / 2)) := by
  have t1 : truncToInt ((595 : ℚ) * (3 / 2) + 1 / 2) = 893 := by
    rw [truncToInt_of_nonneg _ (by norm_num), Int.floor_eq_iff]
    norm_num
  have t2 : truncToInt ((842 : ℚ) * (3 / 2) + 1 / 2) = 1263 := by
    rw [truncToInt_of_nonneg _ (by norm_num), Int.floor_eq_iff]
    norm_num
  have t3 : truncToInt ((595 : ℚ) * (3 / 2)) = 892 := by
    rw [truncToInt_of_nonneg _ (by norm_num), Int.floor_eq_iff]
    norm_num
  have t4 : truncToInt ((842 : ℚ) * (3 / 2)) = 1263 := by
    rw [truncToInt_of_nonneg _ (by norm_num), Int.floor_eq_iff]
    norm_num
  have e1 : ev_page_cache_get_size (fresh_cache a4_doc 0) 0 0 (3 / 2) = (893, 1263) := by
    simp only [ev_page_cache_get_size, fresh_cache, ev_page_cache_init, g_object_new, a4_doc,
      true_or, if_true, t1, t2]
  have e2 : ev_page_cache_get_max_width (fresh_cache a4_doc 0) 0 (3 / 2) = 892 := by
    simp only [ev_page_cache_get_max_width, fresh_cache, ev_page_cache_init, g_object_new,
      a4_doc, true_or, if_true, t3]
  have e3 : ev_page_cache_get_max_height (fresh_cache a4_doc 0) 0 (3 / 2) = 1263 := by
    simp only [ev_page_cache_get_max_height, fresh_cache, ev_page_cache_init, g_object_new,
      a4_doc, true_or, if_true, t4]
  refine ⟨rfl, by norm_num, e1, e2, e3, ?_⟩
  rw [e1, e2]
  decide

/-! ## Claim on the order of the dual-column table -/

theorem extent_or_zero_nonneg (doc : EvDocument) (rotation : Int)
    (hnn : ∀ j : Nat, j < doc.n_pages →
      0 ≤ (doc.page_size (j : Int)).1 ∧ 0 ≤ (doc.page_size (j : Int)).2) (j : Nat) :
    0 ≤ extent_or_zero doc (rotation_swap rotation) j := by
  rw [extent_or_zero_rotation_swap]
  unfold extent_in_range
  split
  · rename_i h
    exact extent_nonneg doc rotation j (hnn j h)
  · exact le_refl _

/-- The value stored by the dual loop does not decrease from one iteration to
the next, on a document with at least one page and non-negative sizes. -/
theorem dual_row_value_mono (doc : EvDocument) (rotation : Int) (hn : 1 ≤ doc.n_pages)
    (hnn : ∀ j : Nat, j < doc.n_pages →
      0 ≤ (doc.page_size (j : Int)).1 ∧ 0 ≤ (doc.page_size (j : Int)).2) (k : Nat) :
    dual_row_value doc (rotation_swap rotation) doc.is_page_size_uniform (uniform_size doc)
        (dual_start doc) (dual_seed doc (rotation_swap rotation)) k ≤
      dual_row_value doc (rotation_swap rotation) doc.is_page_size_uniform (uniform_size doc)
        (dual_start doc) (dual_seed doc (rotation_swap rotation)) (k + 1) := by
  cases hu : doc.is_page_size_uniform with
  | false =>
    simp only [dual_row_value, Bool.false_eq_true, if_false, dual_row_offset]
    have h1 := extent_or_zero_nonneg doc rotation hnn (dual_start doc + 2 * k)
    have h2 : 0 ≤ max (extent_or_zero doc (rotation_swap rotation) (dual_start doc + 2 * k))
        (extent_or_zero doc (rotation_swap rotation) (dual_start doc + 2 * k + 1)) :=
      le_trans h1 (le_max_left _ _)
    linarith
  | true =>
    have h0 : 0 ≤ extent doc rotation 0 := extent_nonneg doc rotation 0 (hnn 0 (by omega))
    have hue := uniform_height_eq_extent doc rotation hu
    have hdiv : (dual_start doc + 2 * (k + 1) + dual_start doc) / 2 =
        (dual_start doc + 2 * k + dual_start doc) / 2 + 1 := by omega
    simp only [dual_row_value, if_true, hue, hdiv]
    push_cast
    nlinarith

/-- The first value the dual loop stores is non-negative. -/
theorem dual_row_value_zero_nonneg (doc : EvDocument) (rotation : Int)
    (hnn : ∀ j : Nat, j < doc.n_pages →
      0 ≤ (doc.page_size (j : Int)).1 ∧ 0 ≤ (doc.page_size (j : Int)).2)
    (hgt : doc.n_pages > 2) :
    0 ≤ dual_row_value doc (rotation_swap rotation) doc.is_page_size_uniform (uniform_size doc)
        (dual_start doc) (dual_seed doc (rotation_swap rotation)) 0 := by
  have h0 : 0 ≤ extent doc rotation 0 := extent_nonneg doc rotation 0 (hnn 0 (by omega))
  cases hu : doc.is_page_size_uniform with
  | false =>
    have hb : decide (doc.n_pages > 2) = true := by simp [hgt]
    simp only [dual_row_value, Bool.false_eq_true, if_false, dual_row_offset, dual_seed, hb, hu,
      Bool.not_false, Bool.and_self, if_true, page_extent_rotation_swap]
    exact h0
  | true =>
    have hue := uniform_height_eq_extent doc rotation hu
    simp only [dual_row_value, if_true, hue]
    positivity

/-- Consecutive entries of the dual table are ordered when page sizes are
non-negative. -/
theorem dual_entry_mono (doc : EvDocument) (rotation : Int)
    (hnn : ∀ j : Nat, j < doc.n_pages →
      0 ≤ (doc.page_size (j : Int)).1 ∧ 0 ≤ (doc.page_size (j : Int)).2)
    (k : Nat) (hk : k ≤ doc.n_pages) :
    dual_entry doc (rotation_swap rotation) doc.is_page_size_uniform (uniform_size doc)
        (dual_start doc) (dual_seed doc (rotation_swap rotation)) k ≤
      dual_entry doc (rotation_swap rotation) doc.is_page_size_uniform (uniform_size doc)
        (dual_start doc) (dual_seed doc (rotation_swap rotation)) (k + 1) := by
  rcases dual_start_cases doc with ⟨hd, hle⟩ | ⟨hd, hgt⟩
  · have hlt1 : ¬ k < 0 := by omega
    have hlt2 : ¬ k + 1 < 0 := by omega
    simp only [dual_entry, hd, hlt1, hlt2, if_false, Nat.sub_zero]
    rcases Nat.even_or_odd k with hev | hodd
    · have he : (k + 1) / 2 = k / 2 := by
        obtain ⟨m, hm⟩ := hev
        omega
      rw [he]
    · have he : (k + 1) / 2 = k / 2 + 1 := by
        obtain ⟨m, hm⟩ := hodd
        omega
      have hn : 1 ≤ doc.n_pages := by
        obtain ⟨m, hm⟩ := hodd
        omega
      rw [he]
      have h := dual_row_value_mono doc rotation hn hnn (k / 2)
      rw [hd] at h
      exact h
  · by_cases hk0 : k = 0
    · subst hk0
      have h := dual_row_value_zero_nonneg doc rotation hnn hgt
      rw [hd] at h
      simp only [dual_entry, hd, Nat.lt_one_iff, if_true, Nat.zero_add, lt_irrefl, if_false,
        Nat.sub_self, Nat.zero_div]
      exact h
    · have hlt1 : ¬ k < 1 := by omega
      have hlt2 : ¬ k + 1 < 1 := by omega
      simp only [dual_entry, hd, hlt1, hlt2, if_false, Nat.add_sub_cancel]
      rcases Nat.even_or_odd k with hev | hodd
      · have he : k / 2 = (k - 1) / 2 + 1 := by
          obtain ⟨m, hm⟩ := hev
          omega
        rw [he]
        have h := dual_row_value_mono doc rotation (by omega) hnn ((k - 1) / 2)
        rw [hd] at h
        exact h
      · have he : k / 2 = (k - 1) / 2 := by
          obtain ⟨m, hm⟩ := hodd
          omega
        rw [he]

theorem dual_entry_zero (doc : EvDocument) (rotation : Int) :
    dual_entry doc (rotation_swap rotation) doc.is_page_size_uniform (uniform_size doc)
        (dual_start doc) (dual_seed doc (rotation_swap rotation)) 0 = 0 := by
  rcases dual_start_cases doc with ⟨h0, hn⟩ | ⟨h1, _⟩
  · have hb : decide (doc.n_pages > 2) = false := by simp [hn]
    cases hu : doc.is_page_size_uniform <;>
      simp [dual_entry, h0, dual_row_value, dual_row_offset, dual_seed, hb, hu]
  · simp [dual_entry, h1]

/-- C23: for every document with non-negative page sizes, with the uniform
flag or without, and every rotation, the builder returns a dual table with
`dual_height_to_page[0] = 0` and
`dual_height_to_page[k] ≤ dual_height_to_page[k+1]` for every `k ≤ n_pages`. -/
theorem C23_dual_height_to_page_monotone (page_cache : EvPageCache)
    (hnn : ∀ j : Nat, j < page_cache.document.n_pages →
      0 ≤ (page_cache.document.page_size (j : Int)).1 ∧
      0 ≤ (page_cache.document.page_size (j : Int)).2) :
    ∃ pc1, build_height_to_page page_cache = some pc1 ∧
      pc1.dual_height_to_page[0]? = some 0 ∧
      ∀ k : Nat, k ≤ page_cache.document.n_pages →
        ∃ a b, pc1.dual_height_to_page[k]? = some a ∧
          pc1.dual_height_to_page[k + 1]? = some b ∧ a ≤ b := by
  refine ⟨_, build_height_to_page_eq page_cache, ?_, ?_⟩
  · show (dual_table _ _)[0]? = _
    rw [dual_table_getElem? _ _ 0 (by omega), dual_entry_zero]
  · intro k hk
    exact ⟨_, _, dual_table_getElem? _ _ k (by omega),
      dual_table_getElem? _ _ (k + 1) (by omega), dual_entry_mono _ _ hnn k hk⟩

/-- Witness of C23: the four-page document at rotation 0 (heights 20, 5, 20,
9). -/
theorem C23_dual_height_to_page_monotone_witness :
    (∀ j : Nat, j < (fresh_cache mixed_doc4 0).document.n_pages →
      0 ≤ ((fresh_cache mixed_doc4 0).document.page_size (j : Int)).1 ∧
      0 ≤ ((fresh_cache mixed_doc4 0).document.page_size (j : Int)).2) ∧
    ∃ pc1, build_height_to_page (fresh_cache mixed_doc4 0) = some pc1 ∧
      pc1.dual_height_to_page[0]? = some 0 ∧
      ∀ k : Nat, k ≤ (fresh_cache mixed_doc4 0).document.n_pages →
        ∃ a b, pc1.dual_height_to_page[k]? = some a ∧
          pc1.dual_height_to_page[k + 1]? = some b ∧ a ≤ b := by
  have hyp : ∀ j : Nat, j < (fresh_cache mixed_doc4 0).document.n_pages →
      0 ≤ ((fresh_cache mixed_doc4 0).document.page_size (j : Int)).1 ∧
      0 ≤ ((fresh_cache mixed_doc4 0).document.page_size (j : Int)).2 := by
    intro j _
    simp only [fresh_cache, ev_page_cache_init, g_object_new, mixed_doc4]
    split_ifs <;> norm_num
  exact ⟨hyp, C23_dual_height_to_page_monotone (fresh_cache mixed_doc4 0) hyp⟩

/-! ## Binary64 rounding and the rounded builder -/

theorem round_half_even_eq (q : ℚ) (m : Int) (h : |q - m| < 1 / 2) : round_half_even q = m := by
  rw [abs_lt] at h
  obtain ⟨h1, h2⟩ := h
  unfold round_half_even
  by_cases hq : (m : ℚ) ≤ q
  · have hf : ⌊q⌋ = m := by
      rw [Int.floor_eq_iff]
      constructor
      · exact hq
      · linarith
    rw [hf, if_pos (by linarith)]
  · have hf : ⌊q⌋ = m - 1 := by
      rw [Int.floor_eq_iff]
      push_cast
      constructor <;> linarith
    rw [hf]
    push_cast
    rw [if_neg (by linarith), if_pos (by linarith)]
    ring

/-- Evaluation of the rounding: a result `x` in the binade `[2^(52+k), 2^(53+k))`
that is closer than half a spacing to `m * 2^k` rounds to `m * 2^k`. -/
theorem round_binary64_eq (x : ℚ) (m k : Int) (hk : -1074 ≤ k)
    (hlo : (2 : ℚ) ^ (52 + k) ≤ x) (hhi : x < (2 : ℚ) ^ (53 + k))
    (hnear : |x - m * (2 : ℚ) ^ k| < (2 : ℚ) ^ k / 2) :
    round_binary64 x = m * (2 : ℚ) ^ k := by
  have hpos : 0 < x := lt_of_lt_of_le (by positivity) hlo
  have hlog : Int.log 2 |x| = 52 + k := by
    rw [abs_of_pos hpos]
    have h1 : 52 + k ≤ Int.log 2 x := (Int.zpow_le_iff_le_log (by norm_num) hpos).mp hlo
    have h2 : Int.log 2 x < 53 + k := (Int.lt_zpow_iff_log_lt (by norm_num) hpos).mp hhi
    omega
  have he : binary64_ulp_exponent x = k := by
    unfold binary64_ulp_exponent
    rw [hlog]
    have : 52 + k - 52 = k := by ring
    rw [this]
    exact max_eq_left hk
  have h2k : (0 : ℚ) < 2 ^ k := by positivity
  unfold round_binary64
  rw [if_neg (not_lt.mpr (le_of_lt hpos)), he]
  have hr : round_half_even (x / 2 ^ k) = m := by
    apply round_half_even_eq
    have e : x / 2 ^ k - m = (x - m * 2 ^ k) / 2 ^ k := by
      field_simp
      ring
    rw [e, abs_div, abs_of_pos h2k, div_lt_iff₀ h2k]
    linarith
  rw [hr]

theorem height_loop_fl_spec (fl : ℚ → ℚ) (doc : EvDocument) (swap uniform : Bool)
    (u : ℚ × ℚ) :
    ∀ (fuel i : Nat) (saved : ℚ) (tbl : List ℚ),
      1 ≤ fuel → doc.n_pages + 2 ≤ fuel + i →
      tbl.length = doc.n_pages + 1 →
      (uniform = false → i ≤ doc.n_pages →
        saved = running_sum_fl fl doc swap i) →
      (∀ j, j < i → tbl[j]? = some (height_entry_fl fl doc swap uniform u j)) →
      ∃ tbl1 s1, height_loop_fl fl doc swap uniform u fuel i saved tbl = some (tbl1, s1) ∧
        tbl1.length = doc.n_pages + 1 ∧
        ∀ j, j ≤ doc.n_pages → tbl1[j]? = some (height_entry_fl fl doc swap uniform u j) := by
  intro fuel
  induction fuel with
  | zero => intro i saved tbl h; omega
  | succ fuel ih =>
    intro i saved tbl _ hfuel hlen hsaved hinv
    by_cases hi : i ≤ doc.n_pages
    · have hlt : i < tbl.length := by omega
      cases uniform with
      | true =>
        simp only [height_loop_fl, hi, if_true, arrayWrite_of_lt _ _ _ hlt]
        apply ih
        · omega
        · omega
        · simp [hlen]
        · intro h; cases h
        · intro j hj
          by_cases hji : j = i
          · subst hji
            rw [List.getElem?_set_self hlt]
            simp [height_entry_fl]
          · rw [getElem?_set_below _ _ _ _ (by omega)]
            exact hinv j (by omega)
      | false =>
        simp only [height_loop_fl, hi, if_true, arrayWrite_of_lt _ _ _ hlt]
        apply ih
        · omega
        · omega
        · simp [hlen]
        · intro _ hi1
          have hlt1 : i < doc.n_pages := by omega
          simp [running_sum_fl, ← hsaved rfl hi, hlt1]
        · intro j hj
          by_cases hji : j = i
          · subst hji
            rw [List.getElem?_set_self hlt]
            simp [height_entry_fl, hsaved rfl hi]
          · rw [getElem?_set_below _ _ _ _ (by omega)]
            exact hinv j (by omega)
    · refine ⟨tbl, saved, ?_, hlen, ?_⟩
      · simp [height_loop_fl, hi]
      · intro j hj
        exact hinv j (by omega)

theorem dual_entry_fl_pair_start (fl : ℚ → ℚ) (doc : EvDocument) (swap uniform : Bool)
    (u : ℚ × ℚ) (del : Nat) (seed : ℚ) (k : Nat) :
    dual_entry_fl fl doc swap uniform u del seed (del + 2 * k) =
      dual_row_value_fl fl doc swap uniform u del seed k := by
  have h : (del + 2 * k - del) / 2 = k := by omega
  simp [dual_entry_fl, h]

theorem dual_entry_fl_pair_second (fl : ℚ → ℚ) (doc : EvDocument) (swap uniform : Bool)
    (u : ℚ × ℚ) (del : Nat) (seed : ℚ) (k : Nat) :
    dual_entry_fl fl doc swap uniform u del seed (del + 2 * k + 1) =
      dual_row_value_fl fl doc swap uniform u del seed k := by
  have h : (del + 2 * k + 1 - del) / 2 = k := by omega
  have h2 : ¬ (del + 2 * k + 1 < del) := by omega
  simp [dual_entry_fl, h, h2]

theorem dual_loop_fl_spec (fl : ℚ → ℚ) (doc : EvDocument) (swap uniform : Bool)
    (u : ℚ × ℚ) (del : Nat) (seed : ℚ) :
    ∀ (fuel k i : Nat) (saved : ℚ) (tbl : List ℚ),
      i = del + 2 * k →
      1 ≤ fuel → doc.n_pages + 3 ≤ fuel + i →
      tbl.length = doc.n_pages + 2 →
      (uniform = false → i < doc.n_pages + 2 →
        saved = dual_row_offset_fl fl doc swap del seed k) →
      (∀ j, j < i → j < doc.n_pages + 2 →
        tbl[j]? = some (dual_entry_fl fl doc swap uniform u del seed j)) →
      ∃ tbl1 s1, dual_loop_fl fl doc swap uniform u del fuel i saved tbl = some (tbl1, s1) ∧
        tbl1.length = doc.n_pages + 2 ∧
        ∀ j, j < doc.n_pages + 2 →
          tbl1[j]? = some (dual_entry_fl fl doc swap uniform u del seed j) := by
  intro fuel
  induction fuel with
  | zero => intro k i saved tbl _ h; omega
  | succ fuel ih =>
    intro k i saved tbl hik _ hfuel hlen hsaved hinv
    by_cases hi : i < doc.n_pages + 2
    · have hlt : i < tbl.length := by omega
      have hnext : i + 2 = del + 2 * (k + 1) := by omega
      -- the entries below the new counter after storing at `i` (and `i + 1`)
      have hfill : ∀ (v : ℚ) (t : List ℚ), t.length = doc.n_pages + 2 →
          v = dual_row_value_fl fl doc swap uniform u del seed k →
          t[i]? = some v → (i + 1 < doc.n_pages + 2 → t[i + 1]? = some v) →
          (∀ j, j < i → t[j]? = tbl[j]?) →
          ∀ j, j < i + 2 → j < doc.n_pages + 2 →
            t[j]? = some (dual_entry_fl fl doc swap uniform u del seed j) := by
        intro v t _ hv h0 h1 hold j hj hjn
        by_cases hj0 : j < i
        · rw [hold j hj0]; exact hinv j hj0 hjn
        · by_cases hj1 : j = i
          · rw [hj1, h0, hv, hik, dual_entry_fl_pair_start]
          · have hj2 : j = i + 1 := by omega
            rw [hj2, h1 (by omega), hv, hik, dual_entry_fl_pair_second]
      by_cases hi1 : i + 1 < doc.n_pages + 2
      · have hlt1 : i + 1 < (tbl.set i saved).length := by simp; omega
        cases uniform with
        | true =>
          have hlt1u : ∀ v : ℚ, i + 1 < (tbl.set i v).length := by intro v; simp; omega
          simp only [dual_loop_fl, hi, hi1, if_true, arrayWrite_of_lt _ _ _ hlt,
            arrayWrite_of_lt _ _ _ (hlt1u _)]
          apply ih (k + 1) (i + 2) _ _ hnext (by omega) (by omega) (by simp [hlen])
          · intro h; cases h
          · apply hfill (fl ((((i + del) / 2 : Nat) : ℚ) * (if swap then u.1 else u.2))) _
              (by simp [hlen]) (by simp [dual_row_value_fl, hik])
            · rw [List.getElem?_set_ne (by omega), List.getElem?_set_self hlt]
            · intro _; rw [List.getElem?_set_self (hlt1u _)]
            · intro j hj
              rw [List.getElem?_set_ne (by omega), List.getElem?_set_ne (by omega)]
        | false =>
          simp only [dual_loop_fl, hi, hi1, if_true, arrayWrite_of_lt _ _ _ hlt,
            arrayWrite_of_lt _ _ _ hlt1]
          apply ih (k + 1) (i + 2) _ _ hnext (by omega) (by omega) (by simp [hlen])
          · intro _ _
            rw [hsaved rfl hi, hik]
            simp [dual_row_offset_fl, extent_or_zero]
          · apply hfill saved _ (by simp [hlen]) (by simp [dual_row_value_fl, hsaved rfl hi])
            · rw [List.getElem?_set_ne (by omega), List.getElem?_set_self hlt]
            · intro _; rw [List.getElem?_set_self hlt1]
            · intro j hj
              rw [List.getElem?_set_ne (by omega), List.getElem?_set_ne (by omega)]
      · cases uniform with
        | true =>
          simp only [dual_loop_fl, hi, hi1, if_true, if_false, arrayWrite_of_lt _ _ _ hlt]
          apply ih (k + 1) (i + 2) _ _ hnext (by omega) (by omega) (by simp [hlen])
          · intro h; cases h
          · apply hfill (fl ((((i + del) / 2 : Nat) : ℚ) * (if swap then u.1 else u.2))) _
              (by simp [hlen]) (by simp [dual_row_value_fl, hik])
            · rw [List.getElem?_set_self hlt]
            · intro h; omega
            · intro j hj
              rw [List.getElem?_set_ne (by omega)]
        | false =>
          simp only [dual_loop_fl, hi, hi1, if_true, if_false, arrayWrite_of_lt _ _ _ hlt]
          apply ih (k + 1) (i + 2) _ _ hnext (by omega) (by omega) (by simp [hlen])
          · intro _ h; omega
          · apply hfill saved _ (by simp [hlen]) (by simp [dual_row_value_fl, hsaved rfl hi])
            · rw [List.getElem?_set_self hlt]
            · intro h; omega
            · intro j hj
              rw [List.getElem?_set_ne (by omega)]
    · refine ⟨tbl, saved, ?_, hlen, ?_⟩
      · simp [dual_loop_fl, hi]
      · intro j hj
        exact hinv j (by omega) hj

/-- The rounded builder always returns, and its result is the cache with the
two tables replaced by `height_table_fl` and `dual_table_fl` for the cached
rotation. -/
theorem build_height_to_page_fl_eq (fl : ℚ → ℚ) (page_cache : EvPageCache) :
    build_height_to_page_fl fl page_cache =
      some { page_cache with
        height_to_page := height_table_fl fl page_cache.document page_cache.rotation,
        dual_height_to_page := dual_table_fl fl page_cache.document page_cache.rotation } := by
  obtain ⟨htp, s1, h1, hlen1, hent1⟩ :=
    height_loop_fl_spec fl page_cache.document (rotation_swap page_cache.rotation)
      page_cache.document.is_page_size_uniform (uniform_size page_cache.document)
      (page_cache.document.n_pages + 2) 0 0 (g_new0 (page_cache.document.n_pages + 1))
      (by omega) (by omega) (by simp [g_new0]) (by intro _ _; rfl)
      (by intro j hj; omega)
  obtain ⟨dhtp, s2, h2, hlen2, hent2⟩ :=
    dual_loop_fl_spec fl page_cache.document (rotation_swap page_cache.rotation)
      page_cache.document.is_page_size_uniform (uniform_size page_cache.document)
      (dual_start page_cache.document)
      (dual_seed page_cache.document (rotation_swap page_cache.rotation))
      (page_cache.document.n_pages + 3) 0 (dual_start page_cache.document)
      (dual_seed page_cache.document (rotation_swap page_cache.rotation))
      (g_new0 (page_cache.document.n_pages + 2))
      (by omega) (by omega) (by omega) (by simp [g_new0])
      (by intro _ _; simp [dual_row_offset_fl])
      (by
        intro j hj hjn
        simp [g_new0, hjn, dual_entry_fl, hj])
  have e1 : htp = height_table_fl fl page_cache.document page_cache.rotation :=
    list_eq_map_range _ _ _ hlen1 (fun j hj => hent1 j (by omega))
  have e2 : dhtp = dual_table_fl fl page_cache.document page_cache.rotation :=
    list_eq_map_range _ _ _ hlen2 hent2
  subst e1 e2
  unfold build_height_to_page_fl
  simp only [rotation_swap, uniform_size, dual_start, dual_seed] at h1 h2
  simp only [h1, h2]

theorem round_binary64_zero : round_binary64 0 = 0 := by
  simp [round_binary64, round_half_even]

/-- A natural number below `2^53` is a binary64 number: rounding leaves it
unchanged. -/
theorem round_binary64_natCast (z : Nat) (hz : z < 2 ^ 53) : round_binary64 (z : ℚ) = z := by
  by_cases h0 : z = 0
  · subst h0
    simpa using round_binary64_zero
  · have hb1 : 2 ^ Nat.log 2 z ≤ z := Nat.pow_log_le_self 2 h0
    have hb2 : z < 2 ^ (Nat.log 2 z + 1) := Nat.lt_pow_succ_log_self (by norm_num) z
    have hb : Nat.log 2 z < 53 := by
      by_contra hcon
      have h53 : 2 ^ 53 ≤ 2 ^ Nat.log 2 z :=
        Nat.pow_le_pow_right (by norm_num) (by omega)
      omega
    have hm : ((z * 2 ^ (52 - Nat.log 2 z) : Nat) : ℚ) * (2 : ℚ) ^ ((Nat.log 2 z : Int) - 52) =
        (z : ℚ) := by
      have e1 : (2 : ℚ) ^ ((Nat.log 2 z : Int) - 52) =
          ((2 : ℚ) ^ (52 - Nat.log 2 z : Nat))⁻¹ := by
        rw [← zpow_natCast, ← zpow_neg]
        congr 1
        omega
      rw [e1]
      push_cast
      field_simp
    have h := round_binary64_eq (z : ℚ) ((z * 2 ^ (52 - Nat.log 2 z) : Nat) : Int)
      ((Nat.log 2 z : Int) - 52) (by omega)
      (by
        have e : (52 : Int) + ((Nat.log 2 z : Int) - 52) = (Nat.log 2 z : Int) := by ring
        rw [e, zpow_natCast]
        exact_mod_cast hb1)
      (by
        have e : (53 : Int) + ((Nat.log 2 z : Int) - 52) = ((Nat.log 2 z + 1 : Nat) : Int) := by
          push_cast
          ring
        rw [e, zpow_natCast]
        exact_mod_cast hb2)
      (by
        have hm2 : (((z * 2 ^ (52 - Nat.log 2 z) : Nat) : Int) : ℚ) *
            (2 : ℚ) ^ ((Nat.log 2 z : Int) - 52) = (z : ℚ) := by
          rw [← hm]
          norm_cast
        rw [hm2, sub_self, abs_zero]
        positivity)
    rw [h]
    rw [← hm]
    norm_cast

/-! ## Agreement of the two branches of the rounded builder -/

theorem running_sum_fl_same_size (fl : ℚ → ℚ) (doc : EvDocument) (rotation : Int)
    (hsame : ∀ j : Nat, j < doc.n_pages → doc.page_size (j : Int) = doc.page_size 0)
    (hexact : ∀ k : Nat, k ≤ doc.n_pages →
      fl ((k : ℚ) * extent doc rotation 0) = (k : ℚ) * extent doc rotation 0) :
    ∀ i : Nat, i ≤ doc.n_pages →
      running_sum_fl fl doc (rotation_swap rotation) i = (i : ℚ) * extent doc rotation 0 := by
  intro i
  induction i with
  | zero => intro _; simp [running_sum_fl]
  | succ i ih =>
    intro hi
    have hlt : i < doc.n_pages := by omega
    simp only [running_sum_fl]
    rw [ih (by omega), page_extent_rotation_swap,
      extent_eq_of_truthful doc rotation hsame i hlt]
    have e : (i : ℚ) * extent doc rotation 0 + extent doc rotation 0 =
        ((i + 1 : Nat) : ℚ) * extent doc rotation 0 := by
      push_cast
      ring
    rw [e, hexact (i + 1) hi]

theorem dual_row_offset_fl_same_size (fl : ℚ → ℚ) (doc : EvDocument) (rotation : Int)
    (hsame : ∀ j : Nat, j < doc.n_pages → doc.page_size (j : Int) = doc.page_size 0)
    (hnn : ∀ j : Nat, j < doc.n_pages →
      0 ≤ (doc.page_size (j : Int)).1 ∧ 0 ≤ (doc.page_size (j : Int)).2)
    (hexact : ∀ k : Nat, k ≤ doc.n_pages →
      fl ((k : ℚ) * extent doc rotation 0) = (k : ℚ) * extent doc rotation 0)
    (hu : doc.is_page_size_uniform = false) :
    ∀ m : Nat, dual_start doc + 2 * m ≤ doc.n_pages + 1 →
      dual_row_offset_fl fl doc (rotation_swap rotation) (dual_start doc)
          (dual_seed doc (rotation_swap rotation)) m =
        ((dual_start doc + m : Nat) : ℚ) * extent doc rotation 0 := by
  intro m
  induction m with
  | zero =>
    intro _
    rcases dual_start_cases doc with ⟨hd, hle⟩ | ⟨hd, hgt⟩
    · have hb : decide (doc.n_pages > 2) = false := by simp [hle]
      simp [dual_row_offset_fl, dual_seed, hb, hd]
    · have hb : decide (doc.n_pages > 2) = true := by simp [hgt]
      simp [dual_row_offset_fl, dual_seed, hb, hd, hu, page_extent_rotation_swap]
  | succ m ih =>
    intro hm
    have hlt : dual_start doc + 2 * m < doc.n_pages := by omega
    have h0 : 0 ≤ extent doc rotation 0 := extent_nonneg doc rotation 0 (hnn 0 (by omega))
    have e1 : extent_or_zero doc (rotation_swap rotation) (dual_start doc + 2 * m) =
        extent doc rotation 0 := by
      rw [extent_or_zero_rotation_swap]
      simp only [extent_in_range, hlt, if_true]
      exact extent_eq_of_truthful doc rotation hsame _ hlt
    have e2 : max (extent doc rotation 0)
        (extent_or_zero doc (rotation_swap rotation) (dual_start doc + 2 * m + 1)) =
          extent doc rotation 0 := by
      rw [extent_or_zero_rotation_swap]
      by_cases h2 : dual_start doc + 2 * m + 1 < doc.n_pages
      · simp only [extent_in_range, h2, if_true]
        rw [extent_eq_of_truthful doc rotation hsame _ h2]
        exact max_self _
      · simp only [extent_in_range, h2, if_false]
        exact max_eq_left h0
    simp only [dual_row_offset_fl]
    rw [ih (by omega), e1, e2]
    have e : ((dual_start doc + m : Nat) : ℚ) * extent doc rotation 0 + extent doc rotation 0 =
        ((dual_start doc + (m + 1) : Nat) : ℚ) * extent doc rotation 0 := by
      push_cast
      ring
    rw [e, hexact _ (by omega)]

/-- Entry `i` of the single table of the rounded builder, in both branches, on
a document whose pages all have the size of page 0 and for which rounding
leaves the multiples of the page extent unchanged. -/
theorem height_entry_fl_same_size (fl : ℚ → ℚ) (doc : EvDocument) (rotation : Int)
    (hsame : ∀ j : Nat, j < doc.n_pages → doc.page_size (j : Int) = doc.page_size 0)
    (hexact : ∀ k : Nat, k ≤ doc.n_pages →
      fl ((k : ℚ) * extent doc rotation 0) = (k : ℚ) * extent doc rotation 0)
    (i : Nat) (hi : i ≤ doc.n_pages) :
    height_entry_fl fl doc (rotation_swap rotation) doc.is_page_size_uniform
        (uniform_size doc) i = (i : ℚ) * extent doc rotation 0 := by
  cases hu : doc.is_page_size_uniform with
  | false =>
    simp only [height_entry_fl, Bool.false_eq_true, if_false]
    exact running_sum_fl_same_size fl doc rotation hsame hexact i hi
  | true =>
    have hue := uniform_height_eq_extent doc rotation hu
    simp only [height_entry_fl, if_true, hue]
    exact hexact i hi

/-- Entry `k` of the dual table of the rounded builder, in both branches,
under the same conditions and non-negative sizes. -/
theorem dual_entry_fl_same_size (fl : ℚ → ℚ) (doc : EvDocument) (rotation : Int)
    (hsame : ∀ j : Nat, j < doc.n_pages → doc.page_size (j : Int) = doc.page_size 0)
    (hnn : ∀ j : Nat, j < doc.n_pages →
      0 ≤ (doc.page_size (j : Int)).1 ∧ 0 ≤ (doc.page_size (j : Int)).2)
    (hexact : ∀ k : Nat, k ≤ doc.n_pages →
      fl ((k : ℚ) * extent doc rotation 0) = (k : ℚ) * extent doc rotation 0)
    (k : Nat) (hk : k ≤ doc.n_pages + 1) :
    dual_entry_fl fl doc (rotation_swap rotation) doc.is_page_size_uniform (uniform_size doc)
        (dual_start doc) (dual_seed doc (rotation_swap rotation)) k =
      (((k + dual_start doc) / 2 : Nat) : ℚ) * extent doc rotation 0 := by
  have hd := dual_start_cases doc
  by_cases hkd : k < dual_start doc
  · have h1 : (k + dual_start doc) / 2 = 0 := by omega
    simp [dual_entry_fl, hkd, h1]
  · have h1 : (k + dual_start doc) / 2 = dual_start doc + (k - dual_start doc) / 2 := by omega
    cases hu : doc.is_page_size_uniform with
    | false =>
      simp only [dual_entry_fl, hkd, if_false, dual_row_value_fl, Bool.false_eq_true, h1]
      exact dual_row_offset_fl_same_size fl doc rotation hsame hnn hexact hu _ (by omega)
    | true =>
      have hue := uniform_height_eq_extent doc rotation hu
      have h2 : (dual_start doc + 2 * ((k - dual_start doc) / 2) + dual_start doc) / 2 =
          dual_start doc + (k - dual_start doc) / 2 := by omega
      simp only [dual_entry_fl, hkd, if_false, dual_row_value_fl, if_true, hue, h1, h2]
      exact hexact _ (by omega)

theorem height_table_fl_getElem? (fl : ℚ → ℚ) (doc : EvDocument) (rotation : Int) (j : Nat)
    (hj : j ≤ doc.n_pages) :
    (height_table_fl fl doc rotation)[j]? =
      some (height_entry_fl fl doc (rotation_swap rotation) doc.is_page_size_uniform
        (uniform_size doc) j) := by
  have h : j < doc.n_pages + 1 := by omega
  simp [height_table_fl, h]

/-- With no rounding the rounded loops are the loops of `build_height_to_page`. -/
theorem height_loop_fl_id (doc : EvDocument) (swap uniform : Bool) (u : ℚ × ℚ) :
    ∀ (fuel i : Nat) (saved_height : ℚ) (tbl : List ℚ),
      height_loop_fl id doc swap uniform u fuel i saved_height tbl =
        height_loop doc swap uniform u fuel i saved_height tbl := by
  intro fuel
  induction fuel with
  | zero => intro i s tbl; rfl
  | succ fuel ih =>
    intro i s tbl
    simp only [height_loop_fl, height_loop, id, ih]

theorem dual_loop_fl_id (doc : EvDocument) (swap uniform : Bool) (u : ℚ × ℚ) (del : Nat) :
    ∀ (fuel i : Nat) (saved_height : ℚ) (tbl : List ℚ),
      dual_loop_fl id doc swap uniform u del fuel i saved_height tbl =
        dual_loop doc swap uniform u del fuel i saved_height tbl := by
  intro fuel
  induction fuel with
  | zero => intro i s tbl; rfl
  | succ fuel ih =>
    intro i s tbl
    simp only [dual_loop_fl, dual_loop, id, ih]

/-- With no rounding the rounded builder is `build_height_to_page`. -/
theorem build_height_to_page_fl_id (page_cache : EvPageCache) :
    build_height_to_page_fl id page_cache = build_height_to_page page_cache := by
  simp only [build_height_to_page_fl, build_height_to_page, height_loop_fl_id, dual_loop_fl_id]

/-- C20 (amended): for every rounding `fl` of the `double` operations, every
document whose pages all have the size of page 0, widths and heights
non-negative, and every rotation such that rounding leaves each multiple
`k * e`, `0 ≤ k ≤ n_pages`, of the page extent `e` in the scroll direction
unchanged, the builder returns the same single table and the same dual table
for the document with the uniform flag set (closed-form branch) and for the
document with the flag cleared (accumulating branch). -/
theorem C20_branches_agree (fl : ℚ → ℚ) (doc : EvDocument) (pc_t pc_f : EvPageCache)
    (ht : pc_t.document = { doc with is_page_size_uniform := true })
    (hf : pc_f.document = { doc with is_page_size_uniform := false })
    (hrot : pc_t.rotation = pc_f.rotation)
    (hsame : ∀ j : Nat, j < doc.n_pages → doc.page_size (j : Int) = doc.page_size 0)
    (hnn : ∀ j : Nat, j < doc.n_pages →
      0 ≤ (doc.page_size (j : Int)).1 ∧ 0 ≤ (doc.page_size (j : Int)).2)
    (hexact : ∀ k : Nat, k ≤ doc.n_pages →
      fl ((k : ℚ) * extent doc pc_f.rotation 0) = (k : ℚ) * extent doc pc_f.rotation 0) :
    ∃ r_t r_f, build_height_to_page_fl fl pc_t = some r_t ∧
      build_height_to_page_fl fl pc_f = some r_f ∧
      r_t.height_to_page = r_f.height_to_page ∧
      r_t.dual_height_to_page = r_f.dual_height_to_page := by
  refine ⟨_, _, build_height_to_page_fl_eq fl pc_t, build_height_to_page_fl_eq fl pc_f, ?_, ?_⟩
  · show height_table_fl fl pc_t.document pc_t.rotation =
      height_table_fl fl pc_f.document pc_f.rotation
    rw [ht, hf, hrot]
    unfold height_table_fl
    apply List.map_congr_left
    intro i hi
    have hi1 : i ≤ doc.n_pages := by
      have := List.mem_range.mp hi
      exact Nat.lt_succ_iff.mp this
    have e1 := height_entry_fl_same_size fl { doc with is_page_size_uniform := true }
      pc_f.rotation hsame hexact i hi1
    have e2 := height_entry_fl_same_size fl { doc with is_page_size_uniform := false }
      pc_f.rotation hsame hexact i hi1
    rw [e1, e2]
    rfl
  · show dual_table_fl fl pc_t.document pc_t.rotation =
      dual_table_fl fl pc_f.document pc_f.rotation
    rw [ht, hf, hrot]
    unfold dual_table_fl
    apply List.map_congr_left
    intro k hk
    have hk1 : k ≤ doc.n_pages + 1 := by
      have := List.mem_range.mp hk
      exact Nat.lt_succ_iff.mp this
    have e1 := dual_entry_fl_same_size fl { doc with is_page_size_uniform := true }
      pc_f.rotation hsame hnn hexact k hk1
    have e2 := dual_entry_fl_same_size fl { doc with is_page_size_uniform := false }
      pc_f.rotation hsame hnn hexact k hk1
    rw [e1, e2]
    rfl

/-- Witness of C20: the three-page document of page size `(100, 200)` at
rotation 90 under binary64 rounding, with the uniform flag set and cleared;
the multiples `0`, `100`, `200`, `300` of the page extent are binary64
numbers. -/
theorem C20_branches_agree_witness :
    (∀ j : Nat, j < uniform_doc3.n_pages →
      uniform_doc3.page_size (j : Int) = uniform_doc3.page_size 0) ∧
    (∀ j : Nat, j < uniform_doc3.n_pages →
      0 ≤ (uniform_doc3.page_size (j : Int)).1 ∧ 0 ≤ (uniform_doc3.page_size (j : Int)).2) ∧
    (∀ k : Nat, k ≤ uniform_doc3.n_pages →
      round_binary64 ((k : ℚ) * extent uniform_doc3 90 0) =
        (k : ℚ) * extent uniform_doc3 90 0) ∧
    ∃ r_t r_f,
      build_height_to_page_fl round_binary64
        (fresh_cache { uniform_doc3 with is_page_size_uniform := true } 90) = some r_t ∧
      build_height_to_page_fl round_binary64
        (fresh_cache { uniform_doc3 with is_page_size_uniform := false } 90) = some r_f ∧
      r_t.height_to_page = r_f.height_to_page ∧
      r_t.dual_height_to_page = r_f.dual_height_to_page := by
  have hsame : ∀ j : Nat, j < uniform_doc3.n_pages →
      uniform_doc3.page_size (j : Int) = uniform_doc3.page_size 0 := by
    intro j _
    rfl
  have hnn : ∀ j : Nat, j < uniform_doc3.n_pages →
      0 ≤ (uniform_doc3.page_size (j : Int)).1 ∧ 0 ≤ (uniform_doc3.page_size (j : Int)).2 := by
    intro j _
    simp [uniform_doc3]
  have hexact : ∀ k : Nat, k ≤ uniform_doc3.n_pages →
      round_binary64 ((k : ℚ) * extent uniform_doc3 90 0) =
        (k : ℚ) * extent uniform_doc3 90 0 := by
    intro k hk
    have hk3 : k ≤ 3 := hk
    have he : extent uniform_doc3 90 0 = 100 := by
      simp [extent, rotation_swap, uniform_doc3]
    have hc : (k : ℚ) * 100 = ((k * 100 : Nat) : ℚ) := by push_cast; ring
    rw [he, hc]
    exact round_binary64_natCast (k * 100) (by omega)
  exact ⟨hsame, hnn, hexact,
    C20_branches_agree round_binary64 uniform_doc3 _ _ rfl rfl rfl hsame hnn hexact⟩

theorem running_sum_fl_a4_doc7 :
    running_sum_fl round_binary64 { a4_doc7 with is_page_size_uniform := false } false 7 =
      6479674910158357 / 1099511627776 := by
  have hp : ∀ i : Nat,
      page_extent { a4_doc7 with is_page_size_uniform := false } false i =
        7405342754466693 / 8796093022208 := by
    intro i
    simp [page_extent, a4_doc7]
  have s1 : running_sum_fl round_binary64 { a4_doc7 with is_page_size_uniform := false }
      false 1 = 7405342754466693 / 8796093022208 := by
    show round_binary64 (running_sum_fl round_binary64 _ false 0 + page_extent _ false 0) = _
    rw [hp]
    show round_binary64 (0 + 7405342754466693 / 8796093022208) = _
    rw [round_binary64_eq _ 7405342754466693 (-43) (by norm_num) (by norm_num) (by norm_num)
      (by rw [abs_lt]; constructor <;> norm_num)]
    norm_num
  have s2 : running_sum_fl round_binary64 { a4_doc7 with is_page_size_uniform := false }
      false 2 = 7405342754466693 / 4398046511104 := by
    show round_binary64 (running_sum_fl round_binary64 _ false 1 + page_extent _ false 1) = _
    rw [hp, s1]
    rw [round_binary64_eq _ 7405342754466693 (-42) (by norm_num) (by norm_num) (by norm_num)
      (by rw [abs_lt]; constructor <;> norm_num)]
    norm_num
  have s3 : running_sum_fl round_binary64 { a4_doc7 with is_page_size_uniform := false }
      false 3 = 1388501766462505 / 549755813888 := by
    show round_binary64 (running_sum_fl round_binary64 _ false 2 + page_extent _ false 2) = _
    rw [hp, s2]
    rw [round_binary64_eq _ 5554007065850020 (-41) (by norm_num) (by norm_num) (by norm_num)
      (by rw [abs_lt]; constructor <;> norm_num)]
    norm_num
  have s4 : running_sum_fl round_binary64 { a4_doc7 with is_page_size_uniform := false }
      false 4 = 7405342754466693 / 2199023255552 := by
    show round_binary64 (running_sum_fl round_binary64 _ false 3 + page_extent _ false 3) = _
    rw [hp, s3]
    rw [round_binary64_eq _ 7405342754466693 (-41) (by norm_num) (by norm_num) (by norm_num)
      (by rw [abs_lt]; constructor <;> norm_num)]
    norm_num
  have s5 : running_sum_fl round_binary64 { a4_doc7 with is_page_size_uniform := false }
      false 5 = 4628339221541683 / 1099511627776 := by
    show round_binary64 (running_sum_fl round_binary64 _ false 4 + page_extent _ false 4) = _
    rw [hp, s4]
    rw [round_binary64_eq _ 4628339221541683 (-40) (by norm_num) (by norm_num) (by norm_num)
      (by rw [abs_lt]; constructor <;> norm_num)]
    norm_num
  have s6 : running_sum_fl round_binary64 { a4_doc7 with is_page_size_uniform := false }
      false 6 = 1388501766462505 / 274877906944 := by
    show round_binary64 (running_sum_fl round_binary64 _ false 5 + page_extent _ false 5) = _
    rw [hp, s5]
    rw [round_binary64_eq _ 5554007065850020 (-40) (by norm_num) (by norm_num) (by norm_num)
      (by rw [abs_lt]; constructor <;> norm_num)]
    norm_num
  show round_binary64 (running_sum_fl round_binary64 _ false 6 + page_extent _ false 6) = _
  rw [hp, s6]
  rw [round_binary64_eq _ 6479674910158357 (-40) (by norm_num) (by norm_num) (by norm_num)
    (by rw [abs_lt]; constructor <;> norm_num)]
  norm_num

theorem round_binary64_seven_a4_heights :
    round_binary64 ((7 : ℚ) * (7405342754466693 / 8796093022208)) =
      1619918727539589 / 274877906944 := by
  rw [round_binary64_eq _ 6479674910158356 (-40) (by norm_num) (by norm_num) (by norm_num)
    (by rw [abs_lt]; constructor <;> norm_num)]
  norm_num

/-- Counterexample to C20 as stated: the seven-page A4 document, all pages of
the size `(595.28, 841.89)` as `double` values, at rotation 0 under binary64
rounding.  Entry 7 of the single table is the rounded product `7 * 841.89` in
the closed-form branch and the seven-fold rounded sum in the accumulating
branch; the two differ in the last binary digit, so the tables differ. -/
theorem C20_counterexample :
    1 ≤ a4_doc7.n_pages ∧
    (∀ j : Nat, j < a4_doc7.n_pages → a4_doc7.page_size (j : Int) = a4_doc7.page_size 0) ∧
    (∀ j : Nat, j < a4_doc7.n_pages →
      0 ≤ (a4_doc7.page_size (j : Int)).1 ∧ 0 ≤ (a4_doc7.page_size (j : Int)).2) ∧
    ∃ r_t r_f,
      build_height_to_page_fl round_binary64
        (fresh_cache { a4_doc7 with is_page_size_uniform := true } 0) = some r_t ∧
      build_height_to_page_fl round_binary64
        (fresh_cache { a4_doc7 with is_page_size_uniform := false } 0) = some r_f ∧
      r_t.height_to_page[7]? = some (1619918727539589 / 274877906944) ∧
      r_f.height_to_page[7]? = some (6479674910158357 / 1099511627776) ∧
      r_t.height_to_page ≠ r_f.height_to_page := by
  have hsame : ∀ j : Nat, j < a4_doc7.n_pages →
      a4_doc7.page_size (j : Int) = a4_doc7.page_size 0 := by
    intro j _
    rfl
  have hnn : ∀ j : Nat, j < a4_doc7.n_pages →
      0 ≤ (a4_doc7.page_size (j : Int)).1 ∧ 0 ≤ (a4_doc7.page_size (j : Int)).2 := by
    intro j _
    simp only [a4_doc7]
    constructor <;> norm_num
  have hs : rotation_swap 0 = false := by decide
  have et :
      (height_table_fl round_binary64 { a4_doc7 with is_page_size_uniform := true } 0)[7]? =
        some (1619918727539589 / 274877906944) := by
    rw [height_table_fl_getElem? _ _ _ 7 (by decide), hs]
    simp only [height_entry_fl, uniform_size, a4_doc7, if_true, Bool.false_eq_true, if_false,
      Nat.cast_ofNat]
    rw [round_binary64_seven_a4_heights]
  have ef :
      (height_table_fl round_binary64 { a4_doc7 with is_page_size_uniform := false } 0)[7]? =
        some (6479674910158357 / 1099511627776) := by
    rw [height_table_fl_getElem? _ _ _ 7 (by decide), hs]
    simp only [height_entry_fl, Bool.false_eq_true, if_false]
    rw [running_sum_fl_a4_doc7]
  refine ⟨by decide, hsame, hnn, _, _, build_height_to_page_fl_eq round_binary64 _,
    build_height_to_page_fl_eq round_binary64 _, et, ef, ?_⟩
  exact ne_of_getElem?_ne _ _ 7 _ _ et ef (by norm_num)

end Evince
